import Mathlib

/-!
# Real-time chat backend: coordination store, rate limiter, private-message delivery

A shallow embedding of the backend's socket layer
(`config/socket.js`, `services/redis.service.js`, `services/socket.service.js`,
`models/Message.js`, `models/User.js`, `models/Group.js`, `models/GroupMessage.js`)
and of the HTTP controllers and routes the statements refer to
(`controllers/auth.controller.js`, `controllers/chat.controller.js`,
`controllers/group.controller.js`, `routes/chat.routes.js`, `services/twilio.service.js`).

* The coordination store is one keyspace from key strings to typed values with an
  optional absolute expiry; the commands used by the service are modelled after the
  documented behaviour of the store's commands.
* The document store holds the `Message` and `User` collections as lists; message
  identifiers are natural numbers, user identifiers are the 24-character strings that
  also appear in store keys.
* Every handler is a state transformer over `World` that may throw; a thrown error
  keeps the effects made before it, as an `await` chain does.
* A handler invocation runs at the single instant `World.now` (milliseconds);
  counters and times are mathematical integers (the values met here stay far below
  the range where number replies stop being exact).
-/

namespace Chat

/-- Milliseconds since the epoch, as returned by `Date.now()`. -/
abbrev Time := Int

/-! ## Data model -/

/-- The record that `storeOTP` and `verifyOTP` keep under `otp:<mobileNumber>`:
`{ otp, attempts, createdAt }`; `verifyOTP` rewrites it without `createdAt`. -/
structure OtpData where
  otp : String
  attempts : Int
  createdAt : Option Time
  deriving DecidableEq

/-- One character inside a JSON string literal, as `JSON.stringify` writes it. -/
def jsonEscape (c : Char) : List Char :=
  if c = '"' then ['\\', '"']
  else if c = '\\' then ['\\', '\\']
  else if c = '\n' then ['\\', 'n']
  else if c = '\r' then ['\\', 'r']
  else if c = '\t' then ['\\', 't']
  else if c.toNat = 8 then ['\\', 'b']
  else if c.toNat = 12 then ['\\', 'f']
  else if c.toNat < 32 then
    ['\\', 'u', '0', '0', Nat.digitChar (c.toNat / 16), Nat.digitChar (c.toNat % 16)]
  else [c]

/-- The JSON string literal of a string. -/
def jsonQuote (s : String) : String :=
  String.mk (['"'] ++ (s.data.map jsonEscape).flatten ++ ['"'])

/-- The `JSON.stringify` text of an OTP record. -/
def OtpData.text (d : OtpData) : String :=
  "\x7b\"otp\":" ++ jsonQuote d.otp ++ ",\"attempts\":" ++ toString d.attempts ++
    (match d.createdAt with
      | some t => ",\"createdAt\":" ++ toString t
      | none => "") ++ "\x7d"

/-- A value held under a key of the coordination store. `int n` is a string
holding the decimal integer `n` (what `INCR` creates and reads); `json d` is a
string holding the `JSON.stringify` text of the record `d`. -/
inductive RVal where
  | int (n : Int)
  | str (s : String)
  | hash (fields : String → Option Int)
  | set (members : List String)
  | json (d : OtpData)

/-- A key's value together with its absolute expiry time, if it has one. -/
structure Entry where
  val : RVal
  expireAt : Option Time

/-- Commands of the coordination store used by `redis.service.js`. -/
inductive RedisCmd where
  | incr | expire | get | set | del | setex | exists | hincrby | hgetall | hdel
  | sadd | srem | smembers | publish
  deriving DecidableEq

/-- Calls into the document store. -/
inductive DbOp where
  | messageCreate | messagePopulate | messageSave | messageFindByIdAndUpdate
  | userFindById
  | groupFindById | groupFind | groupMessageCreate | groupMessagePopulate
  | groupUpdateOne | groupSave | groupMessageUpdateOne | messageFind
  deriving DecidableEq

/-- An outgoing call to a collaborator; `World.down` says which ones fail. -/
inductive Call where
  | redis (c : RedisCmd)
  | db (o : DbOp)
  | sms
  deriving DecidableEq

/-- A document of the `User` collection (`models/User.js`). -/
structure UserDoc where
  _id : String
  mobileNumber : String
  name : String
  avatar : String
  deriving DecidableEq

/-- The fields selected by `populate('from', 'name avatar')`. -/
structure UserInfo where
  _id : String
  name : String
  avatar : String
  deriving DecidableEq

/-- A document of the `Message` collection (`models/Message.js`). The fields
`from_` and `to_` are the schema's `from` and `to`. -/
structure MessageDoc where
  _id : Nat
  from_ : String
  to_ : String
  text : String
  timestamp : Time
  delivered : Bool
  read : Bool
  readAt : Option Time
  deriving DecidableEq

/-- A message identifier as received from a client: either it casts to an
identifier of the collection or the cast fails. -/
inductive RawId where
  | castable (id : Nat)
  | uncastable (raw : String)
  deriving DecidableEq

/-- The payload `messageData` built by the `private_message` handler. -/
structure MessageData where
  id : Nat
  from_ : Option UserInfo
  to_ : String
  text : String
  timestamp : Time
  deriving DecidableEq

/-- A document of the `Group` collection (`models/Group.js`). -/
structure GroupDoc where
  _id : String
  name : String
  createdBy : String
  members : List String
  admins : List String
  deriving DecidableEq

/-- A document of the `GroupMessage` collection (`models/GroupMessage.js`). -/
structure GroupMessageDoc where
  _id : Nat
  groupId : String
  from_ : String
  text : String
  timestamp : Time
  readBy : List String
  deriving DecidableEq

/-- The payload `messageData` built by the `group_message` handler; `groupId` is
the string the client sent. -/
structure GroupMessageData where
  id : Nat
  groupId : String
  from_ : Option UserInfo
  text : String
  timestamp : Time
  deriving DecidableEq

/-- A message on the publish/subscribe bus: the `JSON.stringify` of a payload, or
a string that `JSON.parse` rejects. -/
inductive BusMessage where
  | json (data : GroupMessageData)
  | malformed (raw : String)
  deriving DecidableEq

/-- Outbound events with their payloads. -/
inductive Event where
  | error (message : String)
  | connect_error (message : String)
  | connected (userId : String)
  | user_online (userId : String)
  | user_offline (userId : String)
  | receive_message (data : MessageData)
  | message_delivered (messageId : Nat)
  | message_sent (messageId : Nat) (delivered : Bool)
  | message_read_receipt (messageId : RawId) (readBy : String) (readAt : Option Time)
  | typing_status (userId : String) (isTyping : Bool)
  | group_message_received (data : GroupMessageData)
  | member_left (groupId userId : String)
  deriving DecidableEq

/-- Where an event is sent: `socket.emit`, `io.to(room).emit`,
`socket.broadcast.emit`. -/
inductive Target where
  | socket (id : String)
  | room (name : String)
  | others (id : String)
  deriving DecidableEq

/-- One emitted event. -/
structure Emission where
  target : Target
  event : Event
  deriving DecidableEq

/-- An authenticated connection: `socket.id` and `socket.userId`. -/
structure Socket where
  id : String
  userId : String
  deriving DecidableEq

/-- Server-side state of a live connection: the rooms it is in and whether the
`connection` handler has registered its event listeners. -/
structure Conn where
  id : String
  userId : String
  rooms : List String
  listening : Bool
  deriving DecidableEq

/-- An interval started by `setInterval` in the `connection` handler of the
connection `socketId`: every `everyMs` milliseconds it re-marks `userId` online.
It lives until `clearInterval`, whatever happens to the connection. -/
structure Timer where
  socketId : String
  userId : String
  everyMs : Int
  deriving DecidableEq

/-- The whole state the handlers act on. -/
structure World where
  now : Time
  redis : String → Option Entry
  messages : List MessageDoc
  users : List UserDoc
  conns : List Conn
  out : List Emission
  down : Call → Bool
  jwtVerify : Time → String → Option (Option String)
  groups : List GroupDoc
  groupMessages : List GroupMessageDoc
  published : List (String × BusMessage)
  timers : List Timer
  sms : List (String × String)

/-! ## Effects -/

/-- A computation over the world that returns a value or throws. -/
def Eff (α : Type) : Type := World → Except String α × World

namespace Eff

/-- Run a computation from a world. -/
def run {α : Type} (x : Eff α) (w : World) : Except String α × World := x w

/-- Build a computation from its transition function. -/
def mk {α : Type} (f : World → Except String α × World) : Eff α := f

/-- Sequencing: a throw skips the rest and keeps the world reached so far. -/
def bind {α β : Type} (x : Eff α) (f : α → Eff β) : Eff β := fun w =>
  match x w with
  | (Except.ok a, w1) => f a w1
  | (Except.error e, w1) => (Except.error e, w1)

/-- The `try ... catch` block. -/
def tryCatch {α : Type} (x : Eff α) (h : String → Eff α) : Eff α := fun w =>
  match x w with
  | (Except.ok a, w1) => (Except.ok a, w1)
  | (Except.error e, w1) => h e w1

/-- Throw an error. -/
def throw {α : Type} (e : String) : Eff α := fun w => (Except.error e, w)

end Eff

instance : Monad Eff where
  pure a := fun w => (Except.ok a, w)
  bind := Eff.bind

/-- The world after running a handler. -/
def exec {α : Type} (x : Eff α) (w : World) : World := (x.run w).2

/-- The call `c` goes through, or throws when the collaborator is down. -/
def call (c : Call) : Eff Unit := Eff.mk fun w =>
  if w.down c then (Except.error "collaborator unavailable", w) else (Except.ok (), w)

/-- Record an emitted event. -/
def emit (t : Target) (e : Event) : Eff Unit := Eff.mk fun w =>
  (Except.ok (), { w with out := w.out ++ [Emission.mk t e] })

/-- Read the clock, as `new Date()`. -/
def getNow : Eff Time := Eff.mk fun w => (Except.ok w.now, w)

/-! ## Coordination store commands -/

/-- An entry is live until the clock has passed its expiry. -/
def Entry.live (e : Entry) (now : Time) : Bool :=
  match e.expireAt with
  | none => true
  | some t => decide (now ≤ t)

/-- The live entry under a key, if any. -/
def lookup (w : World) (k : String) : Option Entry :=
  match w.redis k with
  | some e => if e.live w.now then some e else none
  | none => none

/-- The world when the clock reads `t`. -/
def World.atTime (w : World) (t : Time) : World := { w with now := t }

/-- Replace what is stored under a key. -/
def World.put (w : World) (k : String) (e : Option Entry) : World :=
  { w with redis := Function.update w.redis k e }

namespace Redis

/-- `INCR key`: an absent key counts from 0 and gets no expiry; an existing
counter keeps its expiry. -/
def incr (k : String) : Eff Int := do
  call (Call.redis RedisCmd.incr)
  Eff.mk fun w =>
    match lookup w k with
    | none => (Except.ok 1, w.put k (some (Entry.mk (RVal.int 1) none)))
    | some (Entry.mk (RVal.int n) ex) =>
      (Except.ok (n + 1), w.put k (some (Entry.mk (RVal.int (n + 1)) ex)))
    | some _ => (Except.error "ERR value is not an integer or out of range", w)

/-- `EXPIRE key seconds`: no effect on an absent key; a non-positive time to
live deletes the key. -/
def expire (k : String) (seconds : Int) : Eff Bool := do
  call (Call.redis RedisCmd.expire)
  Eff.mk fun w =>
    match lookup w k with
    | none => (Except.ok false, w)
    | some e =>
      if seconds ≤ 0 then (Except.ok true, w.put k none)
      else (Except.ok true, w.put k (some { e with expireAt := some (w.now + seconds * 1000) }))

/-- `GET key`. -/
def get (k : String) : Eff (Option String) := do
  call (Call.redis RedisCmd.get)
  Eff.mk fun w =>
    match lookup w k with
    | none => (Except.ok none, w)
    | some (Entry.mk (RVal.str s) _) => (Except.ok (some s), w)
    | some (Entry.mk (RVal.int n) _) => (Except.ok (some (toString n)), w)
    | some (Entry.mk (RVal.json d) _) => (Except.ok (some d.text), w)
    | some _ => (Except.error "WRONGTYPE", w)

/-- `SET key value`: overwrites the value and discards any expiry. -/
def set (k : String) (v : String) : Eff Unit := do
  call (Call.redis RedisCmd.set)
  Eff.mk fun w => (Except.ok (), w.put k (some (Entry.mk (RVal.str v) none)))

/-- `SETEX key seconds value`. -/
def setex (k : String) (seconds : Int) (v : String) : Eff Unit := do
  call (Call.redis RedisCmd.setex)
  Eff.mk fun w =>
    if seconds ≤ 0 then (Except.error "ERR invalid expire time", w)
    else (Except.ok (), w.put k (some (Entry.mk (RVal.str v) (some (w.now + seconds * 1000)))))

/-- `DEL key`. -/
def del (k : String) : Eff Unit := do
  call (Call.redis RedisCmd.del)
  Eff.mk fun w => (Except.ok (), w.put k none)

/-- `HINCRBY key field increment`: an absent hash or field counts from 0. -/
def hincrby (k : String) (field : String) (by_ : Int) : Eff Int := do
  call (Call.redis RedisCmd.hincrby)
  Eff.mk fun w =>
    match lookup w k with
    | none =>
      (Except.ok by_, w.put k (some (Entry.mk (RVal.hash (Function.update (fun _ => none) field (some by_))) none)))
    | some (Entry.mk (RVal.hash h) ex) =>
      let v := (h field).getD 0 + by_
      (Except.ok v, w.put k (some (Entry.mk (RVal.hash (Function.update h field (some v))) ex)))
    | some _ => (Except.error "WRONGTYPE", w)

/-- `EXISTS key`: 1 when the key holds a live value, else 0. -/
def exists_ (k : String) : Eff Int := do
  call (Call.redis RedisCmd.exists)
  Eff.mk fun w =>
    match lookup w k with
    | none => (Except.ok 0, w)
    | some _ => (Except.ok 1, w)

/-- `SADD key member`: creates the set when absent; replies 1 when the member is
new, 0 when it was already there. -/
def sadd (k : String) (member : String) : Eff Int := do
  call (Call.redis RedisCmd.sadd)
  Eff.mk fun w =>
    match lookup w k with
    | none => (Except.ok 1, w.put k (some (Entry.mk (RVal.set [member]) none)))
    | some (Entry.mk (RVal.set ms) ex) =>
      if member ∈ ms then (Except.ok 0, w)
      else (Except.ok 1, w.put k (some (Entry.mk (RVal.set (ms ++ [member])) ex)))
    | some _ => (Except.error "WRONGTYPE", w)

/-- `PUBLISH channel message` on the publishing client: the message is put on
the bus. -/
def publish (channel : String) (message : BusMessage) : Eff Unit := do
  call (Call.redis RedisCmd.publish)
  Eff.mk fun w => (Except.ok (), { w with published := w.published ++ [(channel, message)] })

/-- `GET key` on a key that holds the text of a record, the reply read back by
`JSON.parse`. The keys read this way are written by `storeOTP` and `verifyOTP`
only; on any other kind of value the read throws. -/
def getJson (k : String) : Eff (Option OtpData) := do
  call (Call.redis RedisCmd.get)
  Eff.mk fun w =>
    match lookup w k with
    | none => (Except.ok none, w)
    | some (Entry.mk (RVal.json d) _) => (Except.ok (some d), w)
    | some _ => (Except.error "SyntaxError: not the text of a record", w)

/-- `SETEX key seconds value` with the `JSON.stringify` text of a record as value. -/
def setexJson (k : String) (seconds : Int) (d : OtpData) : Eff Unit := do
  call (Call.redis RedisCmd.setex)
  Eff.mk fun w =>
    if seconds ≤ 0 then (Except.error "ERR invalid expire time", w)
    else (Except.ok (), w.put k (some (Entry.mk (RVal.json d) (some (w.now + seconds * 1000)))))

/-- `SREM key member`: replies 1 when the member was there, 0 otherwise; a set
left without members is removed. -/
def srem (k : String) (member : String) : Eff Int := do
  call (Call.redis RedisCmd.srem)
  Eff.mk fun w =>
    match lookup w k with
    | none => (Except.ok 0, w)
    | some (Entry.mk (RVal.set ms) ex) =>
      if member ∈ ms then
        if ms.filter (fun m => decide (m ≠ member)) = [] then (Except.ok 1, w.put k none)
        else
          (Except.ok 1,
            w.put k (some (Entry.mk (RVal.set (ms.filter (fun m => decide (m ≠ member)))) ex)))
      else (Except.ok 0, w)
    | some _ => (Except.error "WRONGTYPE", w)

/-- `HGETALL key`: the fields of the hash, none for an absent key. -/
def hgetall (k : String) : Eff (String → Option Int) := do
  call (Call.redis RedisCmd.hgetall)
  Eff.mk fun w =>
    match lookup w k with
    | none => (Except.ok (fun _ => none), w)
    | some (Entry.mk (RVal.hash h) _) => (Except.ok h, w)
    | some _ => (Except.error "WRONGTYPE", w)

/-- `HDEL key field`. A hash left without fields is kept as a hash without
fields (the store removes the key; no command used here tells the two apart). -/
def hdel (k : String) (field : String) : Eff Unit := do
  call (Call.redis RedisCmd.hdel)
  Eff.mk fun w =>
    match lookup w k with
    | none => (Except.ok (), w)
    | some (Entry.mk (RVal.hash h) ex) =>
      (Except.ok (), w.put k (some (Entry.mk (RVal.hash (Function.update h field none)) ex)))
    | some _ => (Except.error "WRONGTYPE", w)

end Redis

/-! ## `redis.service.js` -/

/-- Key of a rate counter. -/
def rateKey (userId action : String) : String := "rate:" ++ userId ++ ":" ++ action

/-- Key of a directory entry. -/
def socketKey (userId : String) : String := "socket:" ++ userId

/-- Key of an online marker. -/
def onlineKey (userId : String) : String := "user:online:" ++ userId

/-- Key of a user's hash of unread counts. -/
def unreadKey (userId : String) : String := "unread:" ++ userId

/-- Rate limiting check (`RedisService.checkRateLimit`): increment, set the expiry
when the count is 1, return `count <= limit`. Every caller passes `limit` and
`windowSeconds`, so the defaults (10 and 60) are not modelled. -/
def checkRateLimit (userId action : String) (limit : Int) (windowSeconds : Int) : Eff Bool := do
  let key := rateKey userId action
  let count ← Redis.incr key
  if count = 1 then
    let _ ← Redis.expire key windowSeconds
    pure (decide (count ≤ limit))
  else
    pure (decide (count ≤ limit))

/-- Map socket ID to user ID (`RedisService.mapSocket`). -/
def mapSocket (userId socketId : String) : Eff Unit := do
  Redis.set (socketKey userId) socketId
  let _ ← Redis.expire (socketKey userId) 86400
  pure ()

/-- Get socket ID for a user (`RedisService.getSocket`). -/
def getSocket (userId : String) : Eff (Option String) :=
  Redis.get (socketKey userId)

/-- Remove socket mapping (`RedisService.removeSocket`). -/
def removeSocket (userId : String) : Eff Unit :=
  Redis.del (socketKey userId)

/-- Set user online status with a 30 second expiry (`RedisService.setUserOnline`). -/
def setUserOnline (userId : String) : Eff Unit := do
  let t ← getNow
  Redis.setex (onlineKey userId) 30 (toString t)

/-- Store unread message count (`RedisService.incrementUnread`). -/
def incrementUnread (userId fromUserId : String) : Eff Unit := do
  let _ ← Redis.hincrby (unreadKey userId) fromUserId 1
  pure ()

/-- Check if user is online (`RedisService.isUserOnline`): `exists === 1`. -/
def isUserOnline (userId : String) : Eff Bool := do
  let e ← Redis.exists_ (onlineKey userId)
  pure (decide (e = 1))

/-- Key of the set of a group's online members. -/
def groupMembersKey (groupId : String) : String := "group:members:" ++ groupId

/-- Add user to group room (`RedisService.addToGroupRoom`). -/
def addToGroupRoom (groupId userId : String) : Eff Unit := do
  let _ ← Redis.sadd (groupMembersKey groupId) userId
  pure ()

/-- Remove user from group room (`RedisService.removeFromGroupRoom`). -/
def removeFromGroupRoom (groupId userId : String) : Eff Unit := do
  let _ ← Redis.srem (groupMembersKey groupId) userId
  pure ()

/-- Get unread counts (`RedisService.getUnreadCounts`): `counts || {}`. -/
def getUnreadCounts (userId : String) : Eff (String → Option Int) :=
  Redis.hgetall (unreadKey userId)

/-- Clear unread count for a conversation (`RedisService.clearUnread`). -/
def clearUnread (userId fromUserId : String) : Eff Unit :=
  Redis.hdel (unreadKey userId) fromUserId

/-- Key of a stored OTP. -/
def otpKey (mobileNumber : String) : String := "otp:" ++ mobileNumber

/-- The object returned by `verifyOTP`: `{ valid, reason, message }` (`reason` is
missing on success). -/
structure OtpResult where
  valid : Bool
  reason : Option String
  message : String
  deriving DecidableEq

/-- Store OTP with 5-minute expiry (`RedisService.storeOTP`). -/
def storeOTP (mobileNumber otp : String) : Eff Unit := do
  let createdAt ← getNow
  Redis.setexJson (otpKey mobileNumber) 300
    { otp := otp, attempts := 0, createdAt := some createdAt }

/-- Verify OTP and handle attempts (`RedisService.verifyOTP`). -/
def verifyOTP (mobileNumber otp : String) : Eff OtpResult := do
  let data ← Redis.getJson (otpKey mobileNumber)
  match data with
  | none =>
    pure (OtpResult.mk false (some "expired") "OTP has expired. Please request a new one.")
  | some d =>
    if d.attempts ≥ 3 then do
      Redis.del (otpKey mobileNumber)
      pure (OtpResult.mk false (some "max_attempts")
        "Maximum attempts exceeded. Please request a new OTP.")
    else if d.otp ≠ otp then do
      Redis.setexJson (otpKey mobileNumber) 300
        { otp := d.otp, attempts := d.attempts + 1, createdAt := none }
      pure (OtpResult.mk false (some "invalid")
        ("Invalid OTP. " ++ toString (2 - d.attempts) ++ " attempts remaining."))
    else do
      Redis.del (otpKey mobileNumber)
      pure (OtpResult.mk true none "OTP verified successfully")

/-- Successive `verifyOTP` calls for one mobile number, the i-th made with the
i-th code when the clock reads the i-th time; returns each call's result and the
final world. -/
def verifyRun (mobileNumber : String) :
    World → List (Time × String) → List (Except String OtpResult) × World
  | w, [] => ([], w)
  | w, c :: cs =>
    let r := (verifyOTP mobileNumber c.2).run (w.atTime c.1)
    let rest := verifyRun mobileNumber r.2 cs
    (r.1 :: rest.1, rest.2)

/-- The live counter value under a key, 0 when the key is absent. -/
def counterOf (w : World) (k : String) : Int :=
  match lookup w k with
  | some (Entry.mk (RVal.int n) _) => n
  | _ => 0

/-- The key is absent (or expired) or holds a counter. -/
def counterOrAbsent (w : World) (k : String) : Prop :=
  ∀ e, lookup w k = some e → ∃ n, e.val = RVal.int n

/-! ## Document store (`models/Message.js`, `models/User.js`) -/

/-- White space removed by `String.prototype.trim` (the schema's `trim: true`). -/
def isJsWhitespace (c : Char) : Bool :=
  let n := c.toNat
  (decide (0x09 ≤ n) && decide (n ≤ 0x0D)) || n == 0x20 || n == 0xA0 || n == 0x1680 ||
    (decide (0x2000 ≤ n) && decide (n ≤ 0x200A)) || n == 0x2028 || n == 0x2029 ||
    n == 0x202F || n == 0x205F || n == 0x3000 || n == 0xFEFF

/-- The string without leading and trailing white space. -/
def jsTrim (s : String) : String :=
  String.mk ((((s.data.dropWhile isJsWhitespace).reverse).dropWhile isJsWhitespace).reverse)

/-- A hexadecimal digit. -/
def isHexDigit (c : Char) : Bool :=
  c.isDigit || (decide ('a' ≤ c) && decide (c ≤ 'f')) || (decide ('A' ≤ c) && decide (c ≤ 'F'))

/-- Cast of a client string to an `ObjectId`: 24 hexadecimal characters, read
case-insensitively and printed in lower case; anything else fails the cast. -/
def castObjectId (s : String) : Option String :=
  if s.data.length = 24 ∧ s.data.all isHexDigit = true then
    some (String.mk (s.data.map Char.toLower))
  else none

/-- A fresh identifier for a new message: one not used by any stored message. -/
def freshId (ms : List MessageDoc) : Nat := (ms.map (fun d => d._id)).foldr max 0 + 1

/-- Apply `f` to the first document satisfying `p`. -/
def updateFirst (p : MessageDoc → Bool) (f : MessageDoc → MessageDoc) :
    List MessageDoc → List MessageDoc
  | [] => []
  | d :: ds => if p d then f d :: ds else d :: updateFirst p f ds

/-- Lookup of a message by `_id`. -/
def findMessage (w : World) (id : Nat) : Option MessageDoc :=
  w.messages.find? (fun d => decide (d._id = id))

namespace Message

/-- `Message.create({ from, to, text, timestamp, delivered })`: the schema casts
`from` and `to` to `ObjectId`, trims `text`, rejects an empty `text` (`required`),
and defaults `read` to `false`. -/
def create (from_ to_ text : String) (timestamp : Time) (delivered : Bool) :
    Eff MessageDoc := do
  call (Call.db DbOp.messageCreate)
  Eff.mk fun w =>
    match castObjectId from_, castObjectId to_ with
    | some f, some t =>
      if jsTrim text = "" then (Except.error "ValidationError: text is required", w)
      else
        let doc : MessageDoc :=
          { _id := freshId w.messages, from_ := f, to_ := t, text := jsTrim text,
            timestamp := timestamp, delivered := delivered, read := false, readAt := none }
        (Except.ok doc, { w with messages := w.messages ++ [doc] })
    | _, _ => (Except.error "ValidationError: Cast to ObjectId failed", w)

/-- `message.populate('from', 'name avatar')`: the sender's `name` and `avatar`,
or `null` when no such user is stored. -/
def populate (m : MessageDoc) : Eff (Option UserInfo) := do
  call (Call.db DbOp.messagePopulate)
  Eff.mk fun w =>
    (Except.ok ((w.users.find? (fun u => decide (u._id = m.from_))).map
      (fun u => UserInfo.mk u._id u.name u.avatar)), w)

/-- `message.save()` after `message.delivered = true`: writes the modified path
`delivered` of the stored document with the same `_id`. -/
def save (m : MessageDoc) : Eff Unit := do
  call (Call.db DbOp.messageSave)
  Eff.mk fun w =>
    let ms := updateFirst (fun d => decide (d._id = m._id))
      (fun d => { d with delivered := m.delivered }) w.messages
    (Except.ok (), { w with messages := ms })

/-- `Message.findByIdAndUpdate(messageId, { read: true, readAt }, { new: true })`:
returns the updated document, or `null` when no document has that `_id`. -/
def findByIdAndUpdate (messageId : RawId) (readAt : Time) : Eff (Option MessageDoc) := do
  call (Call.db DbOp.messageFindByIdAndUpdate)
  match messageId with
  | RawId.uncastable _ => Eff.throw "CastError: Cast to ObjectId failed"
  | RawId.castable id =>
    Eff.mk fun w =>
      match findMessage w id with
      | none => (Except.ok none, w)
      | some d =>
        let ms := updateFirst (fun x => decide (x._id = id))
          (fun x => { x with read := true, readAt := some readAt }) w.messages
        (Except.ok (some { d with read := true, readAt := some readAt }),
          { w with messages := ms })

end Message

namespace User

/-- `User.findById(id)`: `findById(undefined)` finds nothing; a string that is
not an `ObjectId` throws a cast error. -/
def findById (id : Option String) : Eff (Option UserDoc) := do
  call (Call.db DbOp.userFindById)
  match id with
  | none => pure none
  | some s =>
    match castObjectId s with
    | none => Eff.throw "CastError: Cast to ObjectId failed"
    | some oid => Eff.mk fun w => (Except.ok (w.users.find? (fun u => decide (u._id = oid))), w)

end User

/-- Cast of an array of identifiers (`readBy`): every element must cast. -/
def castAll : List String → Option (List String)
  | [] => some []
  | x :: xs =>
    match castObjectId x, castAll xs with
    | some a, some r => some (a :: r)
    | _, _ => none

/-- A fresh identifier for a new group message. -/
def freshGroupMessageId (ms : List GroupMessageDoc) : Nat :=
  (ms.map (fun d => d._id)).foldr max 0 + 1

namespace Group

/-- `Group.findById(groupId)`: a string that is not an `ObjectId` throws a cast
error; otherwise the group with that `_id`, or `null`. -/
def findById (groupId : String) : Eff (Option GroupDoc) := do
  call (Call.db DbOp.groupFindById)
  match castObjectId groupId with
  | none => Eff.throw "CastError: Cast to ObjectId failed"
  | some oid => Eff.mk fun w => (Except.ok (w.groups.find? (fun g => decide (g._id = oid))), w)

/-- `Group.find({ members: userId })`: the groups whose `members` contain the user. -/
def findByMember (userId : String) : Eff (List GroupDoc) := do
  call (Call.db DbOp.groupFind)
  match castObjectId userId with
  | none => Eff.throw "CastError: Cast to ObjectId failed"
  | some oid =>
    Eff.mk fun w => (Except.ok (w.groups.filter (fun g => decide (oid ∈ g.members))), w)

end Group

namespace GroupMessage

/-- `GroupMessage.create({ groupId, from, text, timestamp, readBy })`: the schema
casts `groupId`, `from` and the elements of `readBy` to `ObjectId`, trims `text` and
rejects an empty `text` (`required`). -/
def create (groupId from_ text : String) (timestamp : Time) (readBy : List String) :
    Eff GroupMessageDoc := do
  call (Call.db DbOp.groupMessageCreate)
  Eff.mk fun w =>
    match castObjectId groupId, castObjectId from_, castAll readBy with
    | some g, some f, some rb =>
      if jsTrim text = "" then (Except.error "ValidationError: text is required", w)
      else
        let doc : GroupMessageDoc :=
          { _id := freshGroupMessageId w.groupMessages, groupId := g, from_ := f,
            text := jsTrim text, timestamp := timestamp, readBy := rb }
        (Except.ok doc, { w with groupMessages := w.groupMessages ++ [doc] })
    | _, _, _ => (Except.error "ValidationError: Cast to ObjectId failed", w)

/-- `message.populate('from', 'name avatar')` on a group message. -/
def populate (m : GroupMessageDoc) : Eff (Option UserInfo) := do
  call (Call.db DbOp.groupMessagePopulate)
  Eff.mk fun w =>
    (Except.ok ((w.users.find? (fun u => decide (u._id = m.from_))).map
      (fun u => UserInfo.mk u._id u.name u.avatar)), w)

end GroupMessage

/-- Apply `f` to the first element satisfying `p`. -/
def updateFirstOf {α : Type} (p : α → Bool) (f : α → α) : List α → List α
  | [] => []
  | d :: ds => if p d then f d :: ds else d :: updateFirstOf p f ds

/-- Lookup of a group message by `_id`. -/
def findGroupMessage (w : World) (id : Nat) : Option GroupMessageDoc :=
  w.groupMessages.find? (fun d => decide (d._id = id))

/-- `Group.updateOne({ _id: groupId }, { $pull: { members: userId, admins: userId } })`:
both strings are cast to `ObjectId`; the user is taken out of both arrays of the
group with that `_id`, if there is one. -/
def Group.updateOnePull (groupId userId : String) : Eff Unit := do
  call (Call.db DbOp.groupUpdateOne)
  match castObjectId groupId, castObjectId userId with
  | some g, some u =>
    Eff.mk fun w =>
      (Except.ok (), { w with groups := (updateFirstOf (fun d => decide (d._id = g))
        (fun d => { d with members := d.members.filter (fun m => decide (m ≠ u)),
                           admins := d.admins.filter (fun a => decide (a ≠ u)) }) w.groups) })
  | _, _ => Eff.throw "CastError: Cast to ObjectId failed"

/-- `group.save()` of a loaded group after its `members` and `admins` were
reassigned: the stored document with the same `_id` gets the two arrays. -/
def Group.save (g : GroupDoc) : Eff Unit := do
  call (Call.db DbOp.groupSave)
  Eff.mk fun w =>
    (Except.ok (), { w with groups := (updateFirstOf (fun d => decide (d._id = g._id))
      (fun d => { d with members := g.members, admins := g.admins }) w.groups) })

/-- `GroupMessage.updateOne({ _id: messageId }, { $addToSet: { readBy: userId } })`:
the identifier and the user are cast; the user is appended to `readBy` of the
message with that `_id` unless it is already there. -/
def GroupMessage.updateOneAddToSet (messageId : RawId) (userId : String) : Eff Unit := do
  call (Call.db DbOp.groupMessageUpdateOne)
  match messageId, castObjectId userId with
  | RawId.castable id, some u =>
    Eff.mk fun w =>
      (Except.ok (), { w with groupMessages := (updateFirstOf (fun d => decide (d._id = id))
        (fun d => if u ∈ d.readBy then d else { d with readBy := d.readBy ++ [u] })
        w.groupMessages) })
  | _, _ => Eff.throw "CastError: Cast to ObjectId failed"

/-- The `limit(n)` of a query: 0 sets no limit, a negative `n` limits to `-n`. -/
def takeLimit {α : Type} (limit : Int) (l : List α) : List α :=
  if limit = 0 then l else l.take limit.natAbs

/-- The query of `getChatHistory`: `Message.find({ $or: [{ from: me, to: userId },
{ from: userId, to: me }] }).sort({ timestamp: -1 }).skip(skip).limit(limit)` with
`from` and `to` populated. `userId` is cast to `ObjectId`; a negative `skip` is
rejected by the store. -/
def Message.findConversation (me userId : String) (skip limit : Int) :
    Eff (List (MessageDoc × Option UserInfo × Option UserInfo)) := do
  call (Call.db DbOp.messageFind)
  match castObjectId userId with
  | none => Eff.throw "CastError: Cast to ObjectId failed"
  | some o =>
    if skip < 0 then Eff.throw "MongoServerError: skip value must be non-negative"
    else
      Eff.mk fun w =>
        let info := fun (id : String) =>
          (w.users.find? (fun u => decide (u._id = id))).map
            (fun u => UserInfo.mk u._id u.name u.avatar)
        let found := w.messages.filter (fun m =>
          (decide (m.from_ = me) && decide (m.to_ = o)) ||
            (decide (m.from_ = o) && decide (m.to_ = me)))
        let sorted := found.insertionSort (fun a b => b.timestamp ≤ a.timestamp)
        (Except.ok ((takeLimit limit (sorted.drop skip.toNat)).map
          (fun m => (m, info m.from_, info m.to_))), w)

/-- `jwt.verify(token, secret)`: throws unless the token verifies at the current
time; returns the payload's `userId` claim (possibly missing). -/
def jwtVerify (token : String) : Eff (Option String) :=
  Eff.mk fun w =>
    match w.jwtVerify w.now token with
    | none => (Except.error "JsonWebTokenError", w)
    | some claim => (Except.ok claim, w)

/-! ## `services/socket.service.js`: private chat -/

/-- A string reply that is truthy in a condition: present and not empty. -/
def truthy (r : Option String) : Option String :=
  match r with
  | some s => if s = "" then none else some s
  | none => none

/-- The `private_message` handler of `setupPrivateChat`. -/
def onPrivateMessage (socket : Socket) (to_ text : String) : Eff Unit :=
  Eff.tryCatch
    (if text = "" ∨ to_ = "" then
      emit (Target.socket socket.id) (Event.error "Invalid message data")
    else do
      let canSend ← checkRateLimit socket.userId "send_message" 20 60
      if canSend = false then
        emit (Target.socket socket.id) (Event.error "Rate limit exceeded. Please slow down.")
      else do
        let timestamp ← getNow
        let message ← Message.create socket.userId to_ text timestamp false
        let sender ← Message.populate message
        let messageData : MessageData :=
          { id := message._id, from_ := sender, to_ := message.to_, text := message.text,
            timestamp := message.timestamp }
        let recipientSocketId ← getSocket to_
        match truthy recipientSocketId with
        | some sid => do
          emit (Target.room sid) (Event.receive_message messageData)
          Message.save { message with delivered := true }
          emit (Target.socket socket.id) (Event.message_delivered message._id)
        | none => do
          incrementUnread to_ socket.userId
          emit (Target.socket socket.id) (Event.message_sent message._id false))
    (fun _ => emit (Target.socket socket.id) (Event.error "Failed to send message"))

/-- The `message_read` handler of `setupPrivateChat`. -/
def onMessageRead (socket : Socket) (messageId : RawId) : Eff Unit :=
  Eff.tryCatch
    (do
      let readAt ← getNow
      let message ← Message.findByIdAndUpdate messageId readAt
      match message with
      | some m => do
        let senderSocketId ← getSocket m.from_
        match truthy senderSocketId with
        | some sid =>
          emit (Target.room sid)
            (Event.message_read_receipt messageId socket.userId m.readAt)
        | none => pure ()
      | none => pure ())
    (fun _ => pure ())

/-! ## `services/socket.service.js`: typing indicator -/

/-- The `typing` handler of `setupTypingIndicator`. -/
def onTyping (socket : Socket) (to_ : String) (isTyping : Bool) : Eff Unit :=
  Eff.tryCatch
    (do
      let recipientSocketId ← getSocket to_
      match truthy recipientSocketId with
      | some sid => emit (Target.room sid) (Event.typing_status socket.userId isTyping)
      | none => pure ())
    (fun _ => pure ())

/-! ## `services/socket.service.js`: group chat -/

/-- Change the server-side state of the connection `sid`. -/
def modifyConn (sid : String) (f : Conn → Conn) : Eff Unit := Eff.mk fun w =>
  (Except.ok (), { w with conns := w.conns.map (fun c => if c.id = sid then f c else c) })

/-- Name of a group's room and of its channel on the bus. -/
def groupRoom (groupId : String) : String := "group:" ++ groupId

/-- The `socket.join(room)` of the connection `sid`; rooms are a set. -/
def joinRoom (sid room : String) : Eff Unit :=
  modifyConn sid (fun c => if room ∈ c.rooms then c else { c with rooms := c.rooms ++ [room] })

/-- A call whose promise is not awaited: it takes effect, and a failure does not
reach the handler's `catch`. -/
def detach (x : Eff Unit) : Eff Unit := fun w => (Except.ok (), (x w).2)

/-- The test `!group || !group.members.some(m => m.toString() === userId)`. -/
def notMember (group : Option GroupDoc) (userId : String) : Bool :=
  match group with
  | none => true
  | some g => !(g.members.any (fun m => decide (m = userId)))

/-- The `groups.forEach` loop of `join_my_groups`. -/
def joinEach (socket : Socket) : List GroupDoc → Eff Unit
  | [] => pure ()
  | g :: gs => do
    joinRoom socket.id (groupRoom g._id)
    detach (addToGroupRoom g._id socket.userId)
    joinEach socket gs

/-- The `join_my_groups` handler of `setupGroupChat`. -/
def onJoinMyGroups (socket : Socket) : Eff Unit :=
  Eff.tryCatch
    (do
      let groups ← Group.findByMember socket.userId
      joinEach socket groups)
    (fun _ => pure ())

/-- The `join_group` handler of `setupGroupChat`. -/
def onJoinGroup (socket : Socket) (groupId : String) : Eff Unit :=
  Eff.tryCatch
    (do
      let group ← Group.findById groupId
      if notMember group socket.userId = true then
        emit (Target.socket socket.id) (Event.error "Not a member of this group")
      else do
        joinRoom socket.id (groupRoom groupId)
        addToGroupRoom groupId socket.userId)
    (fun _ => pure ())

/-- The `group_message` handler of `setupGroupChat`. -/
def onGroupMessage (socket : Socket) (groupId text : String) : Eff Unit :=
  Eff.tryCatch
    (if text = "" ∨ groupId = "" then
      emit (Target.socket socket.id) (Event.error "Invalid message data")
    else do
      let canSend ← checkRateLimit socket.userId "group_message" 30 60
      if canSend = false then
        emit (Target.socket socket.id) (Event.error "Rate limit exceeded")
      else do
        let group ← Group.findById groupId
        if notMember group socket.userId = true then
          emit (Target.socket socket.id) (Event.error "Not a member of this group")
        else do
          let timestamp ← getNow
          let message ← GroupMessage.create groupId socket.userId text timestamp [socket.userId]
          let sender ← GroupMessage.populate message
          let messageData : GroupMessageData :=
            { id := message._id, groupId := groupId, from_ := sender, text := message.text,
              timestamp := message.timestamp }
          Redis.publish (groupRoom groupId) (BusMessage.json messageData))
    (fun _ => emit (Target.socket socket.id) (Event.error "Failed to send group message"))

/-- The `socket.leave(room)` of the connection `sid`. -/
def leaveRoom (sid room : String) : Eff Unit :=
  modifyConn sid (fun c => { c with rooms := c.rooms.filter (fun r => decide (r ≠ room)) })

/-- The `try` block of the `leave_group` handler. -/
def leaveGroupTry (socket : Socket) (groupId : String) : Eff Unit := do
  Group.updateOnePull groupId socket.userId
  leaveRoom socket.id (groupRoom groupId)
  removeFromGroupRoom groupId socket.userId
  emit (Target.room (groupRoom groupId)) (Event.member_left groupId socket.userId)

/-- The `leave_group` handler of `setupGroupChat`. -/
def onLeaveGroup (socket : Socket) (groupId : String) : Eff Unit :=
  Eff.tryCatch (leaveGroupTry socket groupId) (fun _ => pure ())

/-- The `try` block of the `group_message_read` handler. -/
def groupMessageReadTry (socket : Socket) (messageId : RawId) : Eff Unit :=
  GroupMessage.updateOneAddToSet messageId socket.userId

/-- The `group_message_read` handler of `setupGroupChat`. -/
def onGroupMessageRead (socket : Socket) (messageId : RawId) : Eff Unit :=
  Eff.tryCatch (groupMessageReadTry socket messageId) (fun _ => pure ())

/-- `JSON.parse(message)` in the subscriber. -/
def jsonParse (message : BusMessage) : Eff GroupMessageData :=
  match message with
  | BusMessage.json data => pure data
  | BusMessage.malformed _ => Eff.throw "SyntaxError: Unexpected token"

/-- The `pmessage` listener of `subscribeToGroupMessages`. -/
def onPMessage (channel : String) (message : BusMessage) : Eff Unit :=
  Eff.tryCatch
    (do
      let data ← jsonParse message
      emit (Target.room channel) (Event.group_message_received data))
    (fun _ => pure ())

/-- The channel matches the subscribed pattern `group:*`. -/
def matchesGroupPattern (channel : String) : Bool :=
  decide (channel.data.take 6 = "group:".data)

/-- One process receives a message of the bus: its subscriber runs when the
channel matches the pattern. -/
def receivePublished (w : World) (m : String × BusMessage) : World :=
  if matchesGroupPattern m.1 = true then exec (onPMessage m.1 m.2) w else w

/-- The connections an emission reaches on this process. -/
def receivers (conns : List Conn) : Target → List String
  | Target.socket id => (conns.filter (fun c => decide (c.id = id))).map (fun c => c.id)
  | Target.room name => (conns.filter (fun c => decide (name ∈ c.rooms))).map (fun c => c.id)
  | Target.others id => (conns.filter (fun c => decide (c.id ≠ id))).map (fun c => c.id)

/-- The events among `ems` that reach the connection `sid`, in order. -/
def deliveredTo (conns : List Conn) (ems : List Emission) (sid : String) : List Event :=
  (ems.filter (fun e => decide (sid ∈ receivers conns e.target))).map (fun e => e.event)

/-! ## `config/socket.js`: connection gateway -/

/-- The connection is accepted: it exists and is in the room named by its id. -/
def addConn (socket : Socket) : Eff Unit := Eff.mk fun w =>
  let c : Conn :=
    { id := socket.id, userId := socket.userId, rooms := [socket.id], listening := false }
  (Except.ok (), { w with conns := w.conns ++ [c] })

/-- The connection is closed on the server (`socket.disconnect()`). -/
def closeConn (sid : String) : Eff Unit := Eff.mk fun w =>
  (Except.ok (), { w with conns := w.conns.filter (fun c => decide (c.id ≠ sid)) })

/-- The `setInterval(async () => setUserOnline(socket.userId), everyMs)` of the
`connection` handler: the interval exists from now on. -/
def setInterval (socket : Socket) (everyMs : Int) : Eff Unit := Eff.mk fun w =>
  (Except.ok (), { w with timers := w.timers ++ [Timer.mk socket.id socket.userId everyMs] })

/-- The `clearInterval(heartbeatInterval)` of the connection `sid`. -/
def clearInterval (sid : String) : Eff Unit := Eff.mk fun w =>
  (Except.ok (), { w with timers := w.timers.filter (fun t => decide (t.socketId ≠ sid)) })

/-- The authentication middleware `io.use(...)`: the result is the argument of
`next`, an error, or the user attached to the socket. -/
def authMiddleware (token : Option String) : Eff (Except String UserDoc) :=
  Eff.tryCatch
    (match truthy token with
      | none => pure (Except.error "Authentication error: No token provided")
      | some t => do
        let decoded ← jwtVerify t
        let user ← User.findById decoded
        match user with
        | none => pure (Except.error "Authentication error: User not found")
        | some u => pure (Except.ok u))
    (fun _ => pure (Except.error "Authentication error: Invalid token"))

/-- The `connection` handler up to the registration of the event listeners. -/
def onConnection (socket : Socket) : Eff Unit :=
  Eff.tryCatch
    (do
      mapSocket socket.userId socket.id
      setUserOnline socket.userId
      modifyConn socket.id (fun c => { c with rooms := c.rooms ++ [socket.userId] })
      emit (Target.others socket.id) (Event.user_online socket.userId)
      emit (Target.socket socket.id) (Event.connected socket.userId)
      setInterval socket 10000
      modifyConn socket.id (fun c => { c with listening := true }))
    (fun _ => closeConn socket.id)

/-- A connection attempt with the handshake's `auth.token`: the middleware runs
first, and the `connection` handler runs only when the middleware calls `next()`
without an error; otherwise the client is sent a connect error. -/
def handleConnection (socketId : String) (token : Option String) : Eff Unit := do
  let r ← authMiddleware token
  match r with
  | Except.error msg => emit (Target.socket socketId) (Event.connect_error msg)
  | Except.ok user => do
    let socket : Socket := { id := socketId, userId := user._id }
    addConn socket
    onConnection socket

/-- Run the steps in order; a throw stops the run. -/
def runSteps : List (Eff Unit) → Eff Unit
  | [] => pure ()
  | x :: rest => x >>= fun _ => runSteps rest

/-- The worlds reached after each step of a run, in order; the run stops at the
first step that throws (its world is the last one listed). -/
def traceSteps : List (Eff Unit) → World → List World
  | [], _ => []
  | x :: rest, w =>
    match x.run w with
    | (Except.ok _, w1) => w1 :: traceSteps rest w1
    | (Except.error _, w1) => [w1]

/-- The statements of the `try` block of the `connection` handler, in source order. -/
def connectionSteps (socket : Socket) : List (Eff Unit) :=
  [ mapSocket socket.userId socket.id,
    setUserOnline socket.userId,
    modifyConn socket.id (fun c => { c with rooms := c.rooms ++ [socket.userId] }),
    emit (Target.others socket.id) (Event.user_online socket.userId),
    emit (Target.socket socket.id) (Event.connected socket.userId),
    setInterval socket 10000,
    modifyConn socket.id (fun c => { c with listening := true }) ]

/-- The callback of the heartbeat interval. -/
def heartbeatCallback (t : Timer) : Eff Unit := setUserOnline t.userId

/-- The statements of the `disconnect` listener, in source order. -/
def disconnectSteps (socket : Socket) : List (Eff Unit) :=
  [ clearInterval socket.id,
    removeSocket socket.userId,
    emit (Target.others socket.id) (Event.user_offline socket.userId) ]

/-- The `disconnect` listener registered by the `connection` handler. -/
def onDisconnect (socket : Socket) : Eff Unit := runSteps (disconnectSteps socket)

/-- The connection `sid` closes (client, network or server side): it leaves its
rooms and the server, then its `disconnect` listener runs if it was registered. -/
def handleDisconnect (sid : String) : Eff Unit := fun w =>
  match w.conns.find? (fun c => decide (c.id = sid)) with
  | none => (Except.ok (), w)
  | some c =>
    (do
      closeConn sid
      if c.listening = true then onDisconnect (Socket.mk c.id c.userId) else pure ()) w

/-- The store effect of `POST /api/auth/logout` (`auth.controller.js`). -/
def logout (userId : String) : Eff Unit := removeSocket userId

/-- The online marker is set at each of the given times (connect, then heartbeats). -/
def onlineRun (userId : String) (w : World) (times : List Time) : World :=
  times.foldl (fun v t => exec (setUserOnline userId) (v.atTime t)) w

/-! ## The `try` blocks of the other socket handlers -/

/-- The `try` block of the `private_message` handler. -/
def privateMessageTry (socket : Socket) (to_ text : String) : Eff Unit :=
  if text = "" ∨ to_ = "" then
    emit (Target.socket socket.id) (Event.error "Invalid message data")
  else do
    let canSend ← checkRateLimit socket.userId "send_message" 20 60
    if canSend = false then
      emit (Target.socket socket.id) (Event.error "Rate limit exceeded. Please slow down.")
    else do
      let timestamp ← getNow
      let message ← Message.create socket.userId to_ text timestamp false
      let sender ← Message.populate message
      let messageData : MessageData :=
        { id := message._id, from_ := sender, to_ := message.to_, text := message.text,
          timestamp := message.timestamp }
      let recipientSocketId ← getSocket to_
      match truthy recipientSocketId with
      | some sid => do
        emit (Target.room sid) (Event.receive_message messageData)
        Message.save { message with delivered := true }
        emit (Target.socket socket.id) (Event.message_delivered message._id)
      | none => do
        incrementUnread to_ socket.userId
        emit (Target.socket socket.id) (Event.message_sent message._id false)

/-- The `try` block of the `message_read` handler. -/
def messageReadTry (socket : Socket) (messageId : RawId) : Eff Unit := do
  let readAt ← getNow
  let message ← Message.findByIdAndUpdate messageId readAt
  match message with
  | some m => do
    let senderSocketId ← getSocket m.from_
    match truthy senderSocketId with
    | some sid =>
      emit (Target.room sid)
        (Event.message_read_receipt messageId socket.userId m.readAt)
    | none => pure ()
  | none => pure ()

/-- The `try` block of the `typing` handler. -/
def typingTry (socket : Socket) (to_ : String) (isTyping : Bool) : Eff Unit := do
  let recipientSocketId ← getSocket to_
  match truthy recipientSocketId with
  | some sid => emit (Target.room sid) (Event.typing_status socket.userId isTyping)
  | none => pure ()

/-- The `try` block of the `join_my_groups` handler. -/
def joinMyGroupsTry (socket : Socket) : Eff Unit := do
  let groups ← Group.findByMember socket.userId
  joinEach socket groups

/-- The `try` block of the `join_group` handler. -/
def joinGroupTry (socket : Socket) (groupId : String) : Eff Unit := do
  let group ← Group.findById groupId
  if notMember group socket.userId = true then
    emit (Target.socket socket.id) (Event.error "Not a member of this group")
  else do
    joinRoom socket.id (groupRoom groupId)
    addToGroupRoom groupId socket.userId

/-- The `try` block of the `group_message` handler. -/
def groupMessageTry (socket : Socket) (groupId text : String) : Eff Unit :=
  if text = "" ∨ groupId = "" then
    emit (Target.socket socket.id) (Event.error "Invalid message data")
  else do
    let canSend ← checkRateLimit socket.userId "group_message" 30 60
    if canSend = false then
      emit (Target.socket socket.id) (Event.error "Rate limit exceeded")
    else do
      let group ← Group.findById groupId
      if notMember group socket.userId = true then
        emit (Target.socket socket.id) (Event.error "Not a member of this group")
      else do
        let timestamp ← getNow
        let message ← GroupMessage.create groupId socket.userId text timestamp [socket.userId]
        let sender ← GroupMessage.populate message
        let messageData : GroupMessageData :=
          { id := message._id, groupId := groupId, from_ := sender, text := message.text,
            timestamp := message.timestamp }
        Redis.publish (groupRoom groupId) (BusMessage.json messageData)

/-! ## HTTP controllers and routes -/

/-- The body a controller sends with `res.json` (status 200 unless set). A
controller that calls `next(error)` throws instead. -/
inductive Reply where
  | message (status : Nat) (success : Bool) (message : String)
  | otpSent (message : String) (otp : Option String)
  | unread (unreadCounts : String → Option Int)
  | history (messages : List (MessageDoc × Option UserInfo × Option UserInfo)) (page : Int)
      (hasMore : Bool)

/-- A decimal digit. -/
def isDigit (c : Char) : Bool := decide ('0' ≤ c) && decide (c ≤ '9')

/-- The test `/^\+?[1-9]\d{1,14}$/` of `sendOTP`. -/
def isE164 (s : String) : Bool :=
  let body := match s.data with
    | '+' :: rest => rest
    | cs => cs
  match body with
  | [] => false
  | c :: rest =>
    decide ('1' ≤ c) && decide (c ≤ '9') && decide (1 ≤ rest.length) &&
      decide (rest.length ≤ 14) && rest.all isDigit

/-- The text of the SMS sent by `twilio.service.js`. -/
def smsBody (otp : String) : String :=
  "Your OTP is: " ++ otp ++ ". Valid for 5 minutes. Do not share this code with anyone."

/-- `sendOTP` of `twilio.service.js`: `client.messages.create`, any failure
rethrown with a fixed message. -/
def twilioSendOTP (mobileNumber otp : String) : Eff Bool :=
  Eff.tryCatch
    (do
      call Call.sms
      Eff.mk fun w => (Except.ok true, { w with sms := w.sms ++ [(mobileNumber, smsBody otp)] }))
    (fun _ => Eff.throw "Failed to send OTP. Please check your mobile number.")

namespace AuthController

/-- `POST /api/auth/send-otp`. `development` is `NODE_ENV === 'development'` and
`otp` is the code drawn by `generateOTP()` for this request. -/
def sendOTP (development : Bool) (otp : String) (mobileNumber : Option String) : Eff Reply :=
  match truthy mobileNumber with
  | none =>
    pure (Reply.message 400 false
      "Please provide a valid mobile number in E.164 format (e.g., +1234567890)")
  | some m =>
    if isE164 m = false then
      pure (Reply.message 400 false
        "Please provide a valid mobile number in E.164 format (e.g., +1234567890)")
    else do
      let canProceed ← (if development = true then pure true
        else checkRateLimit m "send_otp" 3 3600)
      if canProceed = false then
        pure (Reply.message 429 false "Too many OTP requests. Please try again after an hour.")
      else do
        storeOTP m otp
        let _ ← (if development = true then pure true else twilioSendOTP m otp)
        pure (Reply.otpSent "OTP sent successfully to your mobile number"
          (if development = true then some otp else none))

end AuthController

/-- A message identifier taken from a URL: decimal digits name a stored
identifier, anything else does not cast. -/
def rawIdOf (s : String) : RawId :=
  match s.toNat? with
  | some n => RawId.castable n
  | none => RawId.uncastable s

namespace ChatController

/-- `GET /api/chats/:userId` for the authenticated `user`; `page` and `limit` are
the parsed query values (1 and 50 when the query has none). -/
def getChatHistory (user : UserDoc) (userId : String) (page limit : Int) : Eff Reply := do
  let skip := (page - 1) * limit
  let messages ← Message.findConversation user._id userId skip limit
  clearUnread user._id userId
  pure (Reply.history messages.reverse page (decide ((messages.length : Int) = limit)))

/-- `GET /api/chats/unread` for the authenticated `user`. -/
def getUnreadCounts (user : UserDoc) : Eff Reply := do
  let unreadCounts ← Chat.getUnreadCounts user._id
  pure (Reply.unread unreadCounts)

/-- `PUT /api/chats/messages/:id/read`. -/
def markAsRead (id : String) : Eff Reply := do
  let readAt ← getNow
  let message ← Message.findByIdAndUpdate (rawIdOf id) readAt
  match message with
  | none => pure (Reply.message 404 false "Message not found")
  | some _ => pure (Reply.message 200 true "Message marked as read")

end ChatController

/-- HTTP methods of the routes. -/
inductive Method where
  | get | post | put | delete
  deriving DecidableEq

/-- A segment of a route path: a literal, or a named parameter (`:name`), which
matches any one non-empty segment. -/
inductive Seg where
  | lit (s : String)
  | param (name : String)
  deriving DecidableEq

/-- The parameters bound when the route path matches the request path. -/
def matchPath : List Seg → List String → Option (List (String × String))
  | [], [] => some []
  | Seg.lit s :: ps, x :: xs => if x = s then matchPath ps xs else none
  | Seg.param n :: ps, x :: xs =>
    if x = "" then none else (matchPath ps xs).map (fun l => (n, x) :: l)
  | _, _ => none

/-- First-match dispatch over a route table in declaration order. -/
def dispatch {H : Type} (routes : List (Method × List Seg × H)) (m : Method)
    (path : List String) : Option (H × List (String × String)) :=
  routes.findSome? (fun r =>
    if r.1 = m then (matchPath r.2.1 path).map (fun ps => (r.2.2, ps)) else none)

/-- The handlers of `routes/chat.routes.js`. -/
inductive ChatHandler where
  | getChatHistory | getUnreadCounts | markAsRead
  deriving DecidableEq

/-- The route table of `routes/chat.routes.js`, in declaration order. -/
def chatRoutes : List (Method × List Seg × ChatHandler) :=
  [ (Method.get, [Seg.param "userId"], ChatHandler.getChatHistory),
    (Method.get, [Seg.lit "unread"], ChatHandler.getUnreadCounts),
    (Method.put, [Seg.lit "messages", Seg.param "id", Seg.lit "read"], ChatHandler.markAsRead) ]

/-- The value bound to a route parameter. -/
def paramOf (ps : List (String × String)) (name : String) : String :=
  ((ps.find? (fun p => decide (p.1 = name))).map (fun p => p.2)).getD ""

/-- An authenticated request under `/api/chats` without a query string: the
matched handler runs; `none` when no route matches. -/
def chatRequest (user : UserDoc) (m : Method) (path : List String) : Eff (Option Reply) :=
  match dispatch chatRoutes m path with
  | none => pure none
  | some (ChatHandler.getChatHistory, ps) => do
    let r ← ChatController.getChatHistory user (paramOf ps "userId") 1 50
    pure (some r)
  | some (ChatHandler.getUnreadCounts, _) => do
    let r ← ChatController.getUnreadCounts user
    pure (some r)
  | some (ChatHandler.markAsRead, ps) => do
    let r ← ChatController.markAsRead (paramOf ps "id")
    pure (some r)

namespace GroupController

/-- `DELETE /api/groups/:id/members/:userId` for the authenticated `user`. -/
def removeMember (user : UserDoc) (id userId : String) : Eff Reply := do
  let group ← Group.findById id
  match group with
  | none => pure (Reply.message 404 false "Group not found")
  | some g =>
    if g.admins.any (fun a => decide (a = user._id)) = false then
      pure (Reply.message 403 false "Only admins can remove members")
    else if g.createdBy = userId then
      pure (Reply.message 400 false "Cannot remove group creator")
    else do
      Group.save { g with members := g.members.filter (fun m => decide (m ≠ userId)),
                          admins := g.admins.filter (fun a => decide (a ≠ userId)) }
      pure (Reply.message 200 true "Member removed successfully")

/-- `POST /api/groups/:id/leave` for the authenticated `user`. -/
def leaveGroup (user : UserDoc) (id : String) : Eff Reply := do
  let group ← Group.findById id
  match group with
  | none => pure (Reply.message 404 false "Group not found")
  | some g =>
    if g.createdBy = user._id then
      pure (Reply.message 400 false "Group creator cannot leave. Delete the group instead.")
    else do
      Group.save { g with members := g.members.filter (fun m => decide (m ≠ user._id)),
                          admins := g.admins.filter (fun a => decide (a ≠ user._id)) }
      pure (Reply.message 200 true "Left group successfully")

end GroupController

/-! ## Runs of events -/

/-- An inbound event of the private chat, or a change of the environment (the
clock moves, collaborators go down or come back). -/
inductive Inbound where
  | private_message (socket : Socket) (to_ text : String)
  | message_read (socket : Socket) (messageId : RawId)
  | env (t : Time) (down : Call → Bool)

/-- Handle one event. -/
def step (w : World) : Inbound → World
  | Inbound.private_message socket to_ text => exec (onPrivateMessage socket to_ text) w
  | Inbound.message_read socket messageId => exec (onMessageRead socket messageId) w
  | Inbound.env t down => { w with now := t, down := down }

/-- Handle a sequence of events, in order. -/
def runEvents (w : World) (es : List Inbound) : World := es.foldl step w

/-- Delivery state of a message: 0 `sent`, 1 `delivered`, 2 `read`. -/
def deliveryState (m : MessageDoc) : Nat :=
  if m.read then 2 else if m.delivered then 1 else 0

/-- Successive `checkRateLimit` calls for one `(identity, action)`, the i-th made
when the clock reads the i-th time; returns each call's result and the final world. -/
def rateRun (userId action : String) (limit windowSeconds : Int) :
    World → List Time → List (Except String Bool) × World
  | w, [] => ([], w)
  | w, t :: ts =>
    let r := (checkRateLimit userId action limit windowSeconds).run (w.atTime t)
    let rest := rateRun userId action limit windowSeconds r.2 ts
    (r.1 :: rest.1, rest.2)

/-- An idle server: empty stores, no connection, every collaborator up, no token
verifies. -/
def emptyWorld : World :=
  { now := 0, redis := fun _ => none, messages := [], users := [], conns := [], out := [],
    down := fun _ => false, jwtVerify := fun _ _ => none, groups := [], groupMessages := [],
    published := [], timers := [], sms := [] }

/-- The unread count that `unread:<userId>` holds for `fromUserId` (0 when absent). -/
def unreadCount (w : World) (userId fromUserId : String) : Int :=
  match lookup w (unreadKey userId) with
  | some (Entry.mk (RVal.hash h) _) => (h fromUserId).getD 0
  | _ => 0

/-- The key is absent (or expired) or holds a hash. -/
def hashOrAbsent (w : World) (k : String) : Prop :=
  ∀ e, lookup w k = some e → ∃ h, e.val = RVal.hash h

/-- Every collaborator call goes through. -/
def AllUp (w : World) : Prop := ∀ c, w.down c = false

/-- The fields and expiry of the live hash under a key (no field when absent). -/
def hashOf (w : World) (k : String) : (String → Option Int) × Option Time :=
  match lookup w k with
  | some (Entry.mk (RVal.hash h) ex) => (h, ex)
  | _ => (fun _ => none, none)

/-- Directory keys hold strings and unread keys hold hashes, as their only
writers (`mapSocket`, `incrementUnread`) store them. -/
def WellTyped (w : World) : Prop :=
  (∀ u e, w.redis (socketKey u) = some e → ∃ s, e.val = RVal.str s) ∧
  (∀ u e, w.redis (unreadKey u) = some e → ∃ h, e.val = RVal.hash h)

/-- One connection sends the given `(time, to, text)` messages in order, each
handled when the clock reads its time. -/
def sendAll (socket : Socket) (w : World) (msgs : List (Time × String × String)) : World :=
  msgs.foldl (fun v m => exec (onPrivateMessage socket m.2.1 m.2.2) (v.atTime m.1)) w

/-- Every run of `x` relates the world before to the world after by `R`. -/
def Keeps (R : World → World → Prop) {α : Type} (x : Eff α) : Prop :=
  ∀ w, R w (x.run w).2

/-- No stored message is lost or moves backward between `w` and `w2`: the
message at each position keeps its `_id`, a set `delivered` or `read` flag stays
set, and the delivery state does not decrease. -/
def NoRegress (w w2 : World) : Prop :=
  ∀ (i : Nat) (m : MessageDoc), w.messages[i]? = some m →
    ∃ m2, w2.messages[i]? = some m2 ∧ m2._id = m._id ∧
      (m.delivered = true → m2.delivered = true) ∧ (m.read = true → m2.read = true) ∧
      deliveryState m ≤ deliveryState m2

/-- Between `pre` and `post` one message from the connection `s` (sender identity
`f`) with the given `to` and `text` was persisted, with a fresh `_id` and the trimmed
text, and acknowledged to the sender by `message_delivered` (then it is stored as
delivered) or by `message_sent` with `delivered: false` (then it is stored as not
delivered); no `error` event was emitted. -/
def PersistedAndAcked (s : Socket) (f to_ text : String) (pre post : World) : Prop :=
  ∃ (d : Bool) (t : String) (evs : List Emission),
    castObjectId to_ = some t ∧
    post.messages = pre.messages ++
      [MessageDoc.mk (freshId pre.messages) f t (jsTrim text) post.now d false none] ∧
    post.out = pre.out ++ evs ∧
    ((d = true ∧ Emission.mk (Target.socket s.id)
          (Event.message_delivered (freshId pre.messages)) ∈ evs) ∨
      (d = false ∧ Emission.mk (Target.socket s.id)
          (Event.message_sent (freshId pre.messages) false) ∈ evs)) ∧
    (∀ e ∈ evs, ∀ msg, e.event ≠ Event.error msg)

/-- The identifier matches no stored message (or is not an identifier at all). -/
def matchesNone (w : World) : RawId → Prop
  | RawId.castable id => findMessage w id = none
  | RawId.uncastable _ => True

/-! ## Frame relations and views used by the statements on presence and groups -/

/-- Between `w` and `w2` nothing changed except, possibly, what is stored under `k`. -/
def TouchesOnly (k : String) (w w2 : World) : Prop := ∃ e, w2 = w.put k e

/-- The members of the live set under a key (none when absent). -/
def setMembers (w : World) (k : String) : List String :=
  match lookup w k with
  | some (Entry.mk (RVal.set ms) _) => ms
  | _ => []

/-- The key is absent (or expired) or holds a set. -/
def setOrAbsent (w : World) (k : String) : Prop :=
  ∀ e, lookup w k = some e → ∃ ms, e.val = RVal.set ms

/-- The rooms after joining each room of `l` in turn. -/
def addRooms (rooms : List String) (l : List String) : List String :=
  l.foldl (fun rs r => if r ∈ rs then rs else rs ++ [r]) rooms

/-- The emissions of `w2` that were not yet in `w`. -/
def newEmissions (w w2 : World) : List Emission := w2.out.drop w.out.length

/-! ## Relations used by the statements on failures and one-time codes -/

/-- The entry that a write of the OTP record `d` at time `t` leaves. -/
def otpEntry (d : OtpData) (t : Time) : Option Entry :=
  some (Entry.mk (RVal.json d) (some (t + 300 * 1000)))

/-- Between `w` and `w2` events were only added, none of them an `error` event. -/
def NoErrOut (w w2 : World) : Prop :=
  ∃ l, w2.out = w.out ++ l ∧ ∀ em ∈ l, ∀ msg, em.event ≠ Event.error msg

/-- Whenever `x` throws, the world it throws in is related to the initial one by `R`. -/
def ThrowsKeep (R : World → World → Prop) {α : Type} (x : Eff α) : Prop :=
  ∀ w e w1, x.run w = (Except.error e, w1) → R w w1

/-- Nothing was emitted between `w` and `w2`. -/
def SameOut (w w2 : World) : Prop := w2.out = w.out

/-- Between `w` and `w2` events were only added, and every added `message_delivered`
names a message whose stored record in `w2` has `delivered = true`. -/
def DeliveredSound (w w2 : World) : Prop :=
  ∃ l, w2.out = w.out ++ l ∧
    ∀ em ∈ l, ∀ id, em.event = Event.message_delivered id →
      ∃ m, findMessage w2 id = some m ∧ m.delivered = true

/-! ## Sample data -/

/-- A user identifier. -/
def alice : String := "aaaaaaaaaaaaaaaaaaaaaaaa"

/-- A user identifier. -/
def bob : String := "bbbbbbbbbbbbbbbbbbbbbbbb"

/-- A user identifier. -/
def carol : String := "cccccccccccccccccccccccc"

/-- Alice and Bob are registered and connected (`sockA`, `sockB`); Carol is
registered and not connected; the token `token-carol` verifies as Carol's. -/
def demoWorld : World :=
  { emptyWorld with
    now := 1000
    users := [UserDoc.mk alice "+15550001" "Alice" "a.png",
              UserDoc.mk bob "+15550002" "Bob" "b.png",
              UserDoc.mk carol "+15550003" "Carol" "c.png"]
    redis := fun k =>
      if k = socketKey alice then some (Entry.mk (RVal.str "sockA") none)
      else if k = socketKey bob then some (Entry.mk (RVal.str "sockB") none)
      else none
    jwtVerify := fun _ t => if t = "token-carol" then some (some carol) else none }

/-- The sample server after Alice sent "hi" to Bob (delivered, not read yet). -/
def chatWorld : World :=
  { demoWorld with messages := [MessageDoc.mk 1 alice bob "hi" 400 true false none] }

/-- The sample server after Bob read Alice's message at time 500. -/
def readWorld : World :=
  { demoWorld with messages := [MessageDoc.mk 1 alice bob "hi" 400 true true (some 500)] }

/-- Alice's connection. -/
def sockA : Socket := { id := "sockA", userId := alice }

/-- Bob's connection. -/
def sockB : Socket := { id := "sockB", userId := bob }

/-- Carol's connection. -/
def sockC : Socket := { id := "sockC", userId := carol }

/-- A user identifier. -/
def dave : String := "dddddddddddddddddddddddd"

/-- A group identifier. -/
def team : String := "eeeeeeeeeeeeeeeeeeeeeeee"

/-- The group `team`, created by Alice: Alice, Bob and Carol are its members. -/
def teamGroup : GroupDoc :=
  { _id := team, name := "Team", createdBy := alice, members := [alice, bob, carol],
    admins := [alice] }

/-- Dave's connection. -/
def sockD : Socket := { id := "sockD", userId := dave }

/-- The first server process: Alice and Dave are connected to it. -/
def processOne : World :=
  { demoWorld with
    groups := [teamGroup]
    conns := [Conn.mk "sockA" alice ["sockA", alice] true,
              Conn.mk "sockD" dave ["sockD", dave] true] }

/-- The second server process: Bob and Carol are connected to it, and Dave with a
second connection. -/
def processTwo : World :=
  { demoWorld with
    groups := [teamGroup]
    conns := [Conn.mk "sockB" bob ["sockB", bob] true,
              Conn.mk "sockC" carol ["sockC", carol] true,
              Conn.mk "sockE" dave ["sockE", dave] true] }

/-- The sample server with a store whose `EXPIRE` command fails. -/
def flakyWorld : World :=
  { demoWorld with down := fun c => decide (c = Call.redis RedisCmd.expire) }

/-- The first process after Alice's `join_group` for the team. -/
def joinedOne : World := exec (onJoinGroup sockA team) processOne

/-- The second process after Bob's `join_group` for the team and Carol's
`join_my_groups`. -/
def joinedTwo : World := exec (onJoinMyGroups sockC) (exec (onJoinGroup sockB team) processTwo)

/-- The sample server after Carol connected with the connection `sockC`. -/
def carolOnline : World := exec (handleConnection "sockC" (some "token-carol")) demoWorld

/-- The sample server with a store whose `INCR` command fails. -/
def limiterDown : World :=
  { demoWorld with down := fun c => decide (c = Call.redis RedisCmd.incr) }

/-- The sample server with every collaborator down. -/
def allDown : World := { demoWorld with down := fun _ => true }

/-- The sample server with a document store whose `save` fails. -/
def saveDown : World :=
  { demoWorld with down := fun c => decide (c = Call.db DbOp.messageSave) }

/-- The sample server after Carol connected twice, first with the connection
`c1`, then with `c2`. -/
def twoTabs : World :=
  exec (handleConnection "c2" (some "token-carol"))
    (exec (handleConnection "c1" (some "token-carol")) demoWorld)

/-- Alice's user document. -/
def aliceDoc : UserDoc := UserDoc.mk alice "+15550001" "Alice" "a.png"

/-- Carol's user document. -/
def carolDoc : UserDoc := UserDoc.mk carol "+15550003" "Carol" "c.png"

/-- The sample server after Bob sent "hi" to Carol, who is not connected: Carol
has one unread message from Bob. -/
def unreadWorld : World := exec (onPrivateMessage sockB carol "hi") demoWorld

/-- The first process after Alice sent `hello` to the team. -/
def groupChatWorld : World := exec (onGroupMessage sockA team "hello") processOne

/-! ## Theorems -/

section EffLemmas

variable {α β : Type}

@[simp] theorem Eff.run_mk (f : World → Except String α × World) (w : World) :
    (Eff.mk f).run w = f w := rfl

@[simp] theorem Eff.run_pure (a : α) (w : World) :
    (pure a : Eff α).run w = (Except.ok a, w) := rfl

@[simp] theorem Eff.run_throw (e : String) (w : World) :
    (Eff.throw e : Eff α).run w = (Except.error e, w) := rfl

theorem Eff.run_bind (x : Eff α) (f : α → Eff β) (w : World) :
    (x >>= f).run w =
      match x.run w with
      | (Except.ok a, w1) => (f a).run w1
      | (Except.error e, w1) => (Except.error e, w1) := rfl

@[simp] theorem Eff.run_bind_ok (x : Eff α) (f : α → Eff β) (w w1 : World) (a : α)
    (h : x.run w = (Except.ok a, w1)) : (x >>= f).run w = (f a).run w1 := by
  rw [Eff.run_bind, h]

@[simp] theorem Eff.run_bind_error (x : Eff α) (f : α → Eff β) (w w1 : World) (e : String)
    (h : x.run w = (Except.error e, w1)) : (x >>= f).run w = (Except.error e, w1) := by
  rw [Eff.run_bind, h]

theorem Eff.run_tryCatch (x : Eff α) (h : String → Eff α) (w : World) :
    (Eff.tryCatch x h).run w =
      match x.run w with
      | (Except.ok a, w1) => (Except.ok a, w1)
      | (Except.error e, w1) => (h e).run w1 := rfl

@[simp] theorem Eff.run_tryCatch_ok (x : Eff α) (h : String → Eff α) (w w1 : World) (a : α)
    (hx : x.run w = (Except.ok a, w1)) : (Eff.tryCatch x h).run w = (Except.ok a, w1) := by
  rw [Eff.run_tryCatch, hx]

@[simp] theorem Eff.run_tryCatch_error (x : Eff α) (h : String → Eff α) (w w1 : World)
    (e : String) (hx : x.run w = (Except.error e, w1)) :
    (Eff.tryCatch x h).run w = (h e).run w1 := by
  rw [Eff.run_tryCatch, hx]

theorem Eff.run_ite (c : Prop) [Decidable c] (x y : Eff α) (w : World) :
    (if c then x else y).run w = if c then x.run w else y.run w := by
  split <;> rfl

theorem run_call_up (c : Call) (w : World) (h : w.down c = false) :
    (call c).run w = (Except.ok (), w) := by
  simp [call, h]

theorem run_call_down (c : Call) (w : World) (h : w.down c = true) :
    (call c).run w = (Except.error "collaborator unavailable", w) := by
  simp [call, h]

end EffLemmas

section StoreLemmas

@[simp] theorem put_redis_same (w : World) (k : String) (e : Option Entry) :
    (w.put k e).redis k = e := by
  simp [World.put]

theorem put_redis_other (w : World) (k k2 : String) (e : Option Entry) (h : k2 ≠ k) :
    (w.put k e).redis k2 = w.redis k2 := by
  simp [World.put, Function.update, h]

@[simp] theorem put_now (w : World) (k : String) (e : Option Entry) : (w.put k e).now = w.now := rfl

@[simp] theorem put_down (w : World) (k : String) (e : Option Entry) : (w.put k e).down = w.down := rfl

@[simp] theorem put_messages (w : World) (k : String) (e : Option Entry) :
    (w.put k e).messages = w.messages := rfl

@[simp] theorem put_users (w : World) (k : String) (e : Option Entry) :
    (w.put k e).users = w.users := rfl

@[simp] theorem put_conns (w : World) (k : String) (e : Option Entry) :
    (w.put k e).conns = w.conns := rfl

@[simp] theorem put_out (w : World) (k : String) (e : Option Entry) : (w.put k e).out = w.out := rfl

@[simp] theorem put_jwtVerify (w : World) (k : String) (e : Option Entry) :
    (w.put k e).jwtVerify = w.jwtVerify := rfl

theorem lookup_put_same (w : World) (k : String) (e : Option Entry) :
    lookup (w.put k e) k = match e with
      | some x => if x.live w.now then some x else none
      | none => none := by
  simp [lookup]

theorem lookup_put_other (w : World) (k k2 : String) (e : Option Entry) (h : k2 ≠ k) :
    lookup (w.put k e) k2 = lookup w k2 := by
  simp [lookup, put_redis_other w k k2 e h]

theorem lookup_some_redis (w : World) (k : String) (e : Entry) (h : lookup w k = some e) :
    w.redis k = some e ∧ e.live w.now = true := by
  unfold lookup at h
  cases hr : w.redis k with
  | none => simp [hr] at h
  | some x =>
    simp only [hr] at h
    by_cases hl : x.live w.now = true
    · simp [hl] at h
      subst h
      exact ⟨rfl, hl⟩
    · simp [hl] at h

theorem lookup_atTime_expired (w : World) (k : String) (v : RVal) (E t : Time)
    (h : w.redis k = some (Entry.mk v (some E))) (ht : E < t) :
    lookup (w.atTime t) k = none := by
  simp [lookup, Entry.live, World.atTime, h, not_le.mpr ht]

theorem incr_run_absent (w : World) (k : String)
    (hup : w.down (Call.redis RedisCmd.incr) = false) (h : lookup w k = none) :
    (Redis.incr k).run w = (Except.ok 1, w.put k (some (Entry.mk (RVal.int 1) none))) := by
  unfold Redis.incr
  rw [Eff.run_bind_ok _ _ w w () (run_call_up _ w hup)]
  simp [h]

theorem incr_run_counter (w : World) (k : String) (n : Int) (ex : Option Time)
    (hup : w.down (Call.redis RedisCmd.incr) = false)
    (h : lookup w k = some (Entry.mk (RVal.int n) ex)) :
    (Redis.incr k).run w
      = (Except.ok (n + 1), w.put k (some (Entry.mk (RVal.int (n + 1)) ex))) := by
  unfold Redis.incr
  rw [Eff.run_bind_ok _ _ w w () (run_call_up _ w hup)]
  simp [h]

theorem expire_run_absent (w : World) (k : String) (seconds : Int)
    (hup : w.down (Call.redis RedisCmd.expire) = false) (h : lookup w k = none) :
    (Redis.expire k seconds).run w = (Except.ok false, w) := by
  unfold Redis.expire
  rw [Eff.run_bind_ok _ _ w w () (run_call_up _ w hup)]
  simp [h]

theorem expire_run_live (w : World) (k : String) (seconds : Int) (e : Entry)
    (hup : w.down (Call.redis RedisCmd.expire) = false) (h : lookup w k = some e) :
    (Redis.expire k seconds).run w
      = (Except.ok true,
          if seconds ≤ 0 then w.put k none
          else w.put k (some { e with expireAt := some (w.now + seconds * 1000) })) := by
  unfold Redis.expire
  rw [Eff.run_bind_ok _ _ w w () (run_call_up _ w hup)]
  simp only [Eff.run_mk, h]
  split <;> rfl

end StoreLemmas

section RateLimitLemmas

theorem put_put (w : World) (k : String) (a b : Option Entry) :
    (w.put k a).put k b = w.put k b := by
  simp [World.put]

theorem checkRateLimit_run_absent (w : World) (userId action : String)
    (limit windowSeconds : Int)
    (hincr : w.down (Call.redis RedisCmd.incr) = false)
    (hexp : w.down (Call.redis RedisCmd.expire) = false)
    (h : lookup w (rateKey userId action) = none) :
    (checkRateLimit userId action limit windowSeconds).run w
      = (Except.ok (decide (1 ≤ limit)),
          if windowSeconds ≤ 0 then w.put (rateKey userId action) none
          else w.put (rateKey userId action)
            (some (Entry.mk (RVal.int 1) (some (w.now + windowSeconds * 1000))))) := by
  unfold checkRateLimit
  rw [Eff.run_bind_ok _ _ _ _ _ (incr_run_absent w _ hincr h)]
  have hl : lookup (w.put (rateKey userId action) (some (Entry.mk (RVal.int 1) none)))
      (rateKey userId action) = some (Entry.mk (RVal.int 1) none) := by
    simp [lookup_put_same, Entry.live]
  simp only [if_true]
  rw [Eff.run_bind_ok _ _ _ _ _ (expire_run_live _ _ windowSeconds _ (by simpa using hexp) hl)]
  simp only [Eff.run_pure, put_put, put_now]

theorem checkRateLimit_run_counter (w : World) (userId action : String)
    (limit windowSeconds : Int) (n : Int) (ex : Option Time)
    (hincr : w.down (Call.redis RedisCmd.incr) = false)
    (hexp : w.down (Call.redis RedisCmd.expire) = false)
    (h : lookup w (rateKey userId action) = some (Entry.mk (RVal.int n) ex)) :
    (checkRateLimit userId action limit windowSeconds).run w
      = (Except.ok (decide (n + 1 ≤ limit)),
          if n + 1 = 1 then
            (if windowSeconds ≤ 0 then w.put (rateKey userId action) none
             else w.put (rateKey userId action)
               (some (Entry.mk (RVal.int (n + 1)) (some (w.now + windowSeconds * 1000)))))
          else w.put (rateKey userId action) (some (Entry.mk (RVal.int (n + 1)) ex))) := by
  unfold checkRateLimit
  rw [Eff.run_bind_ok _ _ _ _ _ (incr_run_counter w _ n ex hincr h)]
  have hlive := (lookup_some_redis w _ _ h).2
  have hl : lookup (w.put (rateKey userId action) (some (Entry.mk (RVal.int (n + 1)) ex)))
      (rateKey userId action) = some (Entry.mk (RVal.int (n + 1)) ex) := by
    have : (Entry.mk (RVal.int (n + 1)) ex).live w.now = true := by
      simpa [Entry.live] using hlive
    simp [lookup_put_same, this]
  by_cases h1 : n + 1 = 1
  · simp only [h1, if_true]
    rw [h1] at hl
    rw [Eff.run_bind_ok _ _ _ _ _ (expire_run_live _ _ windowSeconds _ (by simpa using hexp) hl)]
    simp only [Eff.run_pure, put_put, put_now]
  · simp only [h1, if_false, Eff.run_pure]

end RateLimitLemmas

/-- The whole effect of one `checkRateLimit` call on a well-typed counter. -/
theorem checkRateLimit_effect (w : World) (userId action : String)
    (limit windowSeconds : Int)
    (hincr : w.down (Call.redis RedisCmd.incr) = false)
    (hexp : w.down (Call.redis RedisCmd.expire) = false)
    (hkey : counterOrAbsent w (rateKey userId action)) :
    ∃ w1 : World,
      (checkRateLimit userId action limit windowSeconds).run w
        = (Except.ok (decide (counterOf w (rateKey userId action) + 1 ≤ limit)), w1) ∧
      (counterOf w (rateKey userId action) + 1 = 1 → 0 < windowSeconds →
        w1.redis (rateKey userId action)
          = some (Entry.mk (RVal.int 1) (some (w.now + windowSeconds * 1000)))) ∧
      (counterOf w (rateKey userId action) + 1 = 1 → windowSeconds ≤ 0 →
        w1.redis (rateKey userId action) = none) ∧
      (counterOf w (rateKey userId action) + 1 ≠ 1 →
        ∃ e : Entry, w.redis (rateKey userId action) = some e ∧ e.live w.now = true ∧
          w1.redis (rateKey userId action)
            = some (Entry.mk (RVal.int (counterOf w (rateKey userId action) + 1)) e.expireAt)) ∧
      (∀ k : String, k ≠ rateKey userId action → w1.redis k = w.redis k) ∧
      w1.now = w.now ∧ w1.messages = w.messages ∧ w1.users = w.users ∧
      w1.conns = w.conns ∧ w1.out = w.out ∧ w1.down = w.down ∧ w1.jwtVerify = w.jwtVerify := by
  cases hl : lookup w (rateKey userId action) with
  | none =>
    have hc : counterOf w (rateKey userId action) = 0 := by simp [counterOf, hl]
    have hrun := checkRateLimit_run_absent w userId action limit windowSeconds hincr hexp hl
    simp only [hc, zero_add]
    refine ⟨_, hrun, ?_, ?_, ?_, ?_, ?_⟩
    · intro _ hpos
      simp [not_le.mpr hpos]
    · intro _ hle
      simp [hle]
    · intro hne
      exact absurd rfl hne
    · intro k hk
      split <;> exact put_redis_other _ _ _ _ hk
    · split <;> simp
  | some e =>
    obtain ⟨n, hn⟩ := hkey e hl
    obtain ⟨v, ex⟩ := e
    simp only at hn
    subst hn
    have hc : counterOf w (rateKey userId action) = n := by simp [counterOf, hl]
    have hred := lookup_some_redis w _ _ hl
    have hrun := checkRateLimit_run_counter w userId action limit windowSeconds n ex hincr hexp hl
    simp only [hc]
    refine ⟨_, hrun, ?_, ?_, ?_, ?_, ?_⟩
    · intro h1 hpos
      simp [h1, not_le.mpr hpos]
    · intro h1 hle
      simp [h1, hle]
    · intro hne
      refine ⟨_, hred.1, hred.2, ?_⟩
      simp [hne]
    · intro k hk
      split
      · split <;> exact put_redis_other _ _ _ _ hk
      · exact put_redis_other _ _ _ _ hk
    · split
      · split <;> simp
      · simp

/-- C1. `checkRateLimit` increments the counter `rate:<identity>:<action>`, returns
`true` exactly when the post-increment count is at most `limit`, applies
`EXPIRE key windowSeconds` exactly when the post-increment count is 1 (for a positive
window the key then expires `windowSeconds` after the call; a non-positive time to
live removes the key), and for a count above 1 leaves the key's expiry as it was.
No other key and nothing outside the store changes. -/
theorem checkRateLimit_contract (w : World) (userId action : String)
    (limit windowSeconds : Int)
    (hincr : w.down (Call.redis RedisCmd.incr) = false)
    (hexp : w.down (Call.redis RedisCmd.expire) = false)
    (hkey : counterOrAbsent w (rateKey userId action)) :
    ∃ w1 : World,
      (checkRateLimit userId action limit windowSeconds).run w
        = (Except.ok (decide (counterOf w (rateKey userId action) + 1 ≤ limit)), w1) ∧
      (counterOf w (rateKey userId action) + 1 = 1 → 0 < windowSeconds →
        w1.redis (rateKey userId action)
          = some (Entry.mk (RVal.int 1) (some (w.now + windowSeconds * 1000)))) ∧
      (counterOf w (rateKey userId action) + 1 = 1 → windowSeconds ≤ 0 →
        w1.redis (rateKey userId action) = none) ∧
      (counterOf w (rateKey userId action) + 1 ≠ 1 →
        ∃ e : Entry, w.redis (rateKey userId action) = some e ∧ e.live w.now = true ∧
          w1.redis (rateKey userId action)
            = some (Entry.mk (RVal.int (counterOf w (rateKey userId action) + 1)) e.expireAt)) ∧
      (∀ k : String, k ≠ rateKey userId action → w1.redis k = w.redis k) ∧
      w1.now = w.now ∧ w1.messages = w.messages ∧ w1.users = w.users ∧
      w1.conns = w.conns ∧ w1.out = w.out := by
  obtain ⟨w1, h1, h2, h3, h4, h5, h6, h7, h8, h9, h10, _⟩ :=
    checkRateLimit_effect w userId action limit windowSeconds hincr hexp hkey
  exact ⟨w1, h1, h2, h3, h4, h5, h6, h7, h8, h9, h10⟩

/-- Witness for C1: the first call on an idle server with limit 20 is allowed. -/
theorem checkRateLimit_contract_witness :
    ((checkRateLimit "u1" "send_message" 20 60).run emptyWorld).1 = Except.ok true := by
  obtain ⟨w1, h, _⟩ := checkRateLimit_contract emptyWorld "u1" "send_message" 20 60 rfl rfl
    (by intro e he; simp [lookup, emptyWorld] at he)
  rw [h]
  simp [counterOf, lookup, emptyWorld]

section RateRunLemmas

theorem rateRun_in_window (userId action : String) (limit windowSeconds : Int) (E : Time)
    (times : List Time) :
    ∀ (w : World) (k : Int), 1 ≤ k →
      w.down (Call.redis RedisCmd.incr) = false →
      w.down (Call.redis RedisCmd.expire) = false →
      w.redis (rateKey userId action) = some (Entry.mk (RVal.int k) (some E)) →
      (∀ t ∈ times, t ≤ E) →
      (rateRun userId action limit windowSeconds w times).1
          = (List.range times.length).map
              (fun (i : Nat) => (Except.ok (decide (k + 1 + (i : Int) ≤ limit)) : Except String Bool)) ∧
        (rateRun userId action limit windowSeconds w times).2.redis (rateKey userId action)
          = some (Entry.mk (RVal.int (k + (times.length : Int))) (some E)) ∧
        (rateRun userId action limit windowSeconds w times).2.down = w.down := by
  induction times with
  | nil =>
    intro w k _ _ _ hred _
    simp [rateRun, hred]
  | cons t ts ih =>
    intro w k hk hincr hexp hred hin
    have hl : lookup (w.atTime t) (rateKey userId action)
        = some (Entry.mk (RVal.int k) (some E)) := by
      have : t ≤ E := hin t (List.mem_cons_self _ _)
      simp [lookup, World.atTime, hred, Entry.live, this]
    have hrun := checkRateLimit_run_counter (w.atTime t) userId action limit windowSeconds
      k (some E) hincr hexp hl
    have hk1 : ¬ (k + 1 = 1) := by omega
    simp only [hk1, if_false] at hrun
    have hin2 : ∀ t2 ∈ ts, t2 ≤ E := fun t2 h2 => hin t2 (List.mem_cons_of_mem _ h2)
    obtain ⟨h1, h2, h3⟩ := ih
      ((w.atTime t).put (rateKey userId action) (some (Entry.mk (RVal.int (k + 1)) (some E))))
      (k + 1) (by omega) hincr hexp (by simp) hin2
    simp only [rateRun, hrun, h1, h2, h3]
    refine ⟨?_, ?_, rfl⟩
    · rw [List.length_cons, List.range_succ_eq_map, List.map_cons, List.map_map]
      congr 1
      · simp
      · apply List.map_congr_left
        intro i _
        simp only [Function.comp, Nat.succ_eq_add_one, Nat.cast_add, Nat.cast_one]
        congr 2
        ring_nf
    · simp only [List.length_cons, Nat.cast_add, Nat.cast_one]
      congr 3
      ring

end RateRunLemmas

/-- C2. With limit `N ≥ 1` and window `W`, starting from an absent counter at the
first call (time `t0`), for calls made before `W` seconds have passed since the first
one, call number `i + 1` returns `true` exactly when `i + 1 ≤ N`; once more than `W`
seconds have passed the counter is absent again and the next call returns `true`,
restarting the count at 1 with a fresh window. -/
theorem rate_limit_window (w : World) (userId action : String) (N W : Int)
    (t0 tAfter : Time) (times : List Time)
    (hN : 1 ≤ N)
    (hincr : w.down (Call.redis RedisCmd.incr) = false)
    (hexp : w.down (Call.redis RedisCmd.expire) = false)
    (habs : lookup (w.atTime t0) (rateKey userId action) = none)
    (hin : ∀ t ∈ times, t0 ≤ t ∧ t < t0 + W * 1000)
    (haft : t0 + W * 1000 < tAfter) :
    (rateRun userId action N W w (t0 :: times)).1
        = (List.range (times.length + 1)).map
            (fun (i : Nat) => (Except.ok (decide ((i : Int) + 1 ≤ N)) : Except String Bool)) ∧
      lookup ((rateRun userId action N W w (t0 :: times)).2.atTime tAfter)
        (rateKey userId action) = none ∧
      ((checkRateLimit userId action N W).run
        ((rateRun userId action N W w (t0 :: times)).2.atTime tAfter)).1 = Except.ok true ∧
      (0 < W →
        (exec (checkRateLimit userId action N W)
          ((rateRun userId action N W w (t0 :: times)).2.atTime tAfter)).redis
            (rateKey userId action)
          = some (Entry.mk (RVal.int 1) (some (tAfter + W * 1000)))) := by
  have hrun := checkRateLimit_run_absent (w.atTime t0) userId action N W hincr hexp habs
  have hfinal : ∀ w2 : World, w2.down = w.down →
      lookup (w2.atTime tAfter) (rateKey userId action) = none →
      lookup (w2.atTime tAfter) (rateKey userId action) = none ∧
      ((checkRateLimit userId action N W).run (w2.atTime tAfter)).1 = Except.ok true ∧
      (0 < W → (exec (checkRateLimit userId action N W) (w2.atTime tAfter)).redis
            (rateKey userId action)
          = some (Entry.mk (RVal.int 1) (some (tAfter + W * 1000)))) := by
    intro w2 hd hl
    have hr := checkRateLimit_run_absent (w2.atTime tAfter) userId action N W
      (by show w2.down _ = false; rw [hd]; exact hincr)
      (by show w2.down _ = false; rw [hd]; exact hexp) hl
    refine ⟨hl, ?_, ?_⟩
    · rw [hr]
      simp [hN]
    · intro hpos
      simp only [exec, hr, not_le.mpr hpos, if_false, put_redis_same]
      rfl
  by_cases hW : W ≤ 0
  · have hnil : times = [] := by
      cases times with
      | nil => rfl
      | cons t ts =>
        have := hin t (List.mem_cons_self _ _)
        linarith [this.1, this.2]
    subst hnil
    simp only [hW, if_true] at hrun
    simp only [rateRun, hrun]
    refine ⟨rfl, ?_⟩
    apply hfinal ((w.atTime t0).put (rateKey userId action) none) rfl
    simp [lookup, World.atTime, World.put]
  · simp only [hW, if_false] at hrun
    have hin2 : ∀ t ∈ times, t ≤ t0 + W * 1000 := fun t ht => le_of_lt (hin t ht).2
    obtain ⟨h1, h2, h3⟩ := rateRun_in_window userId action N W (t0 + W * 1000) times
      ((w.atTime t0).put (rateKey userId action)
        (some (Entry.mk (RVal.int 1) (some (t0 + W * 1000)))))
      1 (le_refl 1) hincr hexp (by simp) hin2
    have hnow : (w.atTime t0).now = t0 := rfl
    rw [hnow] at hrun
    simp only [rateRun, hrun, h1]
    refine ⟨?_, ?_⟩
    · rw [List.range_succ_eq_map, List.map_cons, List.map_map]
      congr 1
      apply List.map_congr_left
      intro i _
      simp only [Function.comp, Nat.succ_eq_add_one, Nat.cast_add, Nat.cast_one]
      congr 2
      ring_nf
    · apply hfinal _ h3
      exact lookup_atTime_expired _ _ _ _ _ h2 haft

section HandlerLemmas

theorem getNow_run (w : World) : getNow.run w = (Except.ok w.now, w) := rfl

theorem emit_run (t : Target) (e : Event) (w : World) :
    (emit t e).run w = (Except.ok (), { w with out := w.out ++ [Emission.mk t e] }) := rfl

theorem create_run (w : World) (from_ to_ text f t : String) (ts : Time) (d : Bool)
    (hup : w.down (Call.db DbOp.messageCreate) = false)
    (hf : castObjectId from_ = some f) (ht : castObjectId to_ = some t)
    (htext : jsTrim text ≠ "") :
    (Message.create from_ to_ text ts d).run w
      = (Except.ok (MessageDoc.mk (freshId w.messages) f t (jsTrim text) ts d false none),
          { w with messages := (w.messages ++
              [MessageDoc.mk (freshId w.messages) f t (jsTrim text) ts d false none]) }) := by
  unfold Message.create
  rw [Eff.run_bind_ok _ _ w w () (run_call_up _ w hup)]
  simp [hf, ht, htext]

theorem populate_run (w : World) (m : MessageDoc)
    (hup : w.down (Call.db DbOp.messagePopulate) = false) :
    (Message.populate m).run w
      = (Except.ok ((w.users.find? (fun u => decide (u._id = m.from_))).map
          (fun u => UserInfo.mk u._id u.name u.avatar)), w) := by
  unfold Message.populate
  rw [Eff.run_bind_ok _ _ w w () (run_call_up _ w hup)]
  simp

theorem save_run (w : World) (m : MessageDoc)
    (hup : w.down (Call.db DbOp.messageSave) = false) :
    (Message.save m).run w
      = (Except.ok (), { w with messages := (updateFirst (fun d => decide (d._id = m._id))
            (fun d => { d with delivered := m.delivered }) w.messages) }) := by
  unfold Message.save
  rw [Eff.run_bind_ok _ _ w w () (run_call_up _ w hup)]
  simp

theorem getSocket_run_str (w : World) (u sid : String) (ex : Option Time)
    (hup : w.down (Call.redis RedisCmd.get) = false)
    (h : lookup w (socketKey u) = some (Entry.mk (RVal.str sid) ex)) :
    (getSocket u).run w = (Except.ok (some sid), w) := by
  unfold getSocket Redis.get
  rw [Eff.run_bind_ok _ _ w w () (run_call_up _ w hup)]
  simp [h]

theorem getSocket_run_absent (w : World) (u : String)
    (hup : w.down (Call.redis RedisCmd.get) = false)
    (h : lookup w (socketKey u) = none) :
    (getSocket u).run w = (Except.ok none, w) := by
  unfold getSocket Redis.get
  rw [Eff.run_bind_ok _ _ w w () (run_call_up _ w hup)]
  simp [h]

theorem incrementUnread_run_absent (w : World) (u f : String)
    (hup : w.down (Call.redis RedisCmd.hincrby) = false)
    (h : lookup w (unreadKey u) = none) :
    (incrementUnread u f).run w
      = (Except.ok (), w.put (unreadKey u)
          (some (Entry.mk (RVal.hash (Function.update (fun _ => none) f (some 1))) none))) := by
  unfold incrementUnread Redis.hincrby
  simp [Eff.run_bind, run_call_up _ w hup, h]

theorem incrementUnread_run_hash (w : World) (u f : String) (hs : String → Option Int)
    (ex : Option Time)
    (hup : w.down (Call.redis RedisCmd.hincrby) = false)
    (h : lookup w (unreadKey u) = some (Entry.mk (RVal.hash hs) ex)) :
    (incrementUnread u f).run w
      = (Except.ok (), w.put (unreadKey u)
          (some (Entry.mk (RVal.hash (Function.update hs f (some ((hs f).getD 0 + 1)))) ex))) := by
  unfold incrementUnread Redis.hincrby
  simp [Eff.run_bind, run_call_up _ w hup, h]

theorem freshId_gt (ms : List MessageDoc) : ∀ d ∈ ms, d._id < freshId ms := by
  induction ms with
  | nil => intro d hd; cases hd
  | cons a as ih =>
    intro d hd
    simp only [freshId, List.map_cons, List.foldr_cons] at ih ⊢
    rcases List.mem_cons.mp hd with h | h
    · subst h; omega
    · have := ih d h; omega

theorem updateFirst_append_fresh (ms : List MessageDoc) (d : MessageDoc)
    (f : MessageDoc → MessageDoc) (h : ∀ x ∈ ms, x._id ≠ d._id) :
    updateFirst (fun x => decide (x._id = d._id)) f (ms ++ [d]) = ms ++ [f d] := by
  induction ms with
  | nil => simp [updateFirst]
  | cons a as ih =>
    have ha : a._id ≠ d._id := h a (List.mem_cons_self _ _)
    simp only [List.cons_append, updateFirst, ha, decide_False, Bool.false_eq_true, if_false,
      List.append_eq]
    rw [ih (fun x hx => h x (List.mem_cons_of_mem _ hx))]

theorem rateKey_ne_socketKey (u a v : String) : socketKey v ≠ rateKey u a := by
  intro h
  have := congrArg String.data h
  simp [rateKey, socketKey] at this

theorem rateKey_ne_unreadKey (u a v : String) : unreadKey v ≠ rateKey u a := by
  intro h
  have := congrArg String.data h
  simp [rateKey, unreadKey] at this

theorem socketKey_ne_unreadKey (u v : String) : socketKey v ≠ unreadKey u := by
  intro h
  have := congrArg String.data h
  simp [socketKey, unreadKey] at this

theorem unreadKey_inj (u v : String) (h : unreadKey u = unreadKey v) : u = v := by
  have := congrArg String.data h
  simp [unreadKey] at this
  exact String.ext this

theorem lookup_frame (w w2 : World) (k : String) (h1 : w2.redis k = w.redis k)
    (h2 : w2.now = w.now) : lookup w2 k = lookup w k := by
  simp [lookup, h1, h2]

theorem jsTrim_empty : jsTrim "" = "" := by decide

theorem castObjectId_empty : castObjectId "" = none := by decide

theorem pm_online_after_rate (w w1 : World) (s : Socket) (to_ text f t sid : String)
    (ex : Option Time)
    (hrl : (checkRateLimit s.userId "send_message" 20 60).run w = (Except.ok true, w1))
    (hup : AllUp w1)
    (hf : castObjectId s.userId = some f) (ht : castObjectId to_ = some t)
    (htrim : jsTrim text ≠ "")
    (hsock : lookup w1 (socketKey to_) = some (Entry.mk (RVal.str sid) ex))
    (hsid : sid ≠ "") :
    (onPrivateMessage s to_ text).run w
      = (Except.ok (),
          { w1 with
            messages := (w1.messages ++
              [MessageDoc.mk (freshId w1.messages) f t (jsTrim text) w1.now true false none])
            out := (w1.out ++
              [Emission.mk (Target.room sid) (Event.receive_message
                (MessageData.mk (freshId w1.messages)
                  ((w1.users.find? (fun u => decide (u._id = f))).map
                    (fun u => UserInfo.mk u._id u.name u.avatar))
                  t (jsTrim text) w1.now)),
               Emission.mk (Target.socket s.id)
                 (Event.message_delivered (freshId w1.messages))]) }) := by
  have htext : text ≠ "" := fun h => htrim (by rw [h]; exact jsTrim_empty)
  have hto : to_ ≠ "" := fun h => by rw [h, castObjectId_empty] at ht; cases ht
  unfold onPrivateMessage
  apply Eff.run_tryCatch_ok
  have hc : ¬ (text = "" ∨ to_ = "") := by simp [htext, hto]
  rw [if_neg hc, Eff.run_bind_ok _ _ _ _ _ hrl]
  have hd : ∀ c, w1.down c = false := hup
  have hl : ∀ ms : List MessageDoc, lookup { w1 with messages := ms } (socketKey to_)
      = some (Entry.mk (RVal.str sid) ex) := fun ms => hsock
  have hfresh := updateFirst_append_fresh w1.messages
    (MessageDoc.mk (freshId w1.messages) f t (jsTrim text) w1.now false false none)
    (fun d => { d with delivered := true })
    (fun x hx => Nat.ne_of_lt (freshId_gt _ x hx))
  simp only [] at hfresh
  simp [Eff.run_bind, getNow, Message.create, call, hd, hf, ht, htrim, Message.populate,
    getSocket, Redis.get, hl, truthy, hsid, emit, Message.save, hfresh]

theorem pm_offline_after_rate (w w1 : World) (s : Socket) (to_ text f t : String)
    (hrl : (checkRateLimit s.userId "send_message" 20 60).run w = (Except.ok true, w1))
    (hup : AllUp w1)
    (hf : castObjectId s.userId = some f) (ht : castObjectId to_ = some t)
    (htrim : jsTrim text ≠ "")
    (hsock : lookup w1 (socketKey to_) = none ∨
      ∃ ex, lookup w1 (socketKey to_) = some (Entry.mk (RVal.str "") ex))
    (hun : hashOrAbsent w1 (unreadKey to_)) :
    (onPrivateMessage s to_ text).run w
      = (Except.ok (),
          { (w1.put (unreadKey to_)
              (some (Entry.mk (RVal.hash (Function.update (hashOf w1 (unreadKey to_)).1 s.userId
                (some (((hashOf w1 (unreadKey to_)).1 s.userId).getD 0 + 1))))
                (hashOf w1 (unreadKey to_)).2))) with
            messages := (w1.messages ++
              [MessageDoc.mk (freshId w1.messages) f t (jsTrim text) w1.now false false none])
            out := (w1.out ++
              [Emission.mk (Target.socket s.id)
                 (Event.message_sent (freshId w1.messages) false)]) }) := by
  have htext : text ≠ "" := fun h => htrim (by rw [h]; exact jsTrim_empty)
  have hto : to_ ≠ "" := fun h => by rw [h, castObjectId_empty] at ht; cases ht
  unfold onPrivateMessage
  apply Eff.run_tryCatch_ok
  have hc : ¬ (text = "" ∨ to_ = "") := by simp [htext, hto]
  rw [if_neg hc, Eff.run_bind_ok _ _ _ _ _ hrl]
  have hd : ∀ c, w1.down c = false := hup
  have hlk : ∀ (ms : List MessageDoc) (k : String),
      lookup { w1 with messages := ms } k = lookup w1 k := fun _ _ => rfl
  cases hu : lookup w1 (unreadKey to_) with
  | none =>
    rcases hsock with h | ⟨ex, h⟩ <;>
    simp [Eff.run_bind, getNow, Message.create, call, hd, hf, ht, htrim, Message.populate,
      getSocket, Redis.get, hlk, h, truthy, emit, incrementUnread, Redis.hincrby, hu, hashOf,
      World.put]
  | some e =>
    obtain ⟨hs, hhs⟩ := hun e hu
    obtain ⟨v, ex2⟩ := e
    simp only at hhs
    subst hhs
    rcases hsock with h | ⟨ex, h⟩ <;>
    simp [Eff.run_bind, getNow, Message.create, call, hd, hf, ht, htrim, Message.populate,
      getSocket, Redis.get, hlk, h, truthy, emit, incrementUnread, Redis.hincrby, hu, hashOf,
      World.put]

theorem pm_limited_after_rate (w w1 : World) (s : Socket) (to_ text : String)
    (hrl : (checkRateLimit s.userId "send_message" 20 60).run w = (Except.ok false, w1))
    (htext : text ≠ "") (hto : to_ ≠ "") :
    (onPrivateMessage s to_ text).run w
      = (Except.ok (),
          { w1 with out := (w1.out ++ [Emission.mk (Target.socket s.id)
              (Event.error "Rate limit exceeded. Please slow down.")]) }) := by
  unfold onPrivateMessage
  apply Eff.run_tryCatch_ok
  have hc : ¬ (text = "" ∨ to_ = "") := by simp [htext, hto]
  rw [if_neg hc, Eff.run_bind_ok _ _ _ _ _ hrl]
  simp [emit]

theorem findMessage_append_fresh (w : World) (ms : List MessageDoc) (d : MessageDoc)
    (hm : w.messages = ms ++ [d]) (h : ∀ x ∈ ms, x._id ≠ d._id) :
    findMessage w d._id = some d := by
  unfold findMessage
  rw [hm, List.find?_append]
  have : ms.find? (fun x => decide (x._id = d._id)) = none := by
    rw [List.find?_eq_none]
    intro x hx
    simpa using h x hx
  simp [this]

theorem unreadCount_eq_hashOf (w : World) (u x : String) :
    unreadCount w u x = (((hashOf w (unreadKey u)).1) x).getD 0 := by
  unfold unreadCount hashOf
  split <;> simp_all

theorem unreadCount_frame (w w2 : World) (u x : String)
    (h1 : w2.redis (unreadKey u) = w.redis (unreadKey u)) (h2 : w2.now = w.now) :
    unreadCount w2 u x = unreadCount w u x := by
  unfold unreadCount
  rw [lookup_frame w w2 _ h1 h2]

/-- C4 (amended). For every `private_message` from the connection `s` whose `to`
casts to an identifier and whose `text` is not blank after trimming, that the rate
limiter allows, sent while the directory resolves a connection `sid` for `to`:
exactly two events are emitted, `receive_message` carrying the persisted message
(`id`, populated `from`, `to`, trimmed `text`, `timestamp`) to `sid` and one
`message_delivered` with that id to the sender; the message is persisted with
`delivered = true`; and no unread counter changes. -/
theorem private_message_online (w : World) (s : Socket) (to_ text f t sid : String)
    (ex : Option Time)
    (hup : AllUp w)
    (hf : castObjectId s.userId = some f) (ht : castObjectId to_ = some t)
    (htrim : jsTrim text ≠ "")
    (hkey : counterOrAbsent w (rateKey s.userId "send_message"))
    (hrate : counterOf w (rateKey s.userId "send_message") + 1 ≤ 20)
    (hsock : lookup w (socketKey to_) = some (Entry.mk (RVal.str sid) ex))
    (hsid : sid ≠ "") :
    (exec (onPrivateMessage s to_ text) w).out
        = w.out ++
          [Emission.mk (Target.room sid) (Event.receive_message
            (MessageData.mk (freshId w.messages)
              ((w.users.find? (fun u => decide (u._id = f))).map
                (fun u => UserInfo.mk u._id u.name u.avatar))
              t (jsTrim text) w.now)),
           Emission.mk (Target.socket s.id) (Event.message_delivered (freshId w.messages))] ∧
      (exec (onPrivateMessage s to_ text) w).messages
        = w.messages ++
          [MessageDoc.mk (freshId w.messages) f t (jsTrim text) w.now true false none] ∧
      findMessage (exec (onPrivateMessage s to_ text) w) (freshId w.messages)
        = some (MessageDoc.mk (freshId w.messages) f t (jsTrim text) w.now true false none) ∧
      (∀ u x : String,
        unreadCount (exec (onPrivateMessage s to_ text) w) u x = unreadCount w u x) := by
  obtain ⟨w1, hrl, _, _, _, hfr, hnow, hmsg, husers, _, hout, hdown, _⟩ :=
    checkRateLimit_effect w s.userId "send_message" 20 60 (hup _) (hup _) hkey
  rw [decide_eq_true hrate] at hrl
  have hup1 : AllUp w1 := fun c => by rw [hdown]; exact hup c
  have hs1 : lookup w1 (socketKey to_) = some (Entry.mk (RVal.str sid) ex) := by
    rw [lookup_frame w w1 _ (hfr _ (rateKey_ne_socketKey _ _ _)) hnow]
    exact hsock
  have hrun := pm_online_after_rate w w1 s to_ text f t sid ex hrl hup1 hf ht htrim hs1 hsid
  have hfresh : ∀ x ∈ w.messages, x._id ≠ freshId w.messages :=
    fun x hx => Nat.ne_of_lt (freshId_gt _ x hx)
  simp only [exec, hrun, hmsg, hout, husers, hnow]
  refine ⟨trivial, trivial, ?_, ?_⟩
  · exact findMessage_append_fresh _ w.messages
      (MessageDoc.mk (freshId w.messages) f t (jsTrim text) w.now true false none) rfl hfresh
  · intro u x
    exact unreadCount_frame w _ u x (hfr _ (rateKey_ne_unreadKey _ _ _)) rfl


/-- C5 (amended). For every `private_message` from the connection `s` whose `to`
casts to an identifier and whose `text` is not blank after trimming, that the rate
limiter allows, sent while the directory has no entry for `to`: the message is
persisted with `delivered = false`, the only event is one `message_sent` with
`delivered: false` to the sender (so no `receive_message`), the unread count
`unread:<to>[<sender>]` grows by exactly 1 and no other unread count changes. -/
theorem private_message_offline (w : World) (s : Socket) (to_ text f t : String)
    (hup : AllUp w)
    (hf : castObjectId s.userId = some f) (ht : castObjectId to_ = some t)
    (htrim : jsTrim text ≠ "")
    (hkey : counterOrAbsent w (rateKey s.userId "send_message"))
    (hrate : counterOf w (rateKey s.userId "send_message") + 1 ≤ 20)
    (hsock : lookup w (socketKey to_) = none)
    (hun : hashOrAbsent w (unreadKey to_)) :
    (exec (onPrivateMessage s to_ text) w).out
        = w.out ++
          [Emission.mk (Target.socket s.id) (Event.message_sent (freshId w.messages) false)] ∧
      (exec (onPrivateMessage s to_ text) w).messages
        = w.messages ++
          [MessageDoc.mk (freshId w.messages) f t (jsTrim text) w.now false false none] ∧
      findMessage (exec (onPrivateMessage s to_ text) w) (freshId w.messages)
        = some (MessageDoc.mk (freshId w.messages) f t (jsTrim text) w.now false false none) ∧
      unreadCount (exec (onPrivateMessage s to_ text) w) to_ s.userId
        = unreadCount w to_ s.userId + 1 ∧
      (∀ u x : String, ¬ (u = to_ ∧ x = s.userId) →
        unreadCount (exec (onPrivateMessage s to_ text) w) u x = unreadCount w u x) := by
  obtain ⟨w1, hrl, _, _, _, hfr, hnow, hmsg, husers, _, hout, hdown, _⟩ :=
    checkRateLimit_effect w s.userId "send_message" 20 60 (hup _) (hup _) hkey
  rw [decide_eq_true hrate] at hrl
  have hup1 : AllUp w1 := fun c => by rw [hdown]; exact hup c
  have hs1 : lookup w1 (socketKey to_) = none := by
    rw [lookup_frame w w1 _ (hfr _ (rateKey_ne_socketKey _ _ _)) hnow]
    exact hsock
  have hu1 : lookup w1 (unreadKey to_) = lookup w (unreadKey to_) :=
    lookup_frame w w1 _ (hfr _ (rateKey_ne_unreadKey _ _ _)) hnow
  have hun1 : hashOrAbsent w1 (unreadKey to_) := by
    intro e he
    rw [hu1] at he
    exact hun e he
  have hh : hashOf w1 (unreadKey to_) = hashOf w (unreadKey to_) := by
    simp [hashOf, hu1]
  have hrun := pm_offline_after_rate w w1 s to_ text f t hrl hup1 hf ht htrim (Or.inl hs1) hun1
  have hfresh : ∀ x ∈ w.messages, x._id ≠ freshId w.messages :=
    fun x hx => Nat.ne_of_lt (freshId_gt _ x hx)
  have hlive : ∀ v : RVal, (Entry.mk v (hashOf w (unreadKey to_)).2).live w.now = true := by
    intro v
    unfold hashOf
    split
    · next h ex heq =>
      have := (lookup_some_redis w _ _ heq).2
      simpa [Entry.live] using this
    · simp [Entry.live]
  simp only [exec, hrun, hmsg, hout, husers, hnow, hh]
  refine ⟨trivial, trivial, ?_, ?_, ?_⟩
  · exact findMessage_append_fresh _ w.messages
      (MessageDoc.mk (freshId w.messages) f t (jsTrim text) w.now false false none) rfl hfresh
  · rw [unreadCount_eq_hashOf w]
    simp [unreadCount, lookup, hnow, hlive]
  · intro u x hne
    by_cases hu : u = to_
    · subst hu
      have hx : x ≠ s.userId := fun h => hne ⟨rfl, h⟩
      rw [unreadCount_eq_hashOf w]
      simp [unreadCount, lookup, hnow, hlive, Function.update, hx]
    · have hk : unreadKey u ≠ unreadKey to_ := fun h => hu (unreadKey_inj _ _ h)
      apply unreadCount_frame
      · show (w1.put _ _).redis (unreadKey u) = w.redis (unreadKey u)
        rw [put_redis_other _ _ _ _ hk]
        exact hfr _ (rateKey_ne_unreadKey _ _ _)
      · exact hnow

theorem wellTyped_lookup_socket (w : World) (h : WellTyped w) (u : String) :
    lookup w (socketKey u) = none ∨
      ∃ sid ex, lookup w (socketKey u) = some (Entry.mk (RVal.str sid) ex) := by
  cases hl : lookup w (socketKey u) with
  | none => exact Or.inl rfl
  | some e =>
    obtain ⟨s, hs⟩ := h.1 u e (lookup_some_redis w _ _ hl).1
    obtain ⟨v, ex⟩ := e
    simp only at hs
    subst hs
    exact Or.inr ⟨s, ex, rfl⟩

theorem wellTyped_hashOrAbsent (w : World) (h : WellTyped w) (u : String) :
    hashOrAbsent w (unreadKey u) := by
  intro e he
  exact h.2 u e (lookup_some_redis w _ _ he).1

/-- Transfer of well-typedness to a world whose store differs only at a rate key. -/
theorem wellTyped_of_frame (w w1 : World) (u a : String) (h : WellTyped w)
    (hfr : ∀ k : String, k ≠ rateKey u a → w1.redis k = w.redis k) : WellTyped w1 := by
  refine ⟨?_, ?_⟩
  · intro v e he
    rw [hfr _ (rateKey_ne_socketKey _ _ _)] at he
    exact h.1 v e he
  · intro v e he
    rw [hfr _ (rateKey_ne_unreadKey _ _ _)] at he
    exact h.2 v e he

theorem wellTyped_put_unread (w : World) (u : String) (hs : String → Option Int)
    (ex : Option Time) (h : WellTyped w) :
    WellTyped (w.put (unreadKey u) (some (Entry.mk (RVal.hash hs) ex))) := by
  refine ⟨?_, ?_⟩
  · intro v e he
    rw [put_redis_other _ _ _ _ (socketKey_ne_unreadKey _ _)] at he
    exact h.1 v e he
  · intro v e he
    by_cases hv : unreadKey v = unreadKey u
    · rw [hv, put_redis_same] at he
      cases he
      exact ⟨hs, rfl⟩
    · rw [put_redis_other _ _ _ _ hv] at he
      exact h.2 v e he

/-- One allowed, valid `private_message`: what is persisted, what is emitted and
what stays true of the store. -/
theorem pm_step_allowed (v v1 : World) (s : Socket) (to_ text f t : String)
    (hup : AllUp v1) (hwt : WellTyped v1)
    (hf : castObjectId s.userId = some f) (ht : castObjectId to_ = some t)
    (htrim : jsTrim text ≠ "")
    (hrl : (checkRateLimit s.userId "send_message" 20 60).run v = (Except.ok true, v1)) :
    ∃ (d : Bool) (evs : List Emission),
      (exec (onPrivateMessage s to_ text) v).messages
        = v1.messages ++
          [MessageDoc.mk (freshId v1.messages) f t (jsTrim text) v1.now d false none] ∧
      (exec (onPrivateMessage s to_ text) v).out = v1.out ++ evs ∧
      ((d = true ∧ Emission.mk (Target.socket s.id)
            (Event.message_delivered (freshId v1.messages)) ∈ evs) ∨
        (d = false ∧ Emission.mk (Target.socket s.id)
            (Event.message_sent (freshId v1.messages) false) ∈ evs)) ∧
      (∀ e ∈ evs, ∀ msg, e.event ≠ Event.error msg) ∧
      AllUp (exec (onPrivateMessage s to_ text) v) ∧
      WellTyped (exec (onPrivateMessage s to_ text) v) ∧
      (exec (onPrivateMessage s to_ text) v).now = v1.now ∧
      (exec (onPrivateMessage s to_ text) v).redis (rateKey s.userId "send_message")
        = v1.redis (rateKey s.userId "send_message") := by
  have hoff : (lookup v1 (socketKey to_) = none ∨
      ∃ ex, lookup v1 (socketKey to_) = some (Entry.mk (RVal.str "") ex)) → _ := fun hs =>
    pm_offline_after_rate v v1 s to_ text f t hrl hup hf ht htrim hs
      (wellTyped_hashOrAbsent v1 hwt to_)
  have hoffline : (lookup v1 (socketKey to_) = none ∨
      ∃ ex, lookup v1 (socketKey to_) = some (Entry.mk (RVal.str "") ex)) →
      ∃ (d : Bool) (evs : List Emission),
      (exec (onPrivateMessage s to_ text) v).messages
        = v1.messages ++
          [MessageDoc.mk (freshId v1.messages) f t (jsTrim text) v1.now d false none] ∧
      (exec (onPrivateMessage s to_ text) v).out = v1.out ++ evs ∧
      ((d = true ∧ Emission.mk (Target.socket s.id)
            (Event.message_delivered (freshId v1.messages)) ∈ evs) ∨
        (d = false ∧ Emission.mk (Target.socket s.id)
            (Event.message_sent (freshId v1.messages) false) ∈ evs)) ∧
      (∀ e ∈ evs, ∀ msg, e.event ≠ Event.error msg) ∧
      AllUp (exec (onPrivateMessage s to_ text) v) ∧
      WellTyped (exec (onPrivateMessage s to_ text) v) ∧
      (exec (onPrivateMessage s to_ text) v).now = v1.now ∧
      (exec (onPrivateMessage s to_ text) v).redis (rateKey s.userId "send_message")
        = v1.redis (rateKey s.userId "send_message") := by
    intro hs
    have hrun := hoff hs
    refine ⟨false, _, ?_, ?_, Or.inr ⟨rfl, List.mem_singleton.mpr rfl⟩, ?_, ?_, ?_, ?_, ?_⟩
    · simp only [exec, hrun]
    · simp only [exec, hrun]
    · intro e he msg
      rw [List.mem_singleton.mp he]
      simp
    · simp only [exec, hrun]
      exact hup
    · simp only [exec, hrun]
      exact wellTyped_put_unread v1 to_ _ _ hwt
    · simp only [exec, hrun]
      rfl
    · simp only [exec, hrun]
      exact put_redis_other _ _ _ _ (Ne.symm (rateKey_ne_unreadKey _ _ _))
  rcases wellTyped_lookup_socket v1 hwt to_ with hnone | ⟨sid, ex, hsome⟩
  · exact hoffline (Or.inl hnone)
  · by_cases hsid : sid = ""
    · subst hsid
      exact hoffline (Or.inr ⟨ex, hsome⟩)
    · have hrun := pm_online_after_rate v v1 s to_ text f t sid ex hrl hup hf ht htrim hsome hsid
      refine ⟨true,
        [Emission.mk (Target.room sid) (Event.receive_message
          (MessageData.mk (freshId v1.messages)
            ((v1.users.find? (fun u => decide (u._id = f))).map
              (fun u => UserInfo.mk u._id u.name u.avatar))
            t (jsTrim text) v1.now)),
         Emission.mk (Target.socket s.id) (Event.message_delivered (freshId v1.messages))],
        ?_, ?_, Or.inl ⟨rfl, ?_⟩, ?_, ?_, ?_, ?_, ?_⟩
      · simp only [exec, hrun]
      · simp only [exec, hrun]
      · simp
      · intro e he msg
        simp only [List.mem_cons, List.mem_singleton, List.not_mem_nil, or_false] at he
        rcases he with h | h <;> rw [h] <;> simp
      · simp only [exec, hrun]
        exact hup
      · simp only [exec, hrun]
        exact hwt
      · simp only [exec, hrun]
      · simp only [exec, hrun]

theorem sendAll_snoc (s : Socket) (w : World) (l : List (Time × String × String))
    (m : Time × String × String) :
    sendAll s w (l ++ [m]) = exec (onPrivateMessage s m.2.1 m.2.2) ((sendAll s w l).atTime m.1) := by
  simp [sendAll, List.foldl_append]

theorem sendAll_take_succ (s : Socket) (w : World) (msgs : List (Time × String × String))
    (i : Nat) (m : Time × String × String) (h : msgs[i]? = some m) :
    sendAll s w (msgs.take (i + 1))
      = exec (onPrivateMessage s m.2.1 m.2.2) ((sendAll s w (msgs.take i)).atTime m.1) := by
  rw [List.take_succ, h, Option.toList_some, sendAll_snoc]

/-- A valid message sent while the counter is absent. -/
theorem pm_step_first (v : World) (s : Socket) (to_ text f : String)
    (hup : AllUp v) (hwt : WellTyped v)
    (hf : castObjectId s.userId = some f) (ht : castObjectId to_ ≠ none)
    (htrim : jsTrim text ≠ "")
    (habs : lookup v (rateKey s.userId "send_message") = none) :
    PersistedAndAcked s f to_ text v (exec (onPrivateMessage s to_ text) v) ∧
      AllUp (exec (onPrivateMessage s to_ text) v) ∧
      WellTyped (exec (onPrivateMessage s to_ text) v) ∧
      (exec (onPrivateMessage s to_ text) v).redis (rateKey s.userId "send_message")
        = some (Entry.mk (RVal.int 1) (some (v.now + 60000))) := by
  obtain ⟨t, ht⟩ := Option.ne_none_iff_exists'.mp ht
  have hrl := checkRateLimit_run_absent v s.userId "send_message" 20 60 (hup _) (hup _) habs
  have h60 : ¬ ((60 : Int) ≤ 0) := by decide
  have h20 : decide ((1 : Int) ≤ 20) = true := by decide
  simp only [h60, if_false, h20] at hrl
  obtain ⟨v1, hv1⟩ : ∃ v1 : World, v1 = v.put (rateKey s.userId "send_message")
      (some (Entry.mk (RVal.int 1) (some (v.now + 60 * 1000)))) := ⟨_, rfl⟩
  rw [← hv1] at hrl
  have hwt1 : WellTyped v1 :=
    wellTyped_of_frame v _ s.userId "send_message" hwt
      (fun k hk => by rw [hv1]; exact put_redis_other _ _ _ _ hk)
  have hup1 : AllUp v1 := by rw [hv1]; exact hup
  obtain ⟨d, evs, h1, h2, h3, h4, h5, h6, h7, h8⟩ :=
    pm_step_allowed v v1 s to_ text f t hup1 hwt1 hf ht htrim hrl
  have hm : v1.messages = v.messages := by rw [hv1]; rfl
  have ho : v1.out = v.out := by rw [hv1]; rfl
  rw [hm] at h1 h3
  rw [ho] at h2
  refine ⟨⟨d, t, evs, ht, ?_, h2, h3, h4⟩, h5, h6, ?_⟩
  · rw [h1, h7]
  · rw [h8, hv1, put_redis_same]
    norm_num

/-- A valid message sent while the counter is live at `k` with `k + 1 ≤ 20`. -/
theorem pm_step_next (v : World) (s : Socket) (to_ text f : String) (k : Int) (E : Time)
    (hup : AllUp v) (hwt : WellTyped v)
    (hf : castObjectId s.userId = some f) (ht : castObjectId to_ ≠ none)
    (htrim : jsTrim text ≠ "")
    (hk1 : 1 ≤ k) (hk20 : k + 1 ≤ 20) (hlive : v.now ≤ E)
    (hred : v.redis (rateKey s.userId "send_message") = some (Entry.mk (RVal.int k) (some E))) :
    PersistedAndAcked s f to_ text v (exec (onPrivateMessage s to_ text) v) ∧
      AllUp (exec (onPrivateMessage s to_ text) v) ∧
      WellTyped (exec (onPrivateMessage s to_ text) v) ∧
      (exec (onPrivateMessage s to_ text) v).redis (rateKey s.userId "send_message")
        = some (Entry.mk (RVal.int (k + 1)) (some E)) := by
  obtain ⟨t, ht⟩ := Option.ne_none_iff_exists'.mp ht
  have hl : lookup v (rateKey s.userId "send_message")
      = some (Entry.mk (RVal.int k) (some E)) := by
    simp [lookup, hred, Entry.live, hlive]
  have hrl := checkRateLimit_run_counter v s.userId "send_message" 20 60 k (some E)
    (hup _) (hup _) hl
  have hne : ¬ (k + 1 = 1) := by omega
  simp only [hne, if_false, decide_eq_true hk20] at hrl
  obtain ⟨v1, hv1⟩ : ∃ v1 : World, v1 = v.put (rateKey s.userId "send_message")
      (some (Entry.mk (RVal.int (k + 1)) (some E))) := ⟨_, rfl⟩
  rw [← hv1] at hrl
  have hwt1 : WellTyped v1 :=
    wellTyped_of_frame v _ s.userId "send_message" hwt
      (fun k hk => by rw [hv1]; exact put_redis_other _ _ _ _ hk)
  have hup1 : AllUp v1 := by rw [hv1]; exact hup
  obtain ⟨d, evs, h1, h2, h3, h4, h5, h6, h7, h8⟩ :=
    pm_step_allowed v v1 s to_ text f t hup1 hwt1 hf ht htrim hrl
  have hm : v1.messages = v.messages := by rw [hv1]; rfl
  have ho : v1.out = v.out := by rw [hv1]; rfl
  rw [hm] at h1 h3
  rw [ho] at h2
  refine ⟨⟨d, t, evs, ht, ?_, h2, h3, h4⟩, h5, h6, ?_⟩
  · rw [h1, h7]
  · rw [h8, hv1, put_redis_same]

/-- A message sent while the counter is live at `k ≥ 20` is refused. -/
theorem pm_step_limited (v : World) (s : Socket) (to_ text : String) (k : Int) (E : Time)
    (hup : AllUp v) (htext : text ≠ "") (hto : to_ ≠ "")
    (hk20 : 20 ≤ k) (hlive : v.now ≤ E)
    (hred : v.redis (rateKey s.userId "send_message") = some (Entry.mk (RVal.int k) (some E))) :
    (exec (onPrivateMessage s to_ text) v).out
        = v.out ++ [Emission.mk (Target.socket s.id)
            (Event.error "Rate limit exceeded. Please slow down.")] ∧
      (exec (onPrivateMessage s to_ text) v).messages = v.messages ∧
      (∀ key : String, key ≠ rateKey s.userId "send_message" →
        (exec (onPrivateMessage s to_ text) v).redis key = v.redis key) := by
  have hl : lookup v (rateKey s.userId "send_message")
      = some (Entry.mk (RVal.int k) (some E)) := by
    simp [lookup, hred, Entry.live, hlive]
  have hrl := checkRateLimit_run_counter v s.userId "send_message" 20 60 k (some E)
    (hup _) (hup _) hl
  have hne : ¬ (k + 1 = 1) := by omega
  have hfalse : decide (k + 1 ≤ 20) = false := by
    apply decide_eq_false
    omega
  simp only [hne, if_false, hfalse] at hrl
  have hrun := pm_limited_after_rate v _ s to_ text hrl htext hto
  simp only [exec, hrun]
  refine ⟨rfl, rfl, ?_⟩
  intro key hkey
  exact put_redis_other _ _ _ _ hkey

theorem burst_invariant (w : World) (s : Socket) (f : String) (t0 : Time)
    (to0 text0 : String) (rest : List (Time × String × String))
    (hup : AllUp w) (hwt : WellTyped w)
    (hf : castObjectId s.userId = some f)
    (habs : lookup (w.atTime t0) (rateKey s.userId "send_message") = none)
    (hwin : ∀ m ∈ rest, t0 ≤ m.1 ∧ m.1 < t0 + 60000)
    (hok : ∀ m ∈ (t0, to0, text0) :: rest, castObjectId m.2.1 ≠ none ∧ jsTrim m.2.2 ≠ "") :
    ∀ i : Nat, i < 20 → i < ((t0, to0, text0) :: rest).length →
      (sendAll s w (((t0, to0, text0) :: rest).take (i + 1))).redis
          (rateKey s.userId "send_message")
        = some (Entry.mk (RVal.int ((i : Int) + 1)) (some (t0 + 60000))) ∧
      AllUp (sendAll s w (((t0, to0, text0) :: rest).take (i + 1))) ∧
      WellTyped (sendAll s w (((t0, to0, text0) :: rest).take (i + 1))) ∧
      ∀ m, ((t0, to0, text0) :: rest)[i]? = some m →
        PersistedAndAcked s f m.2.1 m.2.2
          (sendAll s w (((t0, to0, text0) :: rest).take i))
          (sendAll s w (((t0, to0, text0) :: rest).take (i + 1))) := by
  intro i
  induction i with
  | zero =>
    intro _ _
    have hm0 := hok (t0, to0, text0) (List.mem_cons_self _ _)
    obtain ⟨h1, h2, h3, h4⟩ := pm_step_first (w.atTime t0) s to0 text0 f hup hwt hf hm0.1 hm0.2 habs
    have hs : sendAll s w (((t0, to0, text0) :: rest).take (0 + 1))
        = exec (onPrivateMessage s to0 text0) (w.atTime t0) := by
      simp [sendAll]
    rw [hs]
    refine ⟨?_, h2, h3, ?_⟩
    · rw [h4]
      simp [World.atTime]
    · intro m hm
      simp only [List.getElem?_cons_zero, Option.some.injEq] at hm
      subst hm
      exact h1
  | succ j ih =>
    intro hj20 hjlen
    obtain ⟨hr, hu, hw, _⟩ := ih (by omega) (by omega)
    obtain ⟨m, hm⟩ : ∃ m, ((t0, to0, text0) :: rest)[j + 1]? = some m :=
      ⟨_, List.getElem?_eq_getElem hjlen⟩
    have hmem : m ∈ (t0, to0, text0) :: rest := List.getElem?_mem hm
    have hmrest : m ∈ rest := by
      rw [List.getElem?_cons_succ] at hm
      exact List.getElem?_mem hm
    have hmok := hok m hmem
    have hmwin := hwin m hmrest
    have hstep := pm_step_next
      ((sendAll s w (((t0, to0, text0) :: rest).take (j + 1))).atTime m.1) s m.2.1 m.2.2 f
      ((j : Int) + 1) (t0 + 60000) hu hw hf hmok.1 hmok.2 (by omega) (by omega)
      (le_of_lt hmwin.2) hr
    rw [sendAll_take_succ s w _ (j + 1) m hm]
    obtain ⟨h1, h2, h3, h4⟩ := hstep
    refine ⟨?_, h2, h3, ?_⟩
    · rw [h4]
      push_cast
      rfl
    · intro m2 hm2
      rw [hm] at hm2
      cases hm2
      exact h1

/-- C3 (amended). When one connection sends 21 `private_message` events within 60
seconds, starting from an absent counter, each with a `to` that casts to an
identifier and a `text` that is not blank after trimming: each of the first 20 is
persisted and acknowledged (`message_delivered` or `message_sent`), and the 21st
emits only the rate-limit `error` to the sender, creates no `Message` record, and
changes no store key other than the sender's rate counter (so no unread counter). -/
theorem burst_of_21_messages (w : World) (s : Socket) (f : String) (t0 : Time)
    (to0 text0 : String) (rest : List (Time × String × String))
    (hup : AllUp w) (hwt : WellTyped w)
    (hf : castObjectId s.userId = some f)
    (hlen : rest.length = 20)
    (habs : lookup (w.atTime t0) (rateKey s.userId "send_message") = none)
    (hwin : ∀ m ∈ rest, t0 ≤ m.1 ∧ m.1 < t0 + 60000)
    (hok : ∀ m ∈ (t0, to0, text0) :: rest, castObjectId m.2.1 ≠ none ∧ jsTrim m.2.2 ≠ "") :
    (∀ (i : Nat) (m : Time × String × String), i < 20 →
        ((t0, to0, text0) :: rest)[i]? = some m →
        PersistedAndAcked s f m.2.1 m.2.2
          (sendAll s w (((t0, to0, text0) :: rest).take i))
          (sendAll s w (((t0, to0, text0) :: rest).take (i + 1)))) ∧
      (∃ m, ((t0, to0, text0) :: rest)[20]? = some m ∧
        (sendAll s w ((t0, to0, text0) :: rest)).out
          = (sendAll s w (((t0, to0, text0) :: rest).take 20)).out ++
            [Emission.mk (Target.socket s.id)
              (Event.error "Rate limit exceeded. Please slow down.")] ∧
        (sendAll s w ((t0, to0, text0) :: rest)).messages
          = (sendAll s w (((t0, to0, text0) :: rest).take 20)).messages ∧
        (∀ key : String, key ≠ rateKey s.userId "send_message" →
          (sendAll s w ((t0, to0, text0) :: rest)).redis key
            = (sendAll s w (((t0, to0, text0) :: rest).take 20)).redis key)) := by
  have hinv := burst_invariant w s f t0 to0 text0 rest hup hwt hf habs hwin hok
  have hlen21 : ((t0, to0, text0) :: rest).length = 21 := by simp [hlen]
  refine ⟨?_, ?_⟩
  · intro i m hi hm
    exact (hinv i hi (by omega)).2.2.2 m hm
  · obtain ⟨hr, hu, _, _⟩ := hinv 19 (by omega) (by omega)
    obtain ⟨m, hm⟩ : ∃ m, ((t0, to0, text0) :: rest)[20]? = some m :=
      ⟨_, List.getElem?_eq_getElem (by omega)⟩
    have hmem : m ∈ (t0, to0, text0) :: rest := List.getElem?_mem hm
    have hmrest : m ∈ rest := by
      rw [List.getElem?_cons_succ] at hm
      exact List.getElem?_mem hm
    have hmok := hok m hmem
    have hmwin := hwin m hmrest
    have htext : m.2.2 ≠ "" := fun h => hmok.2 (by rw [h]; exact jsTrim_empty)
    have hto : m.2.1 ≠ "" := fun h => hmok.1 (by rw [h]; exact castObjectId_empty)
    have hall : sendAll s w ((t0, to0, text0) :: rest)
        = exec (onPrivateMessage s m.2.1 m.2.2)
            ((sendAll s w (((t0, to0, text0) :: rest).take 20)).atTime m.1) := by
      rw [← sendAll_take_succ s w _ 20 m hm, List.take_of_length_le (by omega)]
    have hstep := pm_step_limited
      ((sendAll s w (((t0, to0, text0) :: rest).take (19 + 1))).atTime m.1) s m.2.1 m.2.2
      (((19 : Nat) : Int) + 1) (t0 + 60000) hu htext hto (by norm_num) (le_of_lt hmwin.2) hr
    refine ⟨m, hm, ?_⟩
    rw [hall]
    exact hstep

theorem read_unknown_run (w : World) (s : Socket) (raw : RawId) (h : matchesNone w raw) :
    (onMessageRead s raw).run w = (Except.ok (), w) := by
  unfold onMessageRead
  by_cases hd : w.down (Call.db DbOp.messageFindByIdAndUpdate) = true
  · simp [Eff.run_tryCatch, Eff.run_bind, getNow, Message.findByIdAndUpdate, call, hd]
  · have hd2 : w.down (Call.db DbOp.messageFindByIdAndUpdate) = false := by simpa using hd
    cases raw with
    | castable id =>
      have hf : findMessage w id = none := h
      simp [Eff.run_tryCatch, Eff.run_bind, getNow, Message.findByIdAndUpdate, call, hd2, hf]
    | uncastable r =>
      simp [Eff.run_tryCatch, Eff.run_bind, getNow, Message.findByIdAndUpdate, call, hd2,
        Eff.throw]

theorem read_known_run (w : World) (s : Socket) (id : Nat) (m : MessageDoc) (sid : String)
    (ex : Option Time)
    (hdb : w.down (Call.db DbOp.messageFindByIdAndUpdate) = false)
    (hget : w.down (Call.redis RedisCmd.get) = false)
    (hm : findMessage w id = some m)
    (hsock : lookup w (socketKey m.from_) = some (Entry.mk (RVal.str sid) ex))
    (hsid : sid ≠ "") :
    (onMessageRead s (RawId.castable id)).run w
      = (Except.ok (),
          { w with
            messages := (updateFirst (fun x => decide (x._id = id))
              (fun x => { x with read := true, readAt := some w.now }) w.messages)
            out := (w.out ++ [Emission.mk (Target.room sid)
              (Event.message_read_receipt (RawId.castable id) s.userId (some w.now))]) }) := by
  unfold onMessageRead
  have hl : ∀ ms : List MessageDoc, lookup { w with messages := ms } (socketKey m.from_)
      = some (Entry.mk (RVal.str sid) ex) := fun ms => hsock
  simp [Eff.run_tryCatch, Eff.run_bind, getNow, Message.findByIdAndUpdate, call, hdb, hget, hm,
    getSocket, Redis.get, hl, truthy, hsid, emit]

theorem findMessage_updateFirst (ms : List MessageDoc) (id : Nat) (f : MessageDoc → MessageDoc)
    (hf : ∀ x, (f x)._id = x._id) (m : MessageDoc)
    (hm : ms.find? (fun d => decide (d._id = id)) = some m) :
    (updateFirst (fun x => decide (x._id = id)) f ms).find? (fun d => decide (d._id = id))
      = some (f m) := by
  induction ms with
  | nil => simp at hm
  | cons a as ih =>
    by_cases ha : a._id = id
    · simp only [List.find?_cons, ha, decide_True] at hm
      cases hm
      simp [updateFirst, ha, hf]
    · simp only [List.find?_cons, ha, decide_False] at hm
      simp [updateFirst, ha, ih hm]

section KeepsLemmas

variable {α β : Type} {R : World → World → Prop}

theorem keeps_pure (hrefl : ∀ w, R w w) (a : α) : Keeps R (pure a : Eff α) :=
  fun w => hrefl w

theorem keeps_mk (f : World → Except String α × World) (h : ∀ w, R w (f w).2) :
    Keeps R (Eff.mk f) := h

theorem keeps_throw (hrefl : ∀ w, R w w) (e : String) : Keeps R (Eff.throw e : Eff α) :=
  fun w => hrefl w

theorem keeps_bind (htrans : ∀ a b c, R a b → R b c → R a c) (x : Eff α) (f : α → Eff β)
    (hx : Keeps R x) (hf : ∀ a, Keeps R (f a)) : Keeps R (x >>= f) := by
  intro w
  rw [Eff.run_bind]
  have h1 := hx w
  rcases hxw : x.run w with ⟨r, w1⟩
  rw [hxw] at h1
  cases r with
  | ok a => exact htrans _ _ _ h1 (hf a w1)
  | error e => exact h1

theorem keeps_tryCatch (htrans : ∀ a b c, R a b → R b c → R a c) (x : Eff α)
    (h : String → Eff α) (hx : Keeps R x) (hh : ∀ e, Keeps R (h e)) :
    Keeps R (Eff.tryCatch x h) := by
  intro w
  rw [Eff.run_tryCatch]
  have h1 := hx w
  rcases hxw : x.run w with ⟨r, w1⟩
  rw [hxw] at h1
  cases r with
  | ok a => exact h1
  | error e => exact htrans _ _ _ h1 (hh e w1)

end KeepsLemmas

theorem noRegress_refl (w : World) : NoRegress w w :=
  fun _ m hm => ⟨m, hm, rfl, id, id, le_refl _⟩

theorem noRegress_trans (a b c : World) (h1 : NoRegress a b) (h2 : NoRegress b c) :
    NoRegress a c := by
  intro i m hm
  obtain ⟨m2, hm2, hid2, hd2, hr2, hs2⟩ := h1 i m hm
  obtain ⟨m3, hm3, hid3, hd3, hr3, hs3⟩ := h2 i m2 hm2
  exact ⟨m3, hm3, hid3.trans hid2, fun h => hd3 (hd2 h), fun h => hr3 (hr2 h),
    le_trans hs2 hs3⟩

theorem noRegress_of_messages_eq (w w2 : World) (h : w2.messages = w.messages) :
    NoRegress w w2 := by
  intro i m hm
  exact ⟨m, by rw [h]; exact hm, rfl, id, id, le_refl _⟩

theorem noRegress_append (w w2 : World) (extra : List MessageDoc)
    (h : w2.messages = w.messages ++ extra) : NoRegress w w2 := by
  intro i m hm
  refine ⟨m, ?_, rfl, id, id, le_refl _⟩
  rw [h]
  have hi : i < w.messages.length := (List.getElem?_eq_some.mp hm).1
  rw [List.getElem?_append_left hi]
  exact hm

theorem updateFirst_getElem? (p : MessageDoc → Bool) (f : MessageDoc → MessageDoc)
    (ms : List MessageDoc) :
    ∀ (i : Nat) (m : MessageDoc), ms[i]? = some m →
      (updateFirst p f ms)[i]? = some m ∨ (updateFirst p f ms)[i]? = some (f m) := by
  induction ms with
  | nil => intro i m hm; simp at hm
  | cons a as ih =>
    intro i m hm
    unfold updateFirst
    split
    · cases i with
      | zero =>
        simp only [List.getElem?_cons_zero, Option.some.injEq] at hm
        subst hm
        right
        simp
      | succ j =>
        left
        simpa using hm
    · cases i with
      | zero =>
        left
        simpa using hm
      | succ j =>
        simp only [List.getElem?_cons_succ] at hm ⊢
        exact ih j m hm

theorem deliveryState_mono (m m2 : MessageDoc) (hd : m.delivered = true → m2.delivered = true)
    (hr : m.read = true → m2.read = true) : deliveryState m ≤ deliveryState m2 := by
  unfold deliveryState
  cases h1 : m.read <;> cases h2 : m.delivered <;> cases h3 : m2.read <;>
    cases h4 : m2.delivered <;> simp_all

theorem noRegress_updateFirst (w w2 : World) (p : MessageDoc → Bool)
    (f : MessageDoc → MessageDoc)
    (hid : ∀ x, (f x)._id = x._id)
    (hd : ∀ x, x.delivered = true → (f x).delivered = true)
    (hr : ∀ x, x.read = true → (f x).read = true)
    (h : w2.messages = updateFirst p f w.messages) : NoRegress w w2 := by
  intro i m hm
  rw [h]
  rcases updateFirst_getElem? p f w.messages i m hm with h1 | h1
  · exact ⟨m, h1, rfl, id, id, le_refl _⟩
  · exact ⟨f m, h1, hid m, hd m, hr m, deliveryState_mono _ _ (hd m) (hr m)⟩

theorem keeps_same {α : Type} (x : Eff α) (h : ∀ w, (x.run w).2.messages = w.messages) :
    Keeps NoRegress x := fun w => noRegress_of_messages_eq _ _ (h w)

theorem keeps_call (c : Call) : Keeps NoRegress (call c) := by
  apply keeps_same
  intro w
  simp only [call, Eff.run_mk]
  split <;> rfl

theorem keeps_emit (t : Target) (e : Event) : Keeps NoRegress (emit t e) :=
  keeps_same _ (fun _ => rfl)

theorem keeps_getNow : Keeps NoRegress getNow := keeps_same _ (fun _ => rfl)

theorem keeps_incr (k : String) : Keeps NoRegress (Redis.incr k) := by
  unfold Redis.incr
  refine keeps_bind noRegress_trans _ _ (keeps_call _) (fun _ => keeps_same _ ?_)
  intro w
  simp only [Eff.run_mk]
  split <;> rfl

theorem keeps_expire (k : String) (n : Int) : Keeps NoRegress (Redis.expire k n) := by
  unfold Redis.expire
  refine keeps_bind noRegress_trans _ _ (keeps_call _) (fun _ => keeps_same _ ?_)
  intro w
  simp only [Eff.run_mk]
  split
  · rfl
  · split <;> rfl

theorem keeps_get (k : String) : Keeps NoRegress (Redis.get k) := by
  unfold Redis.get
  refine keeps_bind noRegress_trans _ _ (keeps_call _) (fun _ => keeps_same _ ?_)
  intro w
  simp only [Eff.run_mk]
  split <;> rfl

theorem keeps_hincrby (k fld : String) (n : Int) : Keeps NoRegress (Redis.hincrby k fld n) := by
  unfold Redis.hincrby
  refine keeps_bind noRegress_trans _ _ (keeps_call _) (fun _ => keeps_same _ ?_)
  intro w
  simp only [Eff.run_mk]
  split <;> rfl

theorem keeps_checkRateLimit (u a : String) (l n : Int) :
    Keeps NoRegress (checkRateLimit u a l n) := by
  unfold checkRateLimit
  refine keeps_bind noRegress_trans _ _ (keeps_incr _) (fun c => ?_)
  split
  · exact keeps_bind noRegress_trans _ _ (keeps_expire _ _) (fun _ => keeps_pure noRegress_refl _)
  · exact keeps_pure noRegress_refl _

theorem keeps_getSocket (u : String) : Keeps NoRegress (getSocket u) := keeps_get _

theorem keeps_incrementUnread (u f : String) : Keeps NoRegress (incrementUnread u f) := by
  unfold incrementUnread
  exact keeps_bind noRegress_trans _ _ (keeps_hincrby _ _ _) (fun _ => keeps_pure noRegress_refl _)

theorem keeps_create (f t x : String) (ts : Time) (d : Bool) :
    Keeps NoRegress (Message.create f t x ts d) := by
  unfold Message.create
  refine keeps_bind noRegress_trans _ _ (keeps_call _) (fun _ => keeps_mk _ ?_)
  intro w
  split
  · split
    · exact noRegress_refl _
    · exact noRegress_append _ _ _ rfl
  · exact noRegress_refl _

theorem keeps_populate (m : MessageDoc) : Keeps NoRegress (Message.populate m) := by
  unfold Message.populate
  exact keeps_bind noRegress_trans _ _ (keeps_call _) (fun _ => keeps_same _ (fun _ => rfl))

theorem keeps_save (m : MessageDoc) (h : m.delivered = true) :
    Keeps NoRegress (Message.save m) := by
  unfold Message.save
  refine keeps_bind noRegress_trans _ _ (keeps_call _) (fun _ => keeps_mk _ ?_)
  intro w
  refine noRegress_updateFirst _ _ _ _ ?_ ?_ ?_ rfl
  · intro x; rfl
  · intro x _; exact h
  · intro x hx; exact hx

theorem keeps_findByIdAndUpdate (raw : RawId) (t : Time) :
    Keeps NoRegress (Message.findByIdAndUpdate raw t) := by
  unfold Message.findByIdAndUpdate
  refine keeps_bind noRegress_trans _ _ (keeps_call _) (fun _ => ?_)
  cases raw with
  | uncastable r => exact keeps_throw noRegress_refl _
  | castable id =>
    refine keeps_mk _ ?_
    intro w
    split
    · exact noRegress_refl _
    · refine noRegress_updateFirst _ _ _ _ ?_ ?_ ?_ rfl
      · intro x; rfl
      · intro x hx; exact hx
      · intro x _; rfl

theorem keeps_onPrivateMessage (s : Socket) (to_ text : String) :
    Keeps NoRegress (onPrivateMessage s to_ text) := by
  unfold onPrivateMessage
  refine keeps_tryCatch noRegress_trans _ _ ?_ (fun _ => keeps_emit _ _)
  split
  · exact keeps_emit _ _
  · refine keeps_bind noRegress_trans _ _ (keeps_checkRateLimit _ _ _ _) (fun c => ?_)
    split
    · exact keeps_emit _ _
    · refine keeps_bind noRegress_trans _ _ keeps_getNow (fun ts => ?_)
      refine keeps_bind noRegress_trans _ _ (keeps_create _ _ _ _ _) (fun m => ?_)
      refine keeps_bind noRegress_trans _ _ (keeps_populate _) (fun sender => ?_)
      refine keeps_bind noRegress_trans _ _ (keeps_getSocket _) (fun r => ?_)
      split
      · refine keeps_bind noRegress_trans _ _ (keeps_emit _ _) (fun _ => ?_)
        refine keeps_bind noRegress_trans _ _ (keeps_save _ rfl) (fun _ => ?_)
        exact keeps_emit _ _
      · refine keeps_bind noRegress_trans _ _ (keeps_incrementUnread _ _) (fun _ => ?_)
        exact keeps_emit _ _

theorem keeps_onMessageRead (s : Socket) (raw : RawId) :
    Keeps NoRegress (onMessageRead s raw) := by
  unfold onMessageRead
  refine keeps_tryCatch noRegress_trans _ _ ?_ (fun _ => keeps_pure noRegress_refl _)
  refine keeps_bind noRegress_trans _ _ keeps_getNow (fun ts => ?_)
  refine keeps_bind noRegress_trans _ _ (keeps_findByIdAndUpdate _ _) (fun m => ?_)
  split
  · refine keeps_bind noRegress_trans _ _ (keeps_getSocket _) (fun r => ?_)
    split
    · exact keeps_emit _ _
    · exact keeps_pure noRegress_refl _
  · exact keeps_pure noRegress_refl _

theorem noRegress_step (w : World) (e : Inbound) : NoRegress w (step w e) := by
  cases e with
  | private_message s to_ text => exact keeps_onPrivateMessage s to_ text w
  | message_read s raw => exact keeps_onMessageRead s raw w
  | env t d => exact noRegress_of_messages_eq _ _ rfl

theorem noRegress_runEvents (es : List Inbound) : ∀ w : World, NoRegress w (runEvents w es) := by
  induction es with
  | nil => intro w; exact noRegress_refl w
  | cons e es ih =>
    intro w
    exact noRegress_trans _ _ _ (noRegress_step w e) (ih (step w e))

theorem authMiddleware_rejects (w : World) (token : Option String)
    (h : truthy token = none ∨
      (∃ t, truthy token = some t ∧ w.jwtVerify w.now t = none) ∨
      (∃ t claim, truthy token = some t ∧ w.jwtVerify w.now t = some claim ∧
        ∀ oid, claim.bind castObjectId = some oid →
          w.users.find? (fun u => decide (u._id = oid)) = none)) :
    ∃ msg, (authMiddleware token).run w = (Except.ok (Except.error msg), w) ∧
      (msg = "Authentication error: No token provided" ∨
       msg = "Authentication error: Invalid token" ∨
       msg = "Authentication error: User not found") := by
  unfold authMiddleware
  rcases h with h | ⟨t, ht, hv⟩ | ⟨t, claim, ht, hv, hu⟩
  · exact ⟨_, by simp [Eff.run_tryCatch, h], Or.inl rfl⟩
  · exact ⟨_, by simp [Eff.run_tryCatch, Eff.run_bind, ht, jwtVerify, hv], Or.inr (Or.inl rfl)⟩
  · by_cases hd : w.down (Call.db DbOp.userFindById) = true
    · exact ⟨_, by simp [Eff.run_tryCatch, Eff.run_bind, ht, jwtVerify, hv, User.findById,
        call, hd], Or.inr (Or.inl rfl)⟩
    · have hd2 : w.down (Call.db DbOp.userFindById) = false := by simpa using hd
      cases claim with
      | none =>
        exact ⟨_, by simp [Eff.run_tryCatch, Eff.run_bind, ht, jwtVerify, hv, User.findById,
          call, hd2], Or.inr (Or.inr rfl)⟩
      | some c =>
        cases hc : castObjectId c with
        | none =>
          exact ⟨_, by simp [Eff.run_tryCatch, Eff.run_bind, ht, jwtVerify, hv, User.findById,
            call, hd2, hc, Eff.throw], Or.inr (Or.inl rfl)⟩
        | some oid =>
          have hn := hu oid (by simpa using hc)
          exact ⟨_, by simp [Eff.run_tryCatch, Eff.run_bind, ht, jwtVerify, hv, User.findById,
            call, hd2, hc, hn], Or.inr (Or.inr rfl)⟩

theorem read_known_messages (w : World) (s : Socket) (id : Nat) (m : MessageDoc)
    (hdb : w.down (Call.db DbOp.messageFindByIdAndUpdate) = false)
    (hm : findMessage w id = some m) :
    (exec (onMessageRead s (RawId.castable id)) w).messages
      = updateFirst (fun x => decide (x._id = id))
          (fun x => { x with read := true, readAt := some w.now }) w.messages := by
  unfold onMessageRead exec
  have hlk : ∀ (ms : List MessageDoc) (k : String),
      lookup { w with messages := ms } k = lookup w k := fun _ _ => rfl
  by_cases hget : w.down (Call.redis RedisCmd.get) = true
  · simp [Eff.run_tryCatch, Eff.run_bind, getNow, Message.findByIdAndUpdate, call, hdb, hget, hm,
      getSocket, Redis.get]
  · have hget2 : w.down (Call.redis RedisCmd.get) = false := by simpa using hget
    cases hl : lookup w (socketKey m.from_) with
    | none =>
      simp [Eff.run_tryCatch, Eff.run_bind, getNow, Message.findByIdAndUpdate, call, hdb, hget2,
        hm, getSocket, Redis.get, hlk, hl, truthy]
    | some e =>
      obtain ⟨v, ex⟩ := e
      cases v with
      | int n =>
        by_cases hn : toString n = ""
        · simp [Eff.run_tryCatch, Eff.run_bind, getNow, Message.findByIdAndUpdate, call, hdb,
            hget2, hm, getSocket, Redis.get, hlk, hl, truthy, hn]
        · simp [Eff.run_tryCatch, Eff.run_bind, getNow, Message.findByIdAndUpdate, call, hdb,
            hget2, hm, getSocket, Redis.get, hlk, hl, truthy, hn, emit]
      | str sid =>
        by_cases hn : sid = ""
        · simp [Eff.run_tryCatch, Eff.run_bind, getNow, Message.findByIdAndUpdate, call, hdb,
            hget2, hm, getSocket, Redis.get, hlk, hl, truthy, hn]
        · simp [Eff.run_tryCatch, Eff.run_bind, getNow, Message.findByIdAndUpdate, call, hdb,
            hget2, hm, getSocket, Redis.get, hlk, hl, truthy, hn, emit]
      | hash hs =>
        simp [Eff.run_tryCatch, Eff.run_bind, getNow, Message.findByIdAndUpdate, call, hdb,
          hget2, hm, getSocket, Redis.get, hlk, hl, truthy]
      | set ms =>
        simp [Eff.run_tryCatch, Eff.run_bind, getNow, Message.findByIdAndUpdate, call, hdb,
          hget2, hm, getSocket, Redis.get, hlk, hl, truthy]
      | json d =>
        by_cases hn : d.text = ""
        · simp [Eff.run_tryCatch, Eff.run_bind, getNow, Message.findByIdAndUpdate, call, hdb,
            hget2, hm, getSocket, Redis.get, hlk, hl, truthy, hn]
        · simp [Eff.run_tryCatch, Eff.run_bind, getNow, Message.findByIdAndUpdate, call, hdb,
            hget2, hm, getSocket, Redis.get, hlk, hl, truthy, hn, emit]

theorem read_known_find (w : World) (s : Socket) (id : Nat) (m : MessageDoc)
    (hdb : w.down (Call.db DbOp.messageFindByIdAndUpdate) = false)
    (hm : findMessage w id = some m) :
    findMessage (exec (onMessageRead s (RawId.castable id)) w) id
      = some { m with read := true, readAt := some w.now } := by
  unfold findMessage
  rw [read_known_messages w s id m hdb hm]
  exact findMessage_updateFirst w.messages id
    (fun x => { x with read := true, readAt := some w.now }) (fun _ => rfl) m hm

end HandlerLemmas

section PresenceLemmas

theorem put_self (w : World) (k : String) : w.put k (w.redis k) = w := by
  simp [World.put]

theorem touchesOnly_refl (k : String) (w : World) : TouchesOnly k w w :=
  ⟨w.redis k, (put_self w k).symm⟩

theorem touchesOnly_trans (k : String) (a b c : World) (h1 : TouchesOnly k a b)
    (h2 : TouchesOnly k b c) : TouchesOnly k a c := by
  obtain ⟨e1, h1⟩ := h1
  obtain ⟨e2, h2⟩ := h2
  exact ⟨e2, by rw [h2, h1, put_put]⟩

theorem keeps_touch_call (k : String) (c : Call) : Keeps (TouchesOnly k) (call c) := by
  intro w
  simp only [call, Eff.run_mk]
  split <;> exact touchesOnly_refl k w

theorem keeps_touch_set (k v : String) : Keeps (TouchesOnly k) (Redis.set k v) := by
  unfold Redis.set
  refine keeps_bind (touchesOnly_trans k) _ _ (keeps_touch_call k _) (fun _ => keeps_mk _ ?_)
  intro w
  exact ⟨_, rfl⟩

theorem keeps_touch_expire (k : String) (n : Int) : Keeps (TouchesOnly k) (Redis.expire k n) := by
  unfold Redis.expire
  refine keeps_bind (touchesOnly_trans k) _ _ (keeps_touch_call k _) (fun _ => keeps_mk _ ?_)
  intro w
  split
  · exact touchesOnly_refl k w
  · split <;> exact ⟨_, rfl⟩

theorem keeps_touch_del (k : String) : Keeps (TouchesOnly k) (Redis.del k) := by
  unfold Redis.del
  refine keeps_bind (touchesOnly_trans k) _ _ (keeps_touch_call k _) (fun _ => keeps_mk _ ?_)
  intro w
  exact ⟨_, rfl⟩

theorem keeps_touch_setex (k v : String) (n : Int) : Keeps (TouchesOnly k) (Redis.setex k n v) := by
  unfold Redis.setex
  refine keeps_bind (touchesOnly_trans k) _ _ (keeps_touch_call k _) (fun _ => keeps_mk _ ?_)
  intro w
  split
  · exact touchesOnly_refl k w
  · exact ⟨_, rfl⟩

theorem keeps_touch_mapSocket (u c : String) :
    Keeps (TouchesOnly (socketKey u)) (mapSocket u c) := by
  unfold mapSocket
  refine keeps_bind (touchesOnly_trans _) _ _ (keeps_touch_set _ _) (fun _ => ?_)
  refine keeps_bind (touchesOnly_trans _) _ _ (keeps_touch_expire _ _) (fun _ => ?_)
  exact keeps_pure (touchesOnly_refl _) _

theorem keeps_touch_removeSocket (u : String) :
    Keeps (TouchesOnly (socketKey u)) (removeSocket u) := keeps_touch_del _

theorem keeps_touch_setUserOnline (u : String) :
    Keeps (TouchesOnly (onlineKey u)) (setUserOnline u) := by
  unfold setUserOnline
  refine keeps_bind (touchesOnly_trans _) _ _ ?_ (fun _ => keeps_touch_setex _ _ _)
  intro w
  exact touchesOnly_refl _ w

theorem socketKey_inj (u v : String) (h : socketKey u = socketKey v) : u = v := by
  have := congrArg String.data h
  simp [socketKey] at this
  exact String.ext this

theorem socketKey_ne_onlineKey (u v : String) : socketKey u ≠ onlineKey v := by
  intro h
  have := congrArg String.data h
  simp [socketKey, onlineKey] at this

theorem mapSocket_run (w : World) (u c : String)
    (hset : w.down (Call.redis RedisCmd.set) = false)
    (hexp : w.down (Call.redis RedisCmd.expire) = false) :
    (mapSocket u c).run w
      = (Except.ok (), w.put (socketKey u)
          (some (Entry.mk (RVal.str c) (some (w.now + 86400 * 1000))))) := by
  simp [mapSocket, Redis.set, Redis.expire, Eff.run_bind, call, hset, hexp, lookup_put_same,
    Entry.live, put_put]

theorem removeSocket_run (w : World) (u : String)
    (hdel : w.down (Call.redis RedisCmd.del) = false) :
    (removeSocket u).run w = (Except.ok (), w.put (socketKey u) none) := by
  simp [removeSocket, Redis.del, Eff.run_bind, call, hdel]

theorem setUserOnline_run (w : World) (u : String)
    (hsetex : w.down (Call.redis RedisCmd.setex) = false) :
    (setUserOnline u).run w
      = (Except.ok (), w.put (onlineKey u)
          (some (Entry.mk (RVal.str (toString w.now)) (some (w.now + 30 * 1000))))) := by
  simp [setUserOnline, Redis.setex, Eff.run_bind, call, hsetex, getNow]

theorem getSocket_exec (w : World) (u : String) : exec (getSocket u) w = w := by
  unfold exec getSocket Redis.get
  rw [Eff.run_bind]
  simp only [call, Eff.run_mk]
  split
  · next a w1 h =>
    split at h
    · cases h
    · cases h
      split <;> rfl
  · next e w1 h =>
    split at h
    · cases h; rfl
    · cases h

theorem isUserOnline_result (w : World) (u : String) :
    ((isUserOnline u).run w).1
      = if w.down (Call.redis RedisCmd.exists) = true then
          Except.error "collaborator unavailable"
        else Except.ok (lookup w (onlineKey u)).isSome := by
  by_cases hd : w.down (Call.redis RedisCmd.exists) = true
  · simp [isUserOnline, Redis.exists_, Eff.run_bind, call, hd]
  · have hd2 : w.down (Call.redis RedisCmd.exists) = false := by simpa using hd
    cases hl : lookup w (onlineKey u) <;>
      simp [isUserOnline, Redis.exists_, Eff.run_bind, call, hd2, hl]

theorem getSocket_result (w : World) (u : String) :
    ((getSocket u).run w).1
      = if w.down (Call.redis RedisCmd.get) = true then
          Except.error "collaborator unavailable"
        else match lookup w (socketKey u) with
          | none => Except.ok none
          | some (Entry.mk (RVal.str s) _) => Except.ok (some s)
          | some (Entry.mk (RVal.int n) _) => Except.ok (some (toString n))
          | some (Entry.mk (RVal.json d) _) => Except.ok (some d.text)
          | some _ => Except.error "WRONGTYPE" := by
  by_cases hd : w.down (Call.redis RedisCmd.get) = true
  · simp [getSocket, Redis.get, Eff.run_bind, call, hd]
  · have hd2 : w.down (Call.redis RedisCmd.get) = false := by simpa using hd
    simp only [getSocket, Redis.get, Eff.run_bind, call, hd2, Eff.run_mk]
    simp only [Bool.false_eq_true, if_false]
    split <;> simp_all

theorem onConnection_eq_steps (s : Socket) :
    onConnection s
      = Eff.tryCatch (runSteps (connectionSteps s)) (fun _ => closeConn s.id) := rfl

theorem traceSteps_cons_ok (x : Eff Unit) (rest : List (Eff Unit)) (w w1 : World)
    (h : x.run w = (Except.ok (), w1)) :
    traceSteps (x :: rest) w = w1 :: traceSteps rest w1 := by
  simp [traceSteps, h]

theorem traceSteps_cons_error (x : Eff Unit) (rest : List (Eff Unit)) (w w1 : World) (e : String)
    (h : x.run w = (Except.error e, w1)) :
    traceSteps (x :: rest) w = [w1] := by
  simp [traceSteps, h]

theorem runSteps_cons_ok (x : Eff Unit) (rest : List (Eff Unit)) (w w1 : World)
    (h : x.run w = (Except.ok (), w1)) :
    (runSteps (x :: rest)).run w = (runSteps rest).run w1 := by
  simp only [runSteps]
  rw [Eff.run_bind_ok _ _ _ _ _ h]

theorem runSteps_nil (w : World) : (runSteps []).run w = (Except.ok (), w) := rfl

theorem clearInterval_run (sid : String) (w : World) :
    (clearInterval sid).run w
      = (Except.ok (), { w with timers := (w.timers.filter (fun t => decide (t.socketId ≠ sid))) }) :=
  rfl

theorem removeSocket_run_down (w : World) (u : String)
    (hdel : w.down (Call.redis RedisCmd.del) = true) :
    (removeSocket u).run w = (Except.error "collaborator unavailable", w) := by
  simp [removeSocket, Redis.del, Eff.run_bind, call, hdel]

theorem setUserOnline_down (w : World) (u : String) :
    (exec (setUserOnline u) w).down = w.down := by
  obtain ⟨e, he⟩ := keeps_touch_setUserOnline u w
  simp only [exec, he, put_down]

theorem onlineRun_snoc (u : String) (w : World) (l : List Time) (t : Time) :
    onlineRun u w (l ++ [t]) = exec (setUserOnline u) ((onlineRun u w l).atTime t) := by
  simp [onlineRun, List.foldl_append]

theorem onlineRun_down (u : String) (l : List Time) :
    ∀ w : World, (onlineRun u w l).down = w.down := by
  induction l with
  | nil => intro w; rfl
  | cons t ts ih =>
    intro w
    show (onlineRun u (exec (setUserOnline u) (w.atTime t)) ts).down = w.down
    rw [ih, setUserOnline_down]
    rfl

theorem onlineRun_marker (u : String) (w : World) (pre : List Time) (tk : Time)
    (hsetex : w.down (Call.redis RedisCmd.setex) = false) :
    (onlineRun u w (pre ++ [tk])).redis (onlineKey u)
      = some (Entry.mk (RVal.str (toString tk)) (some (tk + 30 * 1000))) := by
  rw [onlineRun_snoc]
  have hd : ((onlineRun u w pre).atTime tk).down (Call.redis RedisCmd.setex) = false := by
    show (onlineRun u w pre).down _ = false
    rw [onlineRun_down]; exact hsetex
  simp only [exec, setUserOnline_run _ u hd, put_redis_same]
  rfl

theorem online_at (u : String) (w : World) (pre : List Time) (tk t : Time)
    (hsetex : w.down (Call.redis RedisCmd.setex) = false)
    (hex : w.down (Call.redis RedisCmd.exists) = false) :
    ((isUserOnline u).run ((onlineRun u w (pre ++ [tk])).atTime t)).1
      = Except.ok (decide (t ≤ tk + 30000)) := by
  rw [isUserOnline_result]
  have hd : ((onlineRun u w (pre ++ [tk])).atTime t).down (Call.redis RedisCmd.exists) = false := by
    show (onlineRun u w (pre ++ [tk])).down _ = false
    rw [onlineRun_down]; exact hex
  have hm := onlineRun_marker u w pre tk hsetex
  have hl : lookup ((onlineRun u w (pre ++ [tk])).atTime t) (onlineKey u)
      = if t ≤ tk + 30000 then some (Entry.mk (RVal.str (toString tk)) (some (tk + 30 * 1000)))
        else none := by
    simp [lookup, World.atTime, hm, Entry.live]
  rw [hl]
  simp only [hd, Bool.false_eq_true, if_false]
  by_cases h : t ≤ tk + 30000 <;> simp [h]

theorem chain_lt (rest : List Time) :
    ∀ t0 : Time, List.Chain (fun a b => a < b ∧ b ≤ a + 20000) t0 rest →
      ∀ x ∈ rest, t0 < x := by
  induction rest with
  | nil => intro t0 _ x hx; cases hx
  | cons t1 r ih =>
    intro t0 hc x hx
    rw [List.chain_cons] at hc
    rcases List.mem_cons.mp hx with h | h
    · rw [h]; exact hc.1.1
    · exact lt_trans hc.1.1 (ih t1 hc.2 x h)

theorem latest_heartbeat (t : Time) (rest : List Time) :
    ∀ t0 : Time, List.Chain (fun a b => a < b ∧ b ≤ a + 20000) t0 rest →
      t0 ≤ t → (∃ tn ∈ t0 :: rest, t ≤ tn) →
      ∃ pre tk, (t0 :: rest).filter (fun x => decide (x ≤ t)) = pre ++ [tk] ∧
        tk ≤ t ∧ t ≤ tk + 20000 := by
  induction rest with
  | nil =>
    intro t0 _ h0 hn
    obtain ⟨tn, htn, hle⟩ := hn
    simp only [List.mem_singleton] at htn
    subst htn
    exact ⟨[], tn, by simp [h0], h0, by linarith⟩
  | cons t1 r ih =>
    intro t0 hc h0 hn
    rw [List.chain_cons] at hc
    obtain ⟨⟨h01, hgap⟩, hc1⟩ := hc
    by_cases h1 : t1 ≤ t
    · have hn1 : ∃ tn ∈ t1 :: r, t ≤ tn := by
        obtain ⟨tn, htn, hle⟩ := hn
        rcases List.mem_cons.mp htn with h | h
        · subst h
          exact absurd (lt_of_lt_of_le h01 h1) (not_lt.mpr hle)
        · exact ⟨tn, h, hle⟩
      obtain ⟨pre, tk, hf, hk1, hk2⟩ := ih t1 hc1 h1 hn1
      refine ⟨t0 :: pre, tk, ?_, hk1, hk2⟩
      rw [List.filter_cons_of_pos (by simpa using h0), hf]
      rfl
    · have hnone : (t1 :: r).filter (fun x => decide (x ≤ t)) = [] := by
        rw [List.filter_eq_nil_iff]
        intro x hx
        have hlt : t < t1 := not_le.mp h1
        rcases List.mem_cons.mp hx with h | h
        · subst h
          simpa using hlt
        · have := chain_lt r t1 hc1 x h
          simpa using lt_trans hlt this
      refine ⟨[], t0, ?_, h0, ?_⟩
      · rw [List.filter_cons_of_pos (by simpa using h0), hnone]
        rfl
      · have hlt : t < t1 := not_le.mp h1
        linarith

end PresenceLemmas

section GroupLemmas

theorem keeps_touch_incr (k : String) : Keeps (TouchesOnly k) (Redis.incr k) := by
  unfold Redis.incr
  refine keeps_bind (touchesOnly_trans k) _ _ (keeps_touch_call k _) (fun _ => keeps_mk _ ?_)
  intro w
  split
  · exact ⟨_, rfl⟩
  · exact ⟨_, rfl⟩
  · exact touchesOnly_refl k w

theorem keeps_touch_checkRateLimit (u a : String) (l n : Int) :
    Keeps (TouchesOnly (rateKey u a)) (checkRateLimit u a l n) := by
  unfold checkRateLimit
  refine keeps_bind (touchesOnly_trans _) _ _ (keeps_touch_incr _) (fun c => ?_)
  split
  · exact keeps_bind (touchesOnly_trans _) _ _ (keeps_touch_expire _ _)
      (fun _ => keeps_pure (touchesOnly_refl _) _)
  · exact keeps_pure (touchesOnly_refl _) _

theorem keeps_touch_sadd (k m : String) : Keeps (TouchesOnly k) (Redis.sadd k m) := by
  unfold Redis.sadd
  refine keeps_bind (touchesOnly_trans k) _ _ (keeps_touch_call k _) (fun _ => keeps_mk _ ?_)
  intro w
  split
  · exact ⟨_, rfl⟩
  · split
    · exact touchesOnly_refl k w
    · exact ⟨_, rfl⟩
  · exact touchesOnly_refl k w

theorem keeps_touch_addToGroupRoom (g u : String) :
    Keeps (TouchesOnly (groupMembersKey g)) (addToGroupRoom g u) := by
  unfold addToGroupRoom
  exact keeps_bind (touchesOnly_trans _) _ _ (keeps_touch_sadd _ _)
    (fun _ => keeps_pure (touchesOnly_refl _) _)

theorem joinGroup_uncastable (w : World) (s : Socket) (groupId : String)
    (h : castObjectId groupId = none) :
    (onJoinGroup s groupId).run w = (Except.ok (), w) := by
  by_cases hd : w.down (Call.db DbOp.groupFindById) = true
  · simp [onJoinGroup, Eff.run_tryCatch, Eff.run_bind, Group.findById, call, hd]
  · have hd2 : w.down (Call.db DbOp.groupFindById) = false := by simpa using hd
    simp [onJoinGroup, Eff.run_tryCatch, Eff.run_bind, Group.findById, call, hd2, h, Eff.throw]

theorem joinGroup_notMember (w : World) (s : Socket) (groupId oid : String)
    (hdb : w.down (Call.db DbOp.groupFindById) = false)
    (hc : castObjectId groupId = some oid)
    (hn : notMember (w.groups.find? (fun g => decide (g._id = oid))) s.userId = true) :
    (onJoinGroup s groupId).run w
      = (Except.ok (), { w with out := (w.out ++
          [Emission.mk (Target.socket s.id) (Event.error "Not a member of this group")]) }) := by
  simp [onJoinGroup, Eff.run_tryCatch, Eff.run_bind, Group.findById, call, hdb, hc, hn, emit]

theorem addToGroupRoom_member (w : World) (g u : String)
    (hup : w.down (Call.redis RedisCmd.sadd) = false)
    (hk : setOrAbsent w (groupMembersKey g)) :
    ((addToGroupRoom g u).run w).1 = Except.ok () ∧
      u ∈ setMembers (exec (addToGroupRoom g u) w) (groupMembersKey g) ∧
      (∀ x ∈ setMembers w (groupMembersKey g),
        x ∈ setMembers (exec (addToGroupRoom g u) w) (groupMembersKey g)) := by
  cases hl : lookup w (groupMembersKey g) with
  | none =>
    have hrun : (addToGroupRoom g u).run w
        = (Except.ok (), w.put (groupMembersKey g) (some (Entry.mk (RVal.set [u]) none))) := by
      simp [addToGroupRoom, Redis.sadd, Eff.run_bind, call, hup, hl]
    simp only [exec, hrun]
    refine ⟨trivial, ?_, ?_⟩
    · simp [setMembers, lookup_put_same, Entry.live]
    · intro x hx
      simp [setMembers, hl] at hx
  | some e =>
    obtain ⟨ms, hms⟩ := hk e hl
    obtain ⟨v, ex⟩ := e
    simp only at hms
    subst hms
    have hlive := (lookup_some_redis w _ _ hl).2
    by_cases hu : u ∈ ms
    · have hrun : (addToGroupRoom g u).run w = (Except.ok (), w) := by
        simp [addToGroupRoom, Redis.sadd, Eff.run_bind, call, hup, hl, hu]
      simp only [exec, hrun]
      refine ⟨trivial, ?_, fun x hx => hx⟩
      simp [setMembers, hl, hu]
    · have hrun : (addToGroupRoom g u).run w
          = (Except.ok (), w.put (groupMembersKey g)
              (some (Entry.mk (RVal.set (ms ++ [u])) ex))) := by
        simp [addToGroupRoom, Redis.sadd, Eff.run_bind, call, hup, hl, hu]
      have hlive2 : (Entry.mk (RVal.set (ms ++ [u])) ex).live w.now = true := by
        simpa [Entry.live] using hlive
      simp only [exec, hrun]
      refine ⟨trivial, ?_, ?_⟩
      · simp [setMembers, lookup_put_same, hlive2]
      · intro x hx
        simp only [setMembers, hl] at hx
        simp [setMembers, lookup_put_same, hlive2, hx]

theorem joinGroup_member (w : World) (s : Socket) (groupId oid : String)
    (hdb : w.down (Call.db DbOp.groupFindById) = false)
    (hsadd : w.down (Call.redis RedisCmd.sadd) = false)
    (hc : castObjectId groupId = some oid)
    (hn : notMember (w.groups.find? (fun g => decide (g._id = oid))) s.userId = false)
    (hk : setOrAbsent w (groupMembersKey groupId)) :
    ((onJoinGroup s groupId).run w).1 = Except.ok () ∧
      (exec (onJoinGroup s groupId) w).conns
        = w.conns.map (fun c => if c.id = s.id then
            (if groupRoom groupId ∈ c.rooms then c
             else { c with rooms := c.rooms ++ [groupRoom groupId] }) else c) ∧
      s.userId ∈ setMembers (exec (onJoinGroup s groupId) w) (groupMembersKey groupId) ∧
      (exec (onJoinGroup s groupId) w).out = w.out := by
  obtain ⟨w1, hw1⟩ : ∃ w1 : World, w1 = { w with conns :=
      (w.conns.map (fun c => if c.id = s.id then
            (if groupRoom groupId ∈ c.rooms then c
             else { c with rooms := c.rooms ++ [groupRoom groupId] }) else c)) } := ⟨_, rfl⟩
  have hinner : (onJoinGroup s groupId).run w = (addToGroupRoom groupId s.userId).run w1 := by
    have hadd := (addToGroupRoom_member w1 groupId s.userId (by rw [hw1]; exact hsadd)
      (by rw [hw1]; exact hk)).1
    rcases hr : (addToGroupRoom groupId s.userId).run w1 with ⟨r, w2⟩
    rw [hr] at hadd
    simp only at hadd
    subst hadd
    rw [hw1] at hr
    simp [onJoinGroup, Eff.run_tryCatch, Eff.run_bind, Group.findById, call, hdb, hc, hn,
      joinRoom, modifyConn, hr]
  obtain ⟨e, he⟩ := keeps_touch_addToGroupRoom groupId s.userId w1
  have h := addToGroupRoom_member w1 groupId s.userId (by rw [hw1]; exact hsadd)
    (by rw [hw1]; exact hk)
  simp only [exec, hinner] at h ⊢
  refine ⟨h.1, ?_, h.2.1, ?_⟩
  · rw [he, hw1]; rfl
  · rw [he, hw1]; rfl

theorem gm_valid_after_rate (w w1 : World) (s : Socket) (groupId text f g : String)
    (grp : GroupDoc)
    (hrl : (checkRateLimit s.userId "group_message" 30 60).run w = (Except.ok true, w1))
    (hup : AllUp w1)
    (hf : castObjectId s.userId = some f) (hg : castObjectId groupId = some g)
    (htrim : jsTrim text ≠ "")
    (hfind : w1.groups.find? (fun x => decide (x._id = g)) = some grp)
    (hmem : notMember (some grp) s.userId = false) :
    (onGroupMessage s groupId text).run w
      = (Except.ok (),
          { w1 with
            groupMessages := (w1.groupMessages ++
              [GroupMessageDoc.mk (freshGroupMessageId w1.groupMessages) g f (jsTrim text)
                w1.now [f]])
            published := (w1.published ++
              [(groupRoom groupId, BusMessage.json
                (GroupMessageData.mk (freshGroupMessageId w1.groupMessages) groupId
                  ((w1.users.find? (fun u => decide (u._id = f))).map
                    (fun u => UserInfo.mk u._id u.name u.avatar))
                  (jsTrim text) w1.now))]) }) := by
  have htext : text ≠ "" := fun h => htrim (by rw [h]; exact jsTrim_empty)
  have hgid : groupId ≠ "" := fun h => by rw [h, castObjectId_empty] at hg; cases hg
  unfold onGroupMessage
  apply Eff.run_tryCatch_ok
  have hc : ¬ (text = "" ∨ groupId = "") := by simp [htext, hgid]
  rw [if_neg hc, Eff.run_bind_ok _ _ _ _ _ hrl]
  have hd : ∀ c, w1.down c = false := hup
  simp [Eff.run_bind, getNow, Group.findById, GroupMessage.create, GroupMessage.populate, call,
    hd, hf, hg, htrim, hfind, hmem, castAll, Redis.publish]

theorem gm_rejects (w : World) (s : Socket) (groupId text : String)
    (hn : ∀ oid, castObjectId groupId = some oid →
      notMember (w.groups.find? (fun x => decide (x._id = oid))) s.userId = true) :
    ∃ msg, (exec (onGroupMessage s groupId text) w).out
        = w.out ++ [Emission.mk (Target.socket s.id) (Event.error msg)] ∧
      (exec (onGroupMessage s groupId text) w).groupMessages = w.groupMessages ∧
      (exec (onGroupMessage s groupId text) w).published = w.published := by
  unfold onGroupMessage exec
  by_cases hc : text = "" ∨ groupId = ""
  · refine ⟨"Invalid message data", ?_⟩
    simp [Eff.run_tryCatch, hc, emit]
  · rw [if_neg hc]
    obtain ⟨e, he⟩ := keeps_touch_checkRateLimit s.userId "group_message" 30 60 w
    rcases hr : (checkRateLimit s.userId "group_message" 30 60).run w with ⟨r, w1⟩
    rw [hr] at he
    simp only at he
    subst he
    cases r with
    | error err =>
      refine ⟨"Failed to send group message", ?_⟩
      simp [Eff.run_tryCatch, Eff.run_bind, hr, emit, World.put]
    | ok b =>
      cases b with
      | false =>
        refine ⟨"Rate limit exceeded", ?_⟩
        simp [Eff.run_tryCatch, Eff.run_bind, hr, emit, World.put]
      | true =>
        by_cases hd : w.down (Call.db DbOp.groupFindById) = true
        · refine ⟨"Failed to send group message", ?_⟩
          simp [Eff.run_tryCatch, Eff.run_bind, hr, emit, Group.findById, call, hd, World.put]
        · have hd2 : w.down (Call.db DbOp.groupFindById) = false := by simpa using hd
          cases hcast : castObjectId groupId with
          | none =>
            refine ⟨"Failed to send group message", ?_⟩
            simp [Eff.run_tryCatch, Eff.run_bind, hr, emit, Group.findById, call,
              hd2, hcast, Eff.throw, World.put]
          | some oid =>
            have hnm := hn oid hcast
            refine ⟨"Not a member of this group", ?_⟩
            simp [Eff.run_tryCatch, Eff.run_bind, hr, emit, Group.findById, call,
              hd2, hcast, hnm, World.put]

theorem mem_addRooms (l : List String) :
    ∀ (rooms : List String) (r : String), r ∈ addRooms rooms l ↔ r ∈ rooms ∨ r ∈ l := by
  induction l with
  | nil => intro rooms r; simp [addRooms]
  | cons a as ih =>
    intro rooms r
    show r ∈ addRooms (if a ∈ rooms then rooms else rooms ++ [a]) as ↔ _
    rw [ih]
    by_cases ha : a ∈ rooms
    · simp only [ha, if_true, List.mem_cons]
      constructor
      · rintro (h | h)
        · exact Or.inl h
        · exact Or.inr (Or.inr h)
      · rintro (h | h | h)
        · exact Or.inl h
        · subst h; exact Or.inl ha
        · exact Or.inr h
    · simp only [ha, if_false, List.mem_append, List.mem_singleton, List.mem_cons]
      tauto

theorem onPMessage_json (w : World) (channel : String) (data : GroupMessageData) :
    (onPMessage channel (BusMessage.json data)).run w
      = (Except.ok (), { w with out := (w.out ++
          [Emission.mk (Target.room channel) (Event.group_message_received data)]) }) := by
  simp [onPMessage, Eff.run_tryCatch, Eff.run_bind, jsonParse, emit]

theorem onPMessage_malformed (w : World) (channel raw : String) :
    (onPMessage channel (BusMessage.malformed raw)).run w = (Except.ok (), w) := by
  simp [onPMessage, Eff.run_tryCatch, Eff.run_bind, jsonParse, Eff.throw]

theorem mem_receivers_room (conns : List Conn) (r sid : String) :
    sid ∈ receivers conns (Target.room r) ↔ ∃ c ∈ conns, c.id = sid ∧ r ∈ c.rooms := by
  simp only [receivers, List.mem_map, List.mem_filter, decide_eq_true_eq]
  constructor
  · rintro ⟨c, ⟨hc, hr⟩, hid⟩
    exact ⟨c, hc, hid, hr⟩
  · rintro ⟨c, hc, hid, hr⟩
    exact ⟨c, ⟨hc, hr⟩, hid⟩

theorem matchesGroupPattern_groupRoom (g : String) : matchesGroupPattern (groupRoom g) = true := by
  simp [matchesGroupPattern, groupRoom]

theorem keeps_conns_detach_add (g u : String) (w : World) :
    ((detach (addToGroupRoom g u)).run w).1 = Except.ok () ∧
      ∃ e, ((detach (addToGroupRoom g u)).run w).2 = w.put (groupMembersKey g) e := by
  obtain ⟨e, he⟩ := keeps_touch_addToGroupRoom g u w
  exact ⟨rfl, e, he⟩

theorem joinEach_conns (s : Socket) (gs : List GroupDoc) :
    ∀ w : World, ((joinEach s gs).run w).1 = Except.ok () ∧
      (exec (joinEach s gs) w).conns
        = w.conns.map (fun c => if c.id = s.id then
            { c with rooms := addRooms c.rooms (gs.map (fun g => groupRoom g._id)) } else c) := by
  induction gs with
  | nil =>
    intro w
    refine ⟨rfl, ?_⟩
    show w.conns = _
    simp [addRooms]
  | cons g gs ih =>
    intro w
    obtain ⟨w1, hw1⟩ : ∃ w1 : World, w1 = { w with conns :=
        (w.conns.map (fun c => if c.id = s.id then
          (if groupRoom g._id ∈ c.rooms then c
           else { c with rooms := c.rooms ++ [groupRoom g._id] }) else c)) } := ⟨_, rfl⟩
    have h1 : (joinRoom s.id (groupRoom g._id)).run w = (Except.ok (), w1) := by
      rw [hw1]; rfl
    obtain ⟨hd1, e, hd2⟩ := keeps_conns_detach_add g._id s.userId w1
    have h2 : (detach (addToGroupRoom g._id s.userId)).run w1
        = (Except.ok (), w1.put (groupMembersKey g._id) e) := by
      rw [← hd2]
      rcases hr : (detach (addToGroupRoom g._id s.userId)).run w1 with ⟨r, w2⟩
      rw [hr] at hd1
      simp only at hd1
      rw [hd1]
    have hrun : (joinEach s (g :: gs)).run w
        = (joinEach s gs).run (w1.put (groupMembersKey g._id) e) := by
      show ((joinRoom s.id (groupRoom g._id)) >>= fun _ =>
        (detach (addToGroupRoom g._id s.userId)) >>= fun _ => joinEach s gs).run w = _
      rw [Eff.run_bind_ok _ _ _ _ _ h1, Eff.run_bind_ok _ _ _ _ _ h2]
    obtain ⟨i1, i2⟩ := ih (w1.put (groupMembersKey g._id) e)
    refine ⟨by rw [hrun]; exact i1, ?_⟩
    simp only [exec] at i2 ⊢
    rw [hrun, i2]
    show List.map _ w1.conns = _
    rw [hw1]
    simp only [List.map_map]
    apply List.map_congr_left
    intro c _
    simp only [Function.comp]
    by_cases hid : c.id = s.id
    · by_cases hr : groupRoom g._id ∈ c.rooms
      · simp [hid, hr, addRooms]
      · simp [hid, hr, addRooms]
    · simp [hid]

theorem joinMyGroups_conns (w : World) (s : Socket) (f : String)
    (hdb : w.down (Call.db DbOp.groupFind) = false)
    (hf : castObjectId s.userId = some f) :
    (exec (onJoinMyGroups s) w).conns
      = w.conns.map (fun c => if c.id = s.id then
          { c with rooms := (addRooms c.rooms
            ((w.groups.filter (fun g => decide (f ∈ g.members))).map
              (fun g => groupRoom g._id))) } else c) := by
  have hfind : (Group.findByMember s.userId).run w
      = (Except.ok (w.groups.filter (fun g => decide (f ∈ g.members))), w) := by
    simp [Group.findByMember, Eff.run_bind, call, hdb, hf]
  obtain ⟨h1, h2⟩ := joinEach_conns s (w.groups.filter (fun g => decide (f ∈ g.members))) w
  unfold onJoinMyGroups exec
  rw [Eff.run_tryCatch]
  rw [Eff.run_bind_ok _ _ _ _ _ hfind]
  rcases hr : (joinEach s (w.groups.filter (fun g => decide (f ∈ g.members)))).run w with ⟨r, w2⟩
  rw [hr] at h1
  simp only [exec, hr] at h2
  simp only at h1
  subst h1
  exact h2

theorem gm_valid (w : World) (s : Socket) (groupId text f g : String) (grp : GroupDoc)
    (hup : AllUp w)
    (hf : castObjectId s.userId = some f) (hg : castObjectId groupId = some g)
    (htrim : jsTrim text ≠ "")
    (hkey : counterOrAbsent w (rateKey s.userId "group_message"))
    (hrate : counterOf w (rateKey s.userId "group_message") + 1 ≤ 30)
    (hfind : w.groups.find? (fun x => decide (x._id = g)) = some grp)
    (hmem : notMember (some grp) s.userId = false) :
    (exec (onGroupMessage s groupId text) w).groupMessages
        = w.groupMessages ++
          [GroupMessageDoc.mk (freshGroupMessageId w.groupMessages) g f (jsTrim text) w.now [f]] ∧
      (exec (onGroupMessage s groupId text) w).published
        = w.published ++
          [(groupRoom groupId, BusMessage.json
            (GroupMessageData.mk (freshGroupMessageId w.groupMessages) groupId
              ((w.users.find? (fun u => decide (u._id = f))).map
                (fun u => UserInfo.mk u._id u.name u.avatar))
              (jsTrim text) w.now))] ∧
      (exec (onGroupMessage s groupId text) w).out = w.out ∧
      (exec (onGroupMessage s groupId text) w).conns = w.conns := by
  obtain ⟨w1, hrl, _⟩ :=
    checkRateLimit_effect w s.userId "group_message" 30 60 (hup _) (hup _) hkey
  rw [decide_eq_true hrate] at hrl
  obtain ⟨e, he⟩ := keeps_touch_checkRateLimit s.userId "group_message" 30 60 w
  rw [hrl] at he
  simp only at he
  have hup1 : AllUp w1 := by rw [he]; exact hup
  have hfind1 : w1.groups.find? (fun x => decide (x._id = g)) = some grp := by
    rw [he]; exact hfind
  have hrun := gm_valid_after_rate w w1 s groupId text f g grp hrl hup1 hf hg htrim hfind1 hmem
  simp only [exec, hrun]
  rw [he]
  exact ⟨rfl, rfl, rfl, rfl⟩

theorem receivePublished_json (w : World) (g : String) (data : GroupMessageData) :
    receivePublished w (groupRoom g, BusMessage.json data)
      = { w with out := (w.out ++
          [Emission.mk (Target.room (groupRoom g)) (Event.group_message_received data)]) } := by
  simp only [receivePublished, matchesGroupPattern_groupRoom, if_true, exec, onPMessage_json]

theorem deliveredTo_single_room (conns : List Conn) (r sid : String) (ev : Event) :
    deliveredTo conns [Emission.mk (Target.room r) ev] sid
      = if (∃ c ∈ conns, c.id = sid ∧ r ∈ c.rooms) then [ev] else [] := by
  unfold deliveredTo
  by_cases h : ∃ c ∈ conns, c.id = sid ∧ r ∈ c.rooms
  · have := (mem_receivers_room conns r sid).mpr h
    simp [this, h]
  · have : sid ∉ receivers conns (Target.room r) := fun hh =>
      h ((mem_receivers_room conns r sid).mp hh)
    simp [this, h]

theorem notMember_of_absent (group : Option GroupDoc) (u : String)
    (h : ∀ g, group = some g → u ∉ g.members) : notMember group u = true := by
  cases group with
  | none => rfl
  | some g =>
    have hg := h g rfl
    simp only [notMember, Bool.not_eq_true', List.any_eq_false, decide_eq_true_eq]
    intro m hm hmu
    exact hg (hmu ▸ hm)

theorem notMember_of_member (g : GroupDoc) (u : String) (h : u ∈ g.members) :
    notMember (some g) u = false := by
  simp only [notMember, Bool.not_eq_false', List.any_eq_true, decide_eq_true_eq]
  exact ⟨u, h, rfl⟩

theorem newEmissions_append (w w2 : World) (l : List Emission) (h : w2.out = w.out ++ l) :
    newEmissions w w2 = l := by
  unfold newEmissions
  rw [h]
  exact List.drop_left _ _

theorem joinGroup_room (w : World) (s : Socket) (groupId oid : String)
    (hdb : w.down (Call.db DbOp.groupFindById) = false)
    (hsadd : w.down (Call.redis RedisCmd.sadd) = false)
    (hc : castObjectId groupId = some oid)
    (hn : notMember (w.groups.find? (fun g => decide (g._id = oid))) s.userId = false)
    (hk : setOrAbsent w (groupMembersKey groupId)) (c : Conn)
    (hmem : c ∈ (exec (onJoinGroup s groupId) w).conns) (hid : c.id = s.id) :
    groupRoom groupId ∈ c.rooms := by
  rw [(joinGroup_member w s groupId oid hdb hsadd hc hn hk).2.1] at hmem
  obtain ⟨c0, _, hc0⟩ := List.mem_map.mp hmem
  by_cases h0 : c0.id = s.id
  · rw [if_pos h0] at hc0
    by_cases hr : groupRoom groupId ∈ c0.rooms
    · rw [if_pos hr] at hc0
      rw [← hc0]; exact hr
    · rw [if_neg hr] at hc0
      rw [← hc0]
      simp
  · rw [if_neg h0] at hc0
    rw [← hc0] at hid
    exact absurd hid h0

theorem joinMyGroups_room (w : World) (s : Socket) (f : String) (g : GroupDoc)
    (hdb : w.down (Call.db DbOp.groupFind) = false)
    (hf : castObjectId s.userId = some f)
    (hg : g ∈ w.groups) (hm : f ∈ g.members) (c : Conn)
    (hmem : c ∈ (exec (onJoinMyGroups s) w).conns) (hid : c.id = s.id) :
    groupRoom g._id ∈ c.rooms := by
  rw [joinMyGroups_conns w s f hdb hf] at hmem
  obtain ⟨c0, _, hc0⟩ := List.mem_map.mp hmem
  by_cases h0 : c0.id = s.id
  · rw [if_pos h0] at hc0
    rw [← hc0]
    apply (mem_addRooms _ _ _).mpr
    right
    apply List.mem_map.mpr
    exact ⟨g, List.mem_filter.mpr ⟨hg, by simpa using hm⟩, rfl⟩
  · rw [if_neg h0] at hc0
    rw [← hc0] at hid
    exact absurd hid h0

end GroupLemmas

section FailureLemmas

theorem storeOTP_run (w : World) (m otp : String)
    (hsetex : w.down (Call.redis RedisCmd.setex) = false) :
    (storeOTP m otp).run w
      = (Except.ok (), w.put (otpKey m) (otpEntry (OtpData.mk otp 0 (some w.now)) w.now)) := by
  simp [storeOTP, getNow, Redis.setexJson, Eff.run_bind, call, hsetex, otpEntry]

theorem lookup_otp_live (w : World) (k : String) (d : OtpData) (t0 t : Time)
    (h : t ≤ t0 + 300000) :
    lookup ((w.put k (otpEntry d t0)).atTime t) k
      = some (Entry.mk (RVal.json d) (some (t0 + 300 * 1000))) := by
  simp [lookup, Entry.live, World.atTime, World.put, otpEntry, h]

theorem lookup_otp_expired (w : World) (k : String) (d : OtpData) (t0 t : Time)
    (h : t0 + 300000 < t) :
    lookup ((w.put k (otpEntry d t0)).atTime t) k = none := by
  simp [lookup, Entry.live, World.atTime, World.put, otpEntry, not_le.mpr h]

theorem verifyOTP_absent (w : World) (m otp : String)
    (hget : w.down (Call.redis RedisCmd.get) = false)
    (h : lookup w (otpKey m) = none) :
    (verifyOTP m otp).run w
      = (Except.ok (OtpResult.mk false (some "expired")
          "OTP has expired. Please request a new one."), w) := by
  simp [verifyOTP, Redis.getJson, Eff.run_bind, call, hget, h]

theorem verifyOTP_max (w : World) (m otp : String) (d : OtpData) (ex : Option Time)
    (hget : w.down (Call.redis RedisCmd.get) = false)
    (hdel : w.down (Call.redis RedisCmd.del) = false)
    (h : lookup w (otpKey m) = some (Entry.mk (RVal.json d) ex))
    (ha : 3 ≤ d.attempts) :
    (verifyOTP m otp).run w
      = (Except.ok (OtpResult.mk false (some "max_attempts")
          "Maximum attempts exceeded. Please request a new OTP."),
          w.put (otpKey m) none) := by
  simp [verifyOTP, Redis.getJson, Redis.del, Eff.run_bind, call, hget, hdel, h, ha]

theorem verifyOTP_wrong (w : World) (m otp : String) (d : OtpData) (ex : Option Time)
    (hget : w.down (Call.redis RedisCmd.get) = false)
    (hsetex : w.down (Call.redis RedisCmd.setex) = false)
    (h : lookup w (otpKey m) = some (Entry.mk (RVal.json d) ex))
    (ha : d.attempts < 3) (hne : d.otp ≠ otp) :
    (verifyOTP m otp).run w
      = (Except.ok (OtpResult.mk false (some "invalid")
          ("Invalid OTP. " ++ toString (2 - d.attempts) ++ " attempts remaining.")),
          w.put (otpKey m) (otpEntry (OtpData.mk d.otp (d.attempts + 1) none) w.now)) := by
  have ha2 : ¬ (3 ≤ d.attempts) := not_le.mpr ha
  simp [verifyOTP, Redis.getJson, Redis.setexJson, Eff.run_bind, call, hget, hsetex, h, ha2, hne,
    otpEntry]

theorem verifyOTP_right (w : World) (m : String) (d : OtpData) (ex : Option Time)
    (hget : w.down (Call.redis RedisCmd.get) = false)
    (hdel : w.down (Call.redis RedisCmd.del) = false)
    (h : lookup w (otpKey m) = some (Entry.mk (RVal.json d) ex))
    (ha : d.attempts < 3) :
    (verifyOTP m d.otp).run w
      = (Except.ok (OtpResult.mk true none "OTP verified successfully"),
          w.put (otpKey m) none) := by
  have ha2 : ¬ (3 ≤ d.attempts) := not_le.mpr ha
  simp [verifyOTP, Redis.getJson, Redis.del, Eff.run_bind, call, hget, hdel, h, ha2]

theorem atTime_put (w : World) (k : String) (e : Option Entry) (t : Time) :
    (w.put k e).atTime t = (w.atTime t).put k e := rfl

theorem atTime_atTime (w : World) (t t2 : Time) : (w.atTime t).atTime t2 = w.atTime t2 := rfl

theorem lookup_put_none (w : World) (k : String) : lookup (w.put k none) k = none := by
  simp [lookup, World.put]

theorem find_updateFirstOf {α : Type} (p : α → Bool) (f : α → α)
    (hp : ∀ d, p d = true → p (f d) = true) (l : List α) :
    (updateFirstOf p f l).find? p = (l.find? p).map f := by
  induction l with
  | nil => rfl
  | cons d ds ih =>
    by_cases hd : p d = true
    · simp [updateFirstOf, hd, hp d hd]
    · simp [updateFirstOf, hd, ih]

theorem updateFirstOf_id {α : Type} (p : α → Bool) (f : α → α) (l : List α)
    (h : ∀ d, l.find? p = some d → f d = d) : updateFirstOf p f l = l := by
  induction l with
  | nil => rfl
  | cons d ds ih =>
    by_cases hd : p d = true
    · have := h d (by simp [hd])
      simp [updateFirstOf, hd, this]
    · have hds : ∀ x, ds.find? p = some x → f x = x := by
        intro x hx
        exact h x (by simpa [hd] using hx)
      simp [updateFirstOf, hd, ih hds]

theorem find_updateFirstOf_other {α : Type} (p q : α → Bool) (f : α → α)
    (hq : ∀ d, q (f d) = q d) (hpq : ∀ d, p d = true → q d = false) (l : List α) :
    (updateFirstOf p f l).find? q = l.find? q := by
  induction l with
  | nil => rfl
  | cons d ds ih =>
    by_cases hd : p d = true
    · have h1 := hpq d hd
      have h2 : q (f d) = false := by rw [hq]; exact h1
      simp [updateFirstOf, hd, h1, h2]
    · by_cases hqd : q d = true
      · simp [updateFirstOf, hd, hqd]
      · simp [updateFirstOf, hd, hqd, ih]

theorem groupRead_run (w : World) (s : Socket) (id : Nat) (f : String)
    (hdb : w.down (Call.db DbOp.groupMessageUpdateOne) = false)
    (hf : castObjectId s.userId = some f) :
    (onGroupMessageRead s (RawId.castable id)).run w
      = (Except.ok (), { w with groupMessages := (updateFirstOf (fun d => decide (d._id = id))
          (fun d => if f ∈ d.readBy then d else { d with readBy := d.readBy ++ [f] })
          w.groupMessages) }) := by
  simp [onGroupMessageRead, groupMessageReadTry, GroupMessage.updateOneAddToSet,
    Eff.run_tryCatch, Eff.run_bind, call, hdb, hf]

theorem rateKey_ne_otpKey (u a m : String) : otpKey m ≠ rateKey u a := by
  intro h
  have := congrArg (fun s => s.data.head?) h
  simp [otpKey, rateKey] at this

theorem checkRateLimit_incr_down (w : World) (u a : String) (l n : Int)
    (h : w.down (Call.redis RedisCmd.incr) = true) :
    (checkRateLimit u a l n).run w = (Except.error "collaborator unavailable", w) := by
  simp [checkRateLimit, Redis.incr, Eff.run_bind, call, h]

theorem pm_rate_throws (w w1 : World) (s : Socket) (to_ text e : String)
    (ht : text ≠ "") (hto : to_ ≠ "")
    (h : (checkRateLimit s.userId "send_message" 20 60).run w = (Except.error e, w1)) :
    (onPrivateMessage s to_ text).run w
      = (Except.ok (), { w1 with out := (w1.out ++
          [Emission.mk (Target.socket s.id) (Event.error "Failed to send message")]) }) := by
  unfold onPrivateMessage
  have hc : ¬ (text = "" ∨ to_ = "") := by simp [ht, hto]
  rw [if_neg hc]
  rw [Eff.run_tryCatch_error _ _ w w1 e (Eff.run_bind_error _ _ _ _ _ h)]
  rfl

theorem gm_rate_throws (w w1 : World) (s : Socket) (groupId text e : String)
    (ht : text ≠ "") (hg : groupId ≠ "")
    (h : (checkRateLimit s.userId "group_message" 30 60).run w = (Except.error e, w1)) :
    (onGroupMessage s groupId text).run w
      = (Except.ok (), { w1 with out := (w1.out ++
          [Emission.mk (Target.socket s.id) (Event.error "Failed to send group message")]) }) := by
  unfold onGroupMessage
  have hc : ¬ (text = "" ∨ groupId = "") := by simp [ht, hg]
  rw [if_neg hc]
  rw [Eff.run_tryCatch_error _ _ w w1 e (Eff.run_bind_error _ _ _ _ _ h)]
  rfl

theorem sendOTP_rate_throws (w w1 : World) (otp m e : String) (mobile : Option String)
    (hm : truthy mobile = some m) (hv : isE164 m = true)
    (h : (checkRateLimit m "send_otp" 3 3600).run w = (Except.error e, w1)) :
    (AuthController.sendOTP false otp mobile).run w = (Except.error e, w1) := by
  unfold AuthController.sendOTP
  rw [hm]
  simp only [hv, Bool.true_eq_false, if_false, Bool.false_eq_true]
  exact Eff.run_bind_error _ _ _ _ _ h

theorem noErrOut_refl (w : World) : NoErrOut w w := ⟨[], by simp, by simp⟩

theorem noErrOut_trans (a b c : World) (h1 : NoErrOut a b) (h2 : NoErrOut b c) :
    NoErrOut a c := by
  obtain ⟨l1, e1, n1⟩ := h1
  obtain ⟨l2, e2, n2⟩ := h2
  refine ⟨l1 ++ l2, by rw [e2, e1, List.append_assoc], ?_⟩
  intro em hem
  rcases List.mem_append.mp hem with h | h
  · exact n1 em h
  · exact n2 em h

theorem noErrOut_of_out_eq (w w2 : World) (h : w2.out = w.out) : NoErrOut w w2 :=
  ⟨[], by simp [h], by simp⟩

theorem noErrOut_of_touch (k : String) (w w2 : World) (h : TouchesOnly k w w2) :
    NoErrOut w w2 := by
  obtain ⟨e, he⟩ := h
  exact noErrOut_of_out_eq _ _ (by rw [he]; rfl)

section ThrowsLemmas

variable {α β : Type} {R : World → World → Prop}

theorem keeps_noErr_of_touch (k : String) (x : Eff α) (h : Keeps (TouchesOnly k) x) :
    Keeps NoErrOut x := fun w => noErrOut_of_touch k _ _ (h w)

theorem keeps_noErr_same (x : Eff α) (h : ∀ w, (x.run w).2.out = w.out) : Keeps NoErrOut x :=
  fun w => noErrOut_of_out_eq _ _ (h w)

theorem throwsKeep_of_keeps (x : Eff α) (h : Keeps R x) : ThrowsKeep R x := by
  intro w e w1 hx
  have := h w
  rw [hx] at this
  exact this

theorem throwsKeep_of_ok (x : Eff α) (h : ∀ w, ∃ a w1, x.run w = (Except.ok a, w1)) :
    ThrowsKeep R x := by
  intro w e w1 hx
  obtain ⟨a, w2, h2⟩ := h w
  rw [h2] at hx
  cases hx

theorem throwsKeep_bind (htrans : ∀ a b c, R a b → R b c → R a c) (x : Eff α) (f : α → Eff β)
    (hx : Keeps R x) (hf : ∀ a, ThrowsKeep R (f a)) : ThrowsKeep R (x >>= f) := by
  intro w e w1 h
  rw [Eff.run_bind] at h
  have h1 := hx w
  rcases hxw : x.run w with ⟨r, w2⟩
  rw [hxw] at h1 h
  cases r with
  | ok a => exact htrans _ _ _ h1 (hf a w2 e w1 h)
  | error e2 =>
    simp only at h
    cases h
    exact h1

theorem tryCatch_returns (x : Eff Unit) (c : String → Eff Unit)
    (hc : ∀ e w, ((c e).run w).1 = Except.ok ()) (w : World) :
    ((Eff.tryCatch x c).run w).1 = Except.ok () := by
  rw [Eff.run_tryCatch]
  rcases hx : x.run w with ⟨r, w1⟩
  cases r with
  | ok a => rfl
  | error e => exact hc e w1

end ThrowsLemmas

theorem emit_ok (t : Target) (ev : Event) (w : World) :
    ∃ a w1, (emit t ev).run w = (Except.ok a, w1) := ⟨(), _, rfl⟩

theorem keeps_noErr_call (c : Call) : Keeps NoErrOut (call c) := by
  apply keeps_noErr_same
  intro w
  simp only [call, Eff.run_mk]
  split <;> rfl

theorem keeps_noErr_getNow : Keeps NoErrOut getNow := keeps_noErr_same _ (fun _ => rfl)

theorem keeps_noErr_create (f t x : String) (ts : Time) (d : Bool) :
    Keeps NoErrOut (Message.create f t x ts d) := by
  unfold Message.create
  refine keeps_bind noErrOut_trans _ _ (keeps_noErr_call _) (fun _ => keeps_mk _ ?_)
  intro w
  apply noErrOut_of_out_eq
  split
  · split <;> rfl
  · rfl

theorem keeps_noErr_populate (m : MessageDoc) : Keeps NoErrOut (Message.populate m) := by
  unfold Message.populate
  exact keeps_bind noErrOut_trans _ _ (keeps_noErr_call _)
    (fun _ => keeps_mk _ (fun w => noErrOut_refl w))

theorem keeps_noErr_save (m : MessageDoc) : Keeps NoErrOut (Message.save m) := by
  unfold Message.save
  exact keeps_bind noErrOut_trans _ _ (keeps_noErr_call _)
    (fun _ => keeps_mk _ (fun w => noErrOut_of_out_eq _ _ rfl))

theorem keeps_touch_get (k : String) : Keeps (TouchesOnly k) (Redis.get k) := by
  unfold Redis.get
  refine keeps_bind (touchesOnly_trans k) _ _ (keeps_touch_call k _) (fun _ => keeps_mk _ ?_)
  intro w
  split <;> exact touchesOnly_refl k w

theorem keeps_touch_hincrby (k fld : String) (n : Int) :
    Keeps (TouchesOnly k) (Redis.hincrby k fld n) := by
  unfold Redis.hincrby
  refine keeps_bind (touchesOnly_trans k) _ _ (keeps_touch_call k _) (fun _ => keeps_mk _ ?_)
  intro w
  split
  · exact ⟨_, rfl⟩
  · exact ⟨_, rfl⟩
  · exact touchesOnly_refl k w

theorem keeps_noErr_getSocket (u : String) : Keeps NoErrOut (getSocket u) :=
  keeps_noErr_of_touch _ _ (keeps_touch_get _)

theorem keeps_noErr_incrementUnread (u f : String) : Keeps NoErrOut (incrementUnread u f) := by
  unfold incrementUnread
  exact keeps_bind noErrOut_trans _ _ (keeps_noErr_of_touch _ _ (keeps_touch_hincrby _ _ _))
    (fun _ => keeps_pure noErrOut_refl _)

theorem keeps_noErr_checkRateLimit (u a : String) (l n : Int) :
    Keeps NoErrOut (checkRateLimit u a l n) :=
  keeps_noErr_of_touch _ _ (keeps_touch_checkRateLimit u a l n)

theorem keeps_noErr_emit (t : Target) (ev : Event) (h : ∀ msg, ev ≠ Event.error msg) :
    Keeps NoErrOut (emit t ev) := by
  intro w
  refine ⟨[Emission.mk t ev], rfl, ?_⟩
  intro em hem msg
  rw [List.mem_singleton.mp hem]
  exact h msg

theorem keeps_noErr_groupFindById (g : String) : Keeps NoErrOut (Group.findById g) := by
  unfold Group.findById
  refine keeps_bind noErrOut_trans _ _ (keeps_noErr_call _) (fun _ => ?_)
  split
  · exact keeps_throw noErrOut_refl _
  · exact keeps_mk _ (fun w => noErrOut_refl w)

theorem keeps_noErr_gmCreate (g f x : String) (ts : Time) (rb : List String) :
    Keeps NoErrOut (GroupMessage.create g f x ts rb) := by
  unfold GroupMessage.create
  refine keeps_bind noErrOut_trans _ _ (keeps_noErr_call _) (fun _ => keeps_mk _ ?_)
  intro w
  apply noErrOut_of_out_eq
  split
  · split <;> rfl
  · rfl

theorem keeps_noErr_gmPopulate (m : GroupMessageDoc) :
    Keeps NoErrOut (GroupMessage.populate m) := by
  unfold GroupMessage.populate
  exact keeps_bind noErrOut_trans _ _ (keeps_noErr_call _)
    (fun _ => keeps_mk _ (fun w => noErrOut_refl w))

theorem keeps_noErr_publish (c : String) (m : BusMessage) :
    Keeps NoErrOut (Redis.publish c m) := by
  unfold Redis.publish
  exact keeps_bind noErrOut_trans _ _ (keeps_noErr_call _)
    (fun _ => keeps_mk _ (fun w => noErrOut_of_out_eq _ _ rfl))

theorem privateMessageTry_throws (s : Socket) (to_ text : String) :
    ThrowsKeep NoErrOut (privateMessageTry s to_ text) := by
  unfold privateMessageTry
  split
  · exact throwsKeep_of_ok _ (emit_ok _ _)
  · refine throwsKeep_bind noErrOut_trans _ _ (keeps_noErr_checkRateLimit _ _ _ _) (fun c => ?_)
    split
    · exact throwsKeep_of_ok _ (emit_ok _ _)
    · refine throwsKeep_bind noErrOut_trans _ _ keeps_noErr_getNow (fun ts => ?_)
      refine throwsKeep_bind noErrOut_trans _ _ (keeps_noErr_create _ _ _ _ _) (fun m => ?_)
      refine throwsKeep_bind noErrOut_trans _ _ (keeps_noErr_populate _) (fun sender => ?_)
      refine throwsKeep_bind noErrOut_trans _ _ (keeps_noErr_getSocket _) (fun r => ?_)
      split
      · refine throwsKeep_bind noErrOut_trans _ _
          (keeps_noErr_emit _ _ (fun msg h => by cases h)) (fun _ => ?_)
        refine throwsKeep_bind noErrOut_trans _ _ (keeps_noErr_save _) (fun _ => ?_)
        exact throwsKeep_of_ok _ (emit_ok _ _)
      · refine throwsKeep_bind noErrOut_trans _ _ (keeps_noErr_incrementUnread _ _) (fun _ => ?_)
        exact throwsKeep_of_ok _ (emit_ok _ _)

theorem groupMessageTry_throws (s : Socket) (groupId text : String) :
    ThrowsKeep NoErrOut (groupMessageTry s groupId text) := by
  unfold groupMessageTry
  split
  · exact throwsKeep_of_ok _ (emit_ok _ _)
  · refine throwsKeep_bind noErrOut_trans _ _ (keeps_noErr_checkRateLimit _ _ _ _) (fun c => ?_)
    split
    · exact throwsKeep_of_ok _ (emit_ok _ _)
    · refine throwsKeep_bind noErrOut_trans _ _ (keeps_noErr_groupFindById _) (fun g => ?_)
      split
      · exact throwsKeep_of_ok _ (emit_ok _ _)
      · refine throwsKeep_bind noErrOut_trans _ _ keeps_noErr_getNow (fun ts => ?_)
        refine throwsKeep_bind noErrOut_trans _ _ (keeps_noErr_gmCreate _ _ _ _ _) (fun m => ?_)
        refine throwsKeep_bind noErrOut_trans _ _ (keeps_noErr_gmPopulate _) (fun sender => ?_)
        exact throwsKeep_of_keeps _ (keeps_noErr_publish _ _)

theorem sameOut_refl (w : World) : SameOut w w := rfl

theorem sameOut_trans (a b c : World) (h1 : SameOut a b) (h2 : SameOut b c) : SameOut a c :=
  Eq.trans h2 h1

theorem keeps_sameOut_of_touch {α : Type} (k : String) (x : Eff α)
    (h : Keeps (TouchesOnly k) x) : Keeps SameOut x := by
  intro w
  obtain ⟨e, he⟩ := h w
  show (x.run w).2.out = w.out
  rw [he]; rfl

theorem keeps_sameOut_call (c : Call) : Keeps SameOut (call c) := by
  intro w
  show ((call c).run w).2.out = w.out
  simp only [call, Eff.run_mk]
  split <;> rfl

theorem keeps_sameOut_findByIdAndUpdate (raw : RawId) (t : Time) :
    Keeps SameOut (Message.findByIdAndUpdate raw t) := by
  unfold Message.findByIdAndUpdate
  refine keeps_bind sameOut_trans _ _ (keeps_sameOut_call _) (fun _ => ?_)
  split
  · exact keeps_throw sameOut_refl _
  · refine keeps_mk _ ?_
    intro w
    show _ = w.out
    split <;> rfl

theorem keeps_sameOut_getSocket (u : String) : Keeps SameOut (getSocket u) :=
  keeps_sameOut_of_touch _ _ (keeps_touch_get _)

theorem keeps_sameOut_findByMember (u : String) : Keeps SameOut (Group.findByMember u) := by
  unfold Group.findByMember
  refine keeps_bind sameOut_trans _ _ (keeps_sameOut_call _) (fun _ => ?_)
  split
  · exact keeps_throw sameOut_refl _
  · exact keeps_mk _ (fun w => sameOut_refl w)

theorem keeps_sameOut_findById (g : String) : Keeps SameOut (Group.findById g) := by
  unfold Group.findById
  refine keeps_bind sameOut_trans _ _ (keeps_sameOut_call _) (fun _ => ?_)
  split
  · exact keeps_throw sameOut_refl _
  · exact keeps_mk _ (fun w => sameOut_refl w)

theorem keeps_sameOut_modifyConn (sid : String) (f : Conn → Conn) :
    Keeps SameOut (modifyConn sid f) := keeps_mk _ (fun _ => rfl)

theorem keeps_sameOut_addToGroupRoom (g u : String) : Keeps SameOut (addToGroupRoom g u) :=
  keeps_sameOut_of_touch _ _ (keeps_touch_addToGroupRoom g u)

theorem keeps_sameOut_detach (x : Eff Unit) (h : Keeps SameOut x) : Keeps SameOut (detach x) :=
  fun w => h w

theorem keeps_sameOut_joinEach (s : Socket) (gs : List GroupDoc) :
    Keeps SameOut (joinEach s gs) := by
  induction gs with
  | nil => exact keeps_pure sameOut_refl _
  | cons g gs ih =>
    show Keeps SameOut ((joinRoom s.id (groupRoom g._id)) >>= fun _ =>
      (detach (addToGroupRoom g._id s.userId)) >>= fun _ => joinEach s gs)
    refine keeps_bind sameOut_trans _ _ (keeps_sameOut_modifyConn _ _) (fun _ => ?_)
    exact keeps_bind sameOut_trans _ _
      (keeps_sameOut_detach _ (keeps_sameOut_addToGroupRoom _ _)) (fun _ => ih)

theorem keeps_touch_srem (k m : String) : Keeps (TouchesOnly k) (Redis.srem k m) := by
  unfold Redis.srem
  refine keeps_bind (touchesOnly_trans k) _ _ (keeps_touch_call k _) (fun _ => keeps_mk _ ?_)
  intro w
  split
  · exact touchesOnly_refl k w
  · split
    · split
      · exact ⟨_, rfl⟩
      · exact ⟨_, rfl⟩
    · exact touchesOnly_refl k w
  · exact touchesOnly_refl k w

theorem keeps_sameOut_removeFromGroupRoom (g u : String) :
    Keeps SameOut (removeFromGroupRoom g u) := by
  unfold removeFromGroupRoom
  exact keeps_bind sameOut_trans _ _ (keeps_sameOut_of_touch _ _ (keeps_touch_srem _ _))
    (fun _ => keeps_pure sameOut_refl _)

theorem keeps_sameOut_updateOnePull (g u : String) : Keeps SameOut (Group.updateOnePull g u) := by
  unfold Group.updateOnePull
  refine keeps_bind sameOut_trans _ _ (keeps_sameOut_call _) (fun _ => ?_)
  split
  · exact keeps_mk _ (fun _ => rfl)
  · exact keeps_throw sameOut_refl _

theorem keeps_sameOut_updateOneAddToSet (raw : RawId) (u : String) :
    Keeps SameOut (GroupMessage.updateOneAddToSet raw u) := by
  unfold GroupMessage.updateOneAddToSet
  refine keeps_bind sameOut_trans _ _ (keeps_sameOut_call _) (fun _ => ?_)
  split
  · exact keeps_mk _ (fun _ => rfl)
  · exact keeps_throw sameOut_refl _

theorem pure_ok (w : World) : ∃ a w1, (pure () : Eff Unit).run w = (Except.ok a, w1) :=
  ⟨(), w, rfl⟩

theorem messageReadTry_throws (s : Socket) (raw : RawId) :
    ThrowsKeep SameOut (messageReadTry s raw) := by
  unfold messageReadTry
  refine throwsKeep_bind sameOut_trans _ _ (keeps_mk _ (fun _ => rfl)) (fun t => ?_)
  refine throwsKeep_bind sameOut_trans _ _ (keeps_sameOut_findByIdAndUpdate _ _) (fun m => ?_)
  split
  · refine throwsKeep_bind sameOut_trans _ _ (keeps_sameOut_getSocket _) (fun r => ?_)
    split
    · exact throwsKeep_of_ok _ (emit_ok _ _)
    · exact throwsKeep_of_ok _ pure_ok
  · exact throwsKeep_of_ok _ pure_ok

theorem typingTry_throws (s : Socket) (to_ : String) (b : Bool) :
    ThrowsKeep SameOut (typingTry s to_ b) := by
  unfold typingTry
  refine throwsKeep_bind sameOut_trans _ _ (keeps_sameOut_getSocket _) (fun r => ?_)
  split
  · exact throwsKeep_of_ok _ (emit_ok _ _)
  · exact throwsKeep_of_ok _ pure_ok

theorem joinMyGroupsTry_throws (s : Socket) : ThrowsKeep SameOut (joinMyGroupsTry s) := by
  unfold joinMyGroupsTry
  refine throwsKeep_bind sameOut_trans _ _ (keeps_sameOut_findByMember _) (fun gs => ?_)
  exact throwsKeep_of_keeps _ (keeps_sameOut_joinEach _ _)

theorem joinGroupTry_throws (s : Socket) (g : String) :
    ThrowsKeep SameOut (joinGroupTry s g) := by
  unfold joinGroupTry
  refine throwsKeep_bind sameOut_trans _ _ (keeps_sameOut_findById _) (fun grp => ?_)
  split
  · exact throwsKeep_of_ok _ (emit_ok _ _)
  · refine throwsKeep_bind sameOut_trans _ _ (keeps_sameOut_modifyConn _ _) (fun _ => ?_)
    exact throwsKeep_of_keeps _ (keeps_sameOut_addToGroupRoom _ _)

theorem leaveGroupTry_throws (s : Socket) (g : String) :
    ThrowsKeep SameOut (leaveGroupTry s g) := by
  unfold leaveGroupTry
  refine throwsKeep_bind sameOut_trans _ _ (keeps_sameOut_updateOnePull _ _) (fun _ => ?_)
  refine throwsKeep_bind sameOut_trans _ _ (keeps_sameOut_modifyConn _ _) (fun _ => ?_)
  refine throwsKeep_bind sameOut_trans _ _ (keeps_sameOut_removeFromGroupRoom _ _) (fun _ => ?_)
  exact throwsKeep_of_ok _ (emit_ok _ _)

theorem groupMessageReadTry_throws (s : Socket) (raw : RawId) :
    ThrowsKeep SameOut (groupMessageReadTry s raw) :=
  throwsKeep_of_keeps _ (keeps_sameOut_updateOneAddToSet _ _)

theorem onPrivateMessage_eq (s : Socket) (to_ text : String) :
    onPrivateMessage s to_ text = Eff.tryCatch (privateMessageTry s to_ text)
      (fun _ => emit (Target.socket s.id) (Event.error "Failed to send message")) := rfl

theorem onMessageRead_eq (s : Socket) (raw : RawId) :
    onMessageRead s raw = Eff.tryCatch (messageReadTry s raw) (fun _ => pure ()) := rfl

theorem onTyping_eq (s : Socket) (to_ : String) (b : Bool) :
    onTyping s to_ b = Eff.tryCatch (typingTry s to_ b) (fun _ => pure ()) := rfl

theorem onJoinMyGroups_eq (s : Socket) :
    onJoinMyGroups s = Eff.tryCatch (joinMyGroupsTry s) (fun _ => pure ()) := rfl

theorem onJoinGroup_eq (s : Socket) (g : String) :
    onJoinGroup s g = Eff.tryCatch (joinGroupTry s g) (fun _ => pure ()) := rfl

theorem onGroupMessage_eq (s : Socket) (g text : String) :
    onGroupMessage s g text = Eff.tryCatch (groupMessageTry s g text)
      (fun _ => emit (Target.socket s.id) (Event.error "Failed to send group message")) := rfl

theorem silent_catch (x : Eff Unit) (w w1 : World) (e : String)
    (hx : ThrowsKeep SameOut x) (h : x.run w = (Except.error e, w1)) :
    (Eff.tryCatch x (fun _ => pure ())).run w = (Except.ok (), w1) ∧ w1.out = w.out :=
  ⟨Eff.run_tryCatch_error _ _ _ _ _ h, hx w e w1 h⟩

theorem notifying_catch (x : Eff Unit) (t : Target) (ev : Event) (w w1 : World) (e : String)
    (hx : ThrowsKeep NoErrOut x) (h : x.run w = (Except.error e, w1)) :
    (Eff.tryCatch x (fun _ => emit t ev)).run w
        = (Except.ok (), { w1 with out := (w1.out ++ [Emission.mk t ev]) }) ∧
      NoErrOut w w1 :=
  ⟨Eff.run_tryCatch_error _ _ _ _ _ h, hx w e w1 h⟩

theorem silent_returns (x : Eff Unit) (w : World) :
    ((Eff.tryCatch x (fun _ => pure ())).run w).1 = Except.ok () :=
  tryCatch_returns x (fun _ => pure ()) (fun _ _ => rfl) w

theorem notifying_returns (x : Eff Unit) (t : Target) (ev : Event) (w : World) :
    ((Eff.tryCatch x (fun _ => emit t ev)).run w).1 = Except.ok () :=
  tryCatch_returns x (fun _ => emit t ev) (fun _ _ => rfl) w

theorem deliveredSound_of_none (w w2 : World) (l : List Emission) (hout : w2.out = w.out ++ l)
    (hl : ∀ em ∈ l, ∀ id, em.event ≠ Event.message_delivered id) : DeliveredSound w w2 :=
  ⟨l, hout, fun em hem id h => absurd h (hl em hem id)⟩

theorem create_outcome (w : World) (f t x : String) (ts : Time) (d : Bool) :
    (∃ doc, (Message.create f t x ts d).run w
        = (Except.ok doc, { w with messages := (w.messages ++ [doc]) }) ∧
        doc._id = freshId w.messages ∧ doc.delivered = d) ∨
      (∃ e, (Message.create f t x ts d).run w = (Except.error e, w)) := by
  by_cases hd : w.down (Call.db DbOp.messageCreate) = true
  · right
    exact ⟨"collaborator unavailable", by simp [Message.create, Eff.run_bind, call, hd]⟩
  · have hd2 : w.down (Call.db DbOp.messageCreate) = false := by simpa using hd
    cases hf : castObjectId f with
    | none =>
      right
      exact ⟨"ValidationError: Cast to ObjectId failed",
        by simp [Message.create, Eff.run_bind, call, hd2, hf]⟩
    | some a =>
      cases ht : castObjectId t with
      | none =>
        right
        exact ⟨"ValidationError: Cast to ObjectId failed",
          by simp [Message.create, Eff.run_bind, call, hd2, hf, ht]⟩
      | some b =>
        by_cases hx : jsTrim x = ""
        · right
          exact ⟨"ValidationError: text is required",
            by simp [Message.create, Eff.run_bind, call, hd2, hf, ht, hx]⟩
        · left
          exact ⟨_, create_run w f t x a b ts d hd2 hf ht hx, rfl, rfl⟩

theorem populate_outcome (w : World) (m : MessageDoc) :
    (∃ i, (Message.populate m).run w = (Except.ok i, w)) ∨
      (∃ e, (Message.populate m).run w = (Except.error e, w)) := by
  by_cases hd : w.down (Call.db DbOp.messagePopulate) = true
  · right
    exact ⟨"collaborator unavailable", by simp [Message.populate, Eff.run_bind, call, hd]⟩
  · left
    exact ⟨_, populate_run w m (by simpa using hd)⟩

theorem getSocket_outcome (w : World) (u : String) :
    (∃ r, (getSocket u).run w = (Except.ok r, w)) ∨
      (∃ e, (getSocket u).run w = (Except.error e, w)) := by
  obtain ⟨x, hx⟩ := keeps_touch_get (socketKey u) w
  have hsame : ((getSocket u).run w).2 = w := by
    unfold getSocket Redis.get
    by_cases hd : w.down (Call.redis RedisCmd.get) = true
    · simp [Eff.run_bind, call, hd]
    · have hd2 : w.down (Call.redis RedisCmd.get) = false := by simpa using hd
      simp only [Eff.run_bind, call, hd2, Eff.run_mk]
      simp only [Bool.false_eq_true, if_false]
      split <;> rfl
  rcases hr : (getSocket u).run w with ⟨r, w1⟩
  rw [hr] at hsame
  simp only at hsame
  subst hsame
  cases r with
  | ok a => exact Or.inl ⟨a, rfl⟩
  | error e => exact Or.inr ⟨e, rfl⟩

theorem save_outcome (w : World) (m : MessageDoc) :
    (Message.save m).run w
        = (Except.ok (), { w with messages := (updateFirst (fun d => decide (d._id = m._id))
            (fun d => { d with delivered := m.delivered }) w.messages) }) ∨
      (∃ e, (Message.save m).run w = (Except.error e, w)) := by
  by_cases hd : w.down (Call.db DbOp.messageSave) = true
  · right
    exact ⟨"collaborator unavailable", by simp [Message.save, Eff.run_bind, call, hd]⟩
  · left
    exact save_run w m (by simpa using hd)

theorem online_tail_sound (w0 w2 : World) (s : Socket) (sid : String) (doc : MessageDoc)
    (data : MessageData) (ms : List MessageDoc)
    (hout : w2.out = w0.out) (hms : w2.messages = ms ++ [doc])
    (hfresh : ∀ x ∈ ms, x._id ≠ doc._id) :
    DeliveredSound w0
      (((emit (Target.room sid) (Event.receive_message data)) >>= fun _ =>
        (Message.save { doc with delivered := true }) >>= fun _ =>
          emit (Target.socket s.id) (Event.message_delivered doc._id)).run w2).2 := by
  obtain ⟨w3, hw3⟩ : ∃ w3 : World, w3 = { w2 with out := (w2.out ++
      [Emission.mk (Target.room sid) (Event.receive_message data)]) } := ⟨_, rfl⟩
  have h1 : (emit (Target.room sid) (Event.receive_message data)).run w2
      = (Except.ok (), w3) := by rw [hw3]; rfl
  rw [Eff.run_bind_ok _ _ _ _ _ h1]
  have hout3 : w3.out = w0.out ++ [Emission.mk (Target.room sid) (Event.receive_message data)] := by
    rw [hw3, ← hout]
  rcases save_outcome w3 { doc with delivered := true } with hs | ⟨e, hs⟩
  · rw [Eff.run_bind_ok _ _ _ _ _ hs]
    refine ⟨[Emission.mk (Target.room sid) (Event.receive_message data),
      Emission.mk (Target.socket s.id) (Event.message_delivered doc._id)], ?_, ?_⟩
    · show _ ++ _ = _
      rw [hout3]
      simp
    · intro em hem id hid
      have hm3 : w3.messages = ms ++ [doc] := by rw [hw3]; exact hms
      rcases List.mem_cons.mp hem with h | h
      · rw [h] at hid; cases hid
      · rw [List.mem_singleton.mp h] at hid
        simp only [Event.message_delivered.injEq] at hid
        subst hid
        refine ⟨{ doc with delivered := true }, ?_, rfl⟩
        have hup := updateFirst_append_fresh ms doc (fun d => { d with delivered := true }) hfresh
        exact findMessage_append_fresh _ ms { doc with delivered := true }
          (by show updateFirst _ _ w3.messages = _; rw [hm3]; exact hup) hfresh
  · rw [Eff.run_bind_error _ _ _ _ _ hs]
    exact deliveredSound_of_none _ _ _ hout3 (by
      intro em hem id h
      rw [List.mem_singleton.mp hem] at h
      cases h)

theorem privateMessageTry_sound (w : World) (s : Socket) (to_ text : String) :
    DeliveredSound w ((privateMessageTry s to_ text).run w).2 := by
  unfold privateMessageTry
  by_cases hc : text = "" ∨ to_ = ""
  · rw [if_pos hc]
    exact deliveredSound_of_none _ _ [_] rfl (by
      intro em hem id h
      rw [List.mem_singleton.mp hem] at h
      cases h)
  · rw [if_neg hc]
    obtain ⟨e0, he0⟩ := keeps_touch_checkRateLimit s.userId "send_message" 20 60 w
    rcases hr : (checkRateLimit s.userId "send_message" 20 60).run w with ⟨r, w1⟩
    rw [hr] at he0
    simp only at he0
    have hout1 : w1.out = w.out := by rw [he0]; rfl
    cases r with
    | error e =>
      rw [Eff.run_bind_error _ _ _ _ _ hr]
      exact deliveredSound_of_none _ _ [] (by simp [hout1]) (by simp)
    | ok b =>
      rw [Eff.run_bind_ok _ _ _ _ _ hr]
      cases b with
      | false =>
        simp only [if_true]
        exact deliveredSound_of_none _ _ [_] (by
          show w1.out ++ _ = _
          rw [hout1]) (by
          intro em hem id h
          rw [List.mem_singleton.mp hem] at h
          cases h)
      | true =>
        simp only [Bool.true_eq_false, if_false]
        rw [Eff.run_bind_ok getNow _ w1 w1 w1.now rfl]
        rcases create_outcome w1 s.userId to_ text w1.now false with
          ⟨doc, hcr, hid, _⟩ | ⟨e, hcr⟩
        · rw [Eff.run_bind_ok _ _ _ _ _ hcr]
          obtain ⟨w2, hw2⟩ : ∃ w2 : World,
              w2 = { w1 with messages := (w1.messages ++ [doc]) } := ⟨_, rfl⟩
          rw [← hw2]
          have hout2 : w2.out = w.out := by rw [hw2]; exact hout1
          have hms2 : w2.messages = w1.messages ++ [doc] := by rw [hw2]
          have hfresh : ∀ x ∈ w1.messages, x._id ≠ doc._id := by
            intro x hx
            rw [hid]
            exact Nat.ne_of_lt (freshId_gt _ x hx)
          rcases populate_outcome w2 doc with ⟨i, hp⟩ | ⟨e, hp⟩
          · rw [Eff.run_bind_ok _ _ _ _ _ hp]
            rcases getSocket_outcome w2 to_ with ⟨g, hg⟩ | ⟨e, hg⟩
            · rw [Eff.run_bind_ok _ _ _ _ _ hg]
              cases ht : truthy g with
              | some sid =>
                simp only
                exact online_tail_sound w w2 s sid doc _ w1.messages hout2 hms2 hfresh
              | none =>
                simp only
                obtain ⟨e3, he3⟩ :=
                  keeps_touch_hincrby (unreadKey to_) s.userId 1 w2
                have hinc : ∃ r3 w3, (incrementUnread to_ s.userId).run w2 = (r3, w3) ∧
                    w3.out = w2.out := by
                  unfold incrementUnread
                  rcases hh : (Redis.hincrby (unreadKey to_) s.userId 1).run w2 with ⟨r4, w4⟩
                  rw [hh] at he3
                  simp only at he3
                  cases r4 with
                  | ok a =>
                    exact ⟨Except.ok (), w4, by rw [Eff.run_bind_ok _ _ _ _ _ hh]; rfl,
                      by rw [he3]; rfl⟩
                  | error e =>
                    exact ⟨Except.error e, w4, by rw [Eff.run_bind_error _ _ _ _ _ hh],
                      by rw [he3]; rfl⟩
                obtain ⟨r3, w3, hrun3, hout3⟩ := hinc
                cases r3 with
                | ok a =>
                  rw [Eff.run_bind_ok _ _ _ _ _ hrun3]
                  exact deliveredSound_of_none _ _ [_] (by
                    show w3.out ++ _ = _
                    rw [hout3, hout2]) (by
                    intro em hem id h
                    rw [List.mem_singleton.mp hem] at h
                    cases h)
                | error e =>
                  rw [Eff.run_bind_error _ _ _ _ _ hrun3]
                  exact deliveredSound_of_none _ _ [] (by simp [hout3, hout2]) (by simp)
            · rw [Eff.run_bind_error _ _ _ _ _ hg]
              exact deliveredSound_of_none _ _ [] (by simp [hout2]) (by simp)
          · rw [Eff.run_bind_error _ _ _ _ _ hp]
            exact deliveredSound_of_none _ _ [] (by simp [hout2]) (by simp)
        · rw [Eff.run_bind_error _ _ _ _ _ hcr]
          exact deliveredSound_of_none _ _ [] (by simp [hout1]) (by simp)

theorem onPrivateMessage_sound (w : World) (s : Socket) (to_ text : String) :
    DeliveredSound w (exec (onPrivateMessage s to_ text) w) := by
  have hb := privateMessageTry_sound w s to_ text
  rw [onPrivateMessage_eq]
  unfold exec
  rcases hr : (privateMessageTry s to_ text).run w with ⟨r, w1⟩
  rw [hr] at hb
  simp only at hb
  cases r with
  | ok a =>
    rw [Eff.run_tryCatch_ok _ _ _ _ _ hr]
    exact hb
  | error e =>
    rw [Eff.run_tryCatch_error _ _ _ _ _ hr]
    obtain ⟨l, hl, hd⟩ := hb
    refine ⟨l ++ [Emission.mk (Target.socket s.id) (Event.error "Failed to send message")],
      ?_, ?_⟩
    · show w1.out ++ _ = _
      rw [hl, List.append_assoc]
    · intro em hem id hid
      rcases List.mem_append.mp hem with h | h
      · exact hd em h id hid
      · rw [List.mem_singleton.mp h] at hid
        cases hid

theorem pm_save_fails_after_rate (w w1 : World) (s : Socket) (to_ text f t sid : String)
    (ex : Option Time)
    (hrl : (checkRateLimit s.userId "send_message" 20 60).run w = (Except.ok true, w1))
    (hcreate : w1.down (Call.db DbOp.messageCreate) = false)
    (hpop : w1.down (Call.db DbOp.messagePopulate) = false)
    (hget : w1.down (Call.redis RedisCmd.get) = false)
    (hsave : w1.down (Call.db DbOp.messageSave) = true)
    (hf : castObjectId s.userId = some f) (ht : castObjectId to_ = some t)
    (htrim : jsTrim text ≠ "")
    (hsock : lookup w1 (socketKey to_) = some (Entry.mk (RVal.str sid) ex))
    (hsid : sid ≠ "") :
    (onPrivateMessage s to_ text).run w
      = (Except.ok (),
          { w1 with
            messages := (w1.messages ++
              [MessageDoc.mk (freshId w1.messages) f t (jsTrim text) w1.now false false none])
            out := (w1.out ++
              [Emission.mk (Target.room sid) (Event.receive_message
                (MessageData.mk (freshId w1.messages)
                  ((w1.users.find? (fun u => decide (u._id = f))).map
                    (fun u => UserInfo.mk u._id u.name u.avatar))
                  t (jsTrim text) w1.now)),
               Emission.mk (Target.socket s.id) (Event.error "Failed to send message")]) }) := by
  have htext : text ≠ "" := fun h => htrim (by rw [h]; exact jsTrim_empty)
  have hto : to_ ≠ "" := fun h => by rw [h, castObjectId_empty] at ht; cases ht
  unfold onPrivateMessage
  have hc : ¬ (text = "" ∨ to_ = "") := by simp [htext, hto]
  rw [if_neg hc]
  have hl : ∀ ms : List MessageDoc, lookup { w1 with messages := ms } (socketKey to_)
      = some (Entry.mk (RVal.str sid) ex) := fun ms => hsock
  simp [Eff.run_tryCatch, Eff.run_bind, hrl, getNow, Message.create, call, hcreate, hpop, hget,
    hsave, hf, ht, htrim, Message.populate, getSocket, Redis.get, hl, truthy, hsid, emit,
    Message.save]

theorem pm_offline_effect (w : World) (s : Socket) (to_ text f t : String)
    (hup : AllUp w)
    (hf : castObjectId s.userId = some f) (ht : castObjectId to_ = some t)
    (htrim : jsTrim text ≠ "")
    (hkey : counterOrAbsent w (rateKey s.userId "send_message"))
    (hrate : counterOf w (rateKey s.userId "send_message") + 1 ≤ 20)
    (hsock : lookup w (socketKey to_) = none)
    (hun : hashOrAbsent w (unreadKey to_)) :
    (exec (onPrivateMessage s to_ text) w).out
        = w.out ++
          [Emission.mk (Target.socket s.id) (Event.message_sent (freshId w.messages) false)] ∧
      (exec (onPrivateMessage s to_ text) w).messages
        = w.messages ++
          [MessageDoc.mk (freshId w.messages) f t (jsTrim text) w.now false false none] ∧
      findMessage (exec (onPrivateMessage s to_ text) w) (freshId w.messages)
        = some (MessageDoc.mk (freshId w.messages) f t (jsTrim text) w.now false false none) ∧
      unreadCount (exec (onPrivateMessage s to_ text) w) to_ s.userId
        = unreadCount w to_ s.userId + 1 ∧
      (∀ u x : String, ¬ (u = to_ ∧ x = s.userId) →
        unreadCount (exec (onPrivateMessage s to_ text) w) u x = unreadCount w u x) := by
  obtain ⟨w1, hrl, _, _, _, hfr, hnow, hmsg, husers, _, hout, hdown, _⟩ :=
    checkRateLimit_effect w s.userId "send_message" 20 60 (hup _) (hup _) hkey
  rw [decide_eq_true hrate] at hrl
  have hup1 : AllUp w1 := fun c => by rw [hdown]; exact hup c
  have hs1 : lookup w1 (socketKey to_) = none := by
    rw [lookup_frame w w1 _ (hfr _ (rateKey_ne_socketKey _ _ _)) hnow]
    exact hsock
  have hu1 : lookup w1 (unreadKey to_) = lookup w (unreadKey to_) :=
    lookup_frame w w1 _ (hfr _ (rateKey_ne_unreadKey _ _ _)) hnow
  have hun1 : hashOrAbsent w1 (unreadKey to_) := by
    intro e he
    rw [hu1] at he
    exact hun e he
  have hh : hashOf w1 (unreadKey to_) = hashOf w (unreadKey to_) := by
    simp [hashOf, hu1]
  have hrun := pm_offline_after_rate w w1 s to_ text f t hrl hup1 hf ht htrim (Or.inl hs1) hun1
  have hfresh : ∀ x ∈ w.messages, x._id ≠ freshId w.messages :=
    fun x hx => Nat.ne_of_lt (freshId_gt _ x hx)
  have hlive : ∀ v : RVal, (Entry.mk v (hashOf w (unreadKey to_)).2).live w.now = true := by
    intro v
    unfold hashOf
    split
    · next h ex heq =>
      have := (lookup_some_redis w _ _ heq).2
      simpa [Entry.live] using this
    · simp [Entry.live]
  simp only [exec, hrun, hmsg, hout, husers, hnow, hh]
  refine ⟨trivial, trivial, ?_, ?_, ?_⟩
  · exact findMessage_append_fresh _ w.messages
      (MessageDoc.mk (freshId w.messages) f t (jsTrim text) w.now false false none) rfl hfresh
  · rw [unreadCount_eq_hashOf w]
    simp [unreadCount, lookup, hnow, hlive]
  · intro u x hne
    by_cases hu : u = to_
    · subst hu
      have hx : x ≠ s.userId := fun h => hne ⟨rfl, h⟩
      rw [unreadCount_eq_hashOf w]
      simp [unreadCount, lookup, hnow, hlive, Function.update, hx]
    · have hk : unreadKey u ≠ unreadKey to_ := fun h => hu (unreadKey_inj _ _ h)
      apply unreadCount_frame
      · show (w1.put _ _).redis (unreadKey u) = w.redis (unreadKey u)
        rw [put_redis_other _ _ _ _ hk]
        exact hfr _ (rateKey_ne_unreadKey _ _ _)
      · exact hnow

theorem handleDisconnect_run (w : World) (c1 : Conn)
    (hdel : w.down (Call.redis RedisCmd.del) = false)
    (hfind : w.conns.find? (fun c => decide (c.id = c1.id)) = some c1)
    (hl : c1.listening = true) :
    (handleDisconnect c1.id).run w
      = (Except.ok (),
          { ({ w with
                conns := (w.conns.filter (fun x => decide (x.id ≠ c1.id)))
                timers := (w.timers.filter (fun t => decide (t.socketId ≠ c1.id))) } : World).put
              (socketKey c1.userId) none with
            out := (w.out ++
              [Emission.mk (Target.others c1.id) (Event.user_offline c1.userId)]) }) := by
  unfold handleDisconnect
  show (match w.conns.find? (fun x => decide (x.id = c1.id)) with
    | none => (Except.ok (), w)
    | some c => _) = _
  rw [hfind]
  simp only [hl, if_true]
  obtain ⟨v0, hv0⟩ : ∃ v0 : World,
      v0 = { w with conns := (w.conns.filter (fun x => decide (x.id ≠ c1.id))) } := ⟨_, rfl⟩
  have h0 : (closeConn c1.id).run w = (Except.ok (), v0) := by rw [hv0]; rfl
  obtain ⟨v1, hv1⟩ : ∃ v1 : World, v1 = { v0 with timers :=
      (v0.timers.filter (fun t => decide (t.socketId ≠ c1.id))) } := ⟨_, rfl⟩
  have h1 : (clearInterval c1.id).run v0 = (Except.ok (), v1) := by rw [hv1]; rfl
  have hd1 : v1.down (Call.redis RedisCmd.del) = false := by rw [hv1, hv0]; exact hdel
  have h2 := removeSocket_run v1 c1.userId hd1
  show ((closeConn c1.id) >>= fun _ => onDisconnect (Socket.mk c1.id c1.userId)).run w = _
  rw [Eff.run_bind_ok _ _ _ _ _ h0]
  unfold onDisconnect disconnectSteps
  rw [runSteps_cons_ok _ _ _ _ h1, runSteps_cons_ok _ _ _ _ h2]
  rw [hv1, hv0]
  rfl

end FailureLemmas

/-! ## Claims on acknowledgments and authentication, witnesses and counterexamples -/

/-- C6 (amended). Under every sequence of `private_message` and `message_read`
events (with the clock and the collaborators changing in between) no stored message
moves backward: it keeps its `_id`, a set `delivered` or `read` flag stays set and
the state `sent < delivered < read` never decreases. Re-applying read is not a no-op:
handling `message_read` for a message that is already read keeps `read = true` and
every other field, and overwrites `readAt` with the time of this acknowledgment. -/
theorem delivery_state_monotone :
    (∀ (w : World) (es : List Inbound), NoRegress w (runEvents w es)) ∧
    (∀ (w : World) (s : Socket) (id : Nat) (m : MessageDoc),
      w.down (Call.db DbOp.messageFindByIdAndUpdate) = false →
      findMessage w id = some m → m.read = true →
      findMessage (exec (onMessageRead s (RawId.castable id)) w) id
        = some { m with readAt := some w.now }) := by
  refine ⟨fun w es => noRegress_runEvents es w, ?_⟩
  intro w s id m hdb hm hr
  rw [read_known_find w s id m hdb hm, hr]

/-- Witness for C6: Bob acknowledges again a message he read at time 500. -/
theorem delivery_state_monotone_witness :
    findMessage (exec (onMessageRead sockB (RawId.castable 1)) readWorld) 1
      = some (MessageDoc.mk 1 alice bob "hi" 400 true true (some 1000)) :=
  delivery_state_monotone.2 readWorld sockB 1
    (MessageDoc.mk 1 alice bob "hi" 400 true true (some 500)) rfl rfl rfl

/-- Counterexample to C6 as stated: re-applying read changes the persisted record
(`readAt` moves from 500 to 1000). -/
theorem reread_overwrites_readAt :
    findMessage readWorld 1 = some (MessageDoc.mk 1 alice bob "hi" 400 true true (some 500)) ∧
    (exec (onMessageRead sockB (RawId.castable 1)) readWorld).messages
      = [MessageDoc.mk 1 alice bob "hi" 400 true true (some 1000)] ∧
    (exec (onMessageRead sockB (RawId.castable 1)) readWorld).messages ≠ readWorld.messages := by
  refine ⟨rfl, rfl, ?_⟩
  decide

/-- C7 (amended). For every stored message whose sender has a live connection,
each handling of `message_read` emits one `message_read_receipt` to the sender, so
handling it twice for the same message identifier emits two receipts in total. -/
theorem message_read_receipt_each_time (w : World) (s : Socket) (id : Nat) (m : MessageDoc)
    (sid : String) (ex : Option Time)
    (hdb : w.down (Call.db DbOp.messageFindByIdAndUpdate) = false)
    (hget : w.down (Call.redis RedisCmd.get) = false)
    (hm : findMessage w id = some m)
    (hsock : lookup w (socketKey m.from_) = some (Entry.mk (RVal.str sid) ex))
    (hsid : sid ≠ "") :
    (runEvents w [Inbound.message_read s (RawId.castable id),
                  Inbound.message_read s (RawId.castable id)]).out
      = w.out ++
        [Emission.mk (Target.room sid)
          (Event.message_read_receipt (RawId.castable id) s.userId (some w.now)),
         Emission.mk (Target.room sid)
          (Event.message_read_receipt (RawId.castable id) s.userId (some w.now))] := by
  have h1 := read_known_run w s id m sid ex hdb hget hm hsock hsid
  have hm2 : findMessage (exec (onMessageRead s (RawId.castable id)) w) id
      = some { m with read := true, readAt := some w.now } := read_known_find w s id m hdb hm
  have hw1 : exec (onMessageRead s (RawId.castable id)) w
      = { w with
          messages := (updateFirst (fun x => decide (x._id = id))
            (fun x => { x with read := true, readAt := some w.now }) w.messages)
          out := (w.out ++ [Emission.mk (Target.room sid)
            (Event.message_read_receipt (RawId.castable id) s.userId (some w.now))]) } := by
    simp only [exec, h1]
  have h2 := read_known_run (exec (onMessageRead s (RawId.castable id)) w) s id
    { m with read := true, readAt := some w.now } sid ex
    (by rw [hw1]; exact hdb) (by rw [hw1]; exact hget) hm2
    (by rw [hw1]; exact hsock) hsid
  simp only [runEvents, List.foldl, step]
  simp only [exec] at h2 ⊢
  rw [h2]
  simp only [h1, List.append_assoc, List.singleton_append]

/-- Witness for C7: Bob acknowledges Alice's message twice. -/
theorem message_read_receipt_each_time_witness :
    (runEvents chatWorld [Inbound.message_read sockB (RawId.castable 1),
                          Inbound.message_read sockB (RawId.castable 1)]).out
      = [Emission.mk (Target.room "sockA")
          (Event.message_read_receipt (RawId.castable 1) bob (some 1000)),
         Emission.mk (Target.room "sockA")
          (Event.message_read_receipt (RawId.castable 1) bob (some 1000))] :=
  message_read_receipt_each_time chatWorld sockB 1
    (MessageDoc.mk 1 alice bob "hi" 400 true false none) "sockA" none rfl rfl rfl rfl
    (by decide)

/-- Counterexample to C7 as stated: two acknowledgments of one message by its
recipient send the sender two receipts, not one. -/
theorem double_read_two_receipts :
    findMessage chatWorld 1 = some (MessageDoc.mk 1 alice bob "hi" 400 true false none) ∧
    ((getSocket alice).run chatWorld).1 = Except.ok (some "sockA") ∧
    ((runEvents chatWorld [Inbound.message_read sockB (RawId.castable 1),
                           Inbound.message_read sockB (RawId.castable 1)]).out.filter
        (fun e => decide (e = Emission.mk (Target.room "sockA")
          (Event.message_read_receipt (RawId.castable 1) bob (some 1000))))).length = 2 := by
  refine ⟨rfl, rfl, ?_⟩
  decide

/-- C8. For every message identifier that matches no stored message (or is not an
identifier), `message_read` returns normally and leaves the whole world unchanged:
no persisted record, no coordination-store entry and no emitted event, whichever
collaborators are down. -/
theorem message_read_unknown_noop (w : World) (s : Socket) (raw : RawId)
    (h : matchesNone w raw) :
    (onMessageRead s raw).run w = (Except.ok (), w) :=
  read_unknown_run w s raw h

/-- Witness for C8: no stored message has identifier 7. -/
theorem message_read_unknown_noop_witness :
    (onMessageRead sockB (RawId.castable 7)).run chatWorld = (Except.ok (), chatWorld) :=
  message_read_unknown_noop chatWorld sockB (RawId.castable 7) rfl

/-- C9 (amended). The `message_read` handler does not look at who acknowledges:
for every stored message `m` and every authenticated connection `s`, whatever its
identity, handling `message_read` for `m` sets `read = true` and `readAt` to the
current time, and when `m`'s sender has a live connection sends it one
`message_read_receipt` naming `s.userId` as the reader. -/
theorem message_read_by_any_connection (w : World) (s : Socket) (id : Nat) (m : MessageDoc)
    (sid : String) (ex : Option Time)
    (hdb : w.down (Call.db DbOp.messageFindByIdAndUpdate) = false)
    (hget : w.down (Call.redis RedisCmd.get) = false)
    (hm : findMessage w id = some m)
    (hsock : lookup w (socketKey m.from_) = some (Entry.mk (RVal.str sid) ex))
    (hsid : sid ≠ "") :
    findMessage (exec (onMessageRead s (RawId.castable id)) w) id
        = some { m with read := true, readAt := some w.now } ∧
      (exec (onMessageRead s (RawId.castable id)) w).out
        = w.out ++ [Emission.mk (Target.room sid)
            (Event.message_read_receipt (RawId.castable id) s.userId (some w.now))] := by
  refine ⟨read_known_find w s id m hdb hm, ?_⟩
  simp only [exec, read_known_run w s id m sid ex hdb hget hm hsock hsid]

/-- Witness for C9: Carol acknowledges a message from Alice to Bob. -/
theorem message_read_by_any_connection_witness :
    (exec (onMessageRead sockC (RawId.castable 1)) chatWorld).out
      = [Emission.mk (Target.room "sockA")
          (Event.message_read_receipt (RawId.castable 1) carol (some 1000))] :=
  (message_read_by_any_connection chatWorld sockC 1
    (MessageDoc.mk 1 alice bob "hi" 400 true false none) "sockA" none rfl rfl rfl rfl
    (by decide)).2

/-- Counterexample to C9 as stated: Carol, who is not the recipient, marks Alice's
message to Bob as read and a receipt naming Carol is sent to Alice. -/
theorem non_recipient_marks_read :
    findMessage chatWorld 1 = some (MessageDoc.mk 1 alice bob "hi" 400 true false none) ∧
    sockC.userId ≠ bob ∧
    findMessage (exec (onMessageRead sockC (RawId.castable 1)) chatWorld) 1
      = some (MessageDoc.mk 1 alice bob "hi" 400 true true (some 1000)) ∧
    (exec (onMessageRead sockC (RawId.castable 1)) chatWorld).out
      = [Emission.mk (Target.room "sockA")
          (Event.message_read_receipt (RawId.castable 1) carol (some 1000))] := by
  refine ⟨rfl, by decide, rfl, rfl⟩

/-- C10. A connection attempt whose handshake has no token (absent or empty), or
whose token fails verification, or whose token's `userId` claim resolves to no stored
user, is refused by the authentication middleware: the connection handler does not
run, so the only change is a connect error sent to that client; the store (no
`socket:<user>` entry, no `user:online` marker), the connections and all other
emissions (no `user_online`) are as before. -/
theorem handleConnection_rejects (w : World) (socketId : String) (token : Option String)
    (h : truthy token = none ∨
      (∃ t, truthy token = some t ∧ w.jwtVerify w.now t = none) ∨
      (∃ t claim, truthy token = some t ∧ w.jwtVerify w.now t = some claim ∧
        ∀ oid, claim.bind castObjectId = some oid →
          w.users.find? (fun u => decide (u._id = oid)) = none)) :
    ∃ msg, exec (handleConnection socketId token) w
      = { w with out := (w.out ++
            [Emission.mk (Target.socket socketId) (Event.connect_error msg)]) } := by
  obtain ⟨msg, hrun, _⟩ := authMiddleware_rejects w token h
  refine ⟨msg, ?_⟩
  unfold handleConnection exec
  rw [Eff.run_bind_ok _ _ _ _ _ hrun]
  rfl

/-- Witness for C10: a token that does not verify. -/
theorem handleConnection_rejects_witness :
    ∃ msg, exec (handleConnection "sock9" (some "forged")) demoWorld
      = { demoWorld with out := (demoWorld.out ++
            [Emission.mk (Target.socket "sock9") (Event.connect_error msg)]) } :=
  handleConnection_rejects demoWorld "sock9" (some "forged")
    (Or.inr (Or.inl ⟨"forged", rfl, rfl⟩))

/-- A handshake with a verifying token of a known user does run the connection handler. -/
theorem handleConnection_accepts_example :
    ((getSocket carol).run (exec (handleConnection "sock9" (some "token-carol")) demoWorld)).1
        = Except.ok (some "sock9") ∧
      (exec (handleConnection "sock9" (some "token-carol")) demoWorld).out
        = [Emission.mk (Target.others "sock9") (Event.user_online carol),
           Emission.mk (Target.socket "sock9") (Event.connected carol)] ∧
      (exec (handleConnection "sock9" (some "token-carol")) demoWorld).conns
        = [Conn.mk "sock9" carol ["sock9", carol] true] ∧
      (exec (handleConnection "sock9" (some "token-carol")) demoWorld).timers
        = [Timer.mk "sock9" carol 10000] := by
  refine ⟨rfl, rfl, rfl, rfl⟩

/-- Every collaborator of the sample server is up. -/
theorem demoWorld_allUp : AllUp demoWorld := fun _ => rfl

/-- The sample server's store is well typed. -/
theorem demoWorld_wellTyped : WellTyped demoWorld := by
  refine ⟨?_, ?_⟩
  · intro u e he
    simp only [demoWorld, emptyWorld] at he
    split at he
    · cases he; exact ⟨_, rfl⟩
    · split at he
      · cases he; exact ⟨_, rfl⟩
      · cases he
  · intro u e he
    simp only [demoWorld, emptyWorld] at he
    rw [if_neg (Ne.symm (socketKey_ne_unreadKey _ _)),
      if_neg (Ne.symm (socketKey_ne_unreadKey _ _))] at he
    cases he

/-- The sample server has no rate counter. -/
theorem demoWorld_counter_absent (t : Time) (u a : String) :
    lookup (demoWorld.atTime t) (rateKey u a) = none := by
  simp only [lookup, demoWorld, emptyWorld, World.atTime]
  rw [if_neg (Ne.symm (rateKey_ne_socketKey _ _ _)), if_neg (Ne.symm (rateKey_ne_socketKey _ _ _))]

/-- Witness for C2: limit 2, window 60 s, calls at 0 s, 1 s, 2 s and 60.001 s. -/
theorem rate_limit_window_witness :
    (rateRun "u1" "send_message" 2 60 emptyWorld [0, 1000, 2000]).1
        = [Except.ok true, Except.ok true, Except.ok false] ∧
      ((checkRateLimit "u1" "send_message" 2 60).run
        ((rateRun "u1" "send_message" 2 60 emptyWorld [0, 1000, 2000]).2.atTime 60001)).1
        = Except.ok true := by
  have h := rate_limit_window emptyWorld "u1" "send_message" 2 60 0 60001 [1000, 2000]
    (by decide) rfl rfl rfl
    (by intro t ht; simp at ht; rcases ht with h | h <;> subst h <;> decide)
    (by decide)
  refine ⟨?_, h.2.2.1⟩
  rw [h.1]
  rfl

/-- Witness for C4: Alice sends ` hi ` to Bob, who is connected. -/
theorem private_message_online_witness :
    (exec (onPrivateMessage sockA bob " hi ") demoWorld).messages
      = [MessageDoc.mk 1 alice bob "hi" 1000 true false none] :=
  (private_message_online demoWorld sockA bob " hi " alice bob "sockB" none
    demoWorld_allUp (by decide) (by decide) (by decide)
    (by intro e he; rw [show lookup demoWorld (rateKey sockA.userId "send_message") = none from rfl] at he; cases he)
    (by decide) rfl (by decide)).2.1

/-- Witness for C5: Alice sends `hi` to Carol, who is not connected. -/
theorem private_message_offline_witness :
    unreadCount (exec (onPrivateMessage sockA carol "hi") demoWorld) carol alice
      = unreadCount demoWorld carol alice + 1 :=
  (private_message_offline demoWorld sockA carol "hi" alice carol
    demoWorld_allUp (by decide) (by decide) (by decide)
    (by intro e he; rw [show lookup demoWorld (rateKey sockA.userId "send_message") = none from rfl] at he; cases he)
    (by decide) rfl
    (by intro e he; rw [show lookup demoWorld (unreadKey carol) = none from rfl] at he; cases he)).2.2.2.1

/-- Counterexample to C4 as stated: a non-empty `to` and a non-empty `text` of one
space, allowed by the limiter, recipient connected: the schema rejects the blank
text, the sender gets `Failed to send message`, nothing is persisted or delivered. -/
theorem online_blank_text_counterexample :
    bob ≠ "" ∧ " " ≠ "" ∧
    ((getSocket bob).run demoWorld).1 = Except.ok (some "sockB") ∧
    ((checkRateLimit alice "send_message" 20 60).run demoWorld).1 = Except.ok true ∧
    (exec (onPrivateMessage sockA bob " ") demoWorld).out
      = [Emission.mk (Target.socket "sockA") (Event.error "Failed to send message")] ∧
    (exec (onPrivateMessage sockA bob " ") demoWorld).messages = [] := by
  refine ⟨by decide, by decide, rfl, rfl, rfl, rfl⟩

/-- Counterexample to C5 as stated: a non-empty `text` of one tab sent to a
recipient who is not connected: nothing is persisted, no `message_sent` is emitted
and the unread count does not grow. -/
theorem offline_blank_text_counterexample :
    carol ≠ "" ∧ "\t" ≠ "" ∧
    ((getSocket carol).run demoWorld).1 = Except.ok none ∧
    ((checkRateLimit alice "send_message" 20 60).run demoWorld).1 = Except.ok true ∧
    (exec (onPrivateMessage sockA carol "\t") demoWorld).out
      = [Emission.mk (Target.socket "sockA") (Event.error "Failed to send message")] ∧
    (exec (onPrivateMessage sockA carol "\t") demoWorld).messages = [] ∧
    unreadCount (exec (onPrivateMessage sockA carol "\t") demoWorld) carol alice
      = unreadCount demoWorld carol alice := by
  refine ⟨by decide, by decide, rfl, rfl, rfl, rfl, rfl⟩

set_option maxRecDepth 100000 in
/-- Counterexample to C3 as stated: 21 events with non-empty `to` and non-empty
(blank) `text` within one window: none of the first 20 is persisted or acknowledged;
each gets `Failed to send message`, and the 21st is rate limited. -/
theorem burst_blank_text_counterexample :
    bob ≠ "" ∧ " " ≠ "" ∧
    counterOf (demoWorld.atTime 1000) (rateKey alice "send_message") = 0 ∧
    (sendAll sockA demoWorld (List.replicate 21 (1000, bob, " "))).messages = [] ∧
    (sendAll sockA demoWorld (List.replicate 21 (1000, bob, " "))).out
      = List.replicate 20
          (Emission.mk (Target.socket "sockA") (Event.error "Failed to send message")) ++
        [Emission.mk (Target.socket "sockA")
          (Event.error "Rate limit exceeded. Please slow down.")] := by
  refine ⟨by decide, by decide, rfl, rfl, rfl⟩

/-- Witness for C3: Alice sends Bob one message and Carol twenty within a minute. -/
theorem burst_of_21_messages_witness :
    (sendAll sockA demoWorld ((1000, bob, "hi") :: List.replicate 20 (2000, carol, "yo"))).messages
      = (sendAll sockA demoWorld
          (((1000, bob, "hi") :: List.replicate 20 (2000, carol, "yo")).take 20)).messages := by
  obtain ⟨_, m, _, _, h, _⟩ := burst_of_21_messages demoWorld sockA alice 1000 bob "hi"
    (List.replicate 20 (2000, carol, "yo")) demoWorld_allUp demoWorld_wellTyped (by decide)
    (by simp) (demoWorld_counter_absent _ _ _)
    (by intro m hm; rw [List.eq_of_mem_replicate hm]; decide)
    (by
      intro m hm
      rcases List.mem_cons.mp hm with h | h
      · subst h; decide
      · rw [List.eq_of_mem_replicate h]; decide)
  exact h

/-! ## Claims on presence, typing and group chat, witnesses and counterexamples -/

/-- C11. With every collaborator up, the `connection` handler of an authenticated
connection runs its statements in this order, each on the world left by the one
before: the directory maps `socket:<user>` to the connection id (24 h safety
expiry), the online marker `user:online:<user>` is set for 30 s, the connection
joins the room named by the user id, `user_online` is sent to all other
connections, `connected` is sent to the connection, the heartbeat interval of
10000 ms is started, and the listeners are registered. The handler returns
normally in the last of these worlds. Each firing of the heartbeat sets the online
marker again for 30 s from the time it fires. -/
theorem connection_handler_order (w : World) (s : Socket) (hup : AllUp w) :
    let w1 := w.put (socketKey s.userId)
      (some (Entry.mk (RVal.str s.id) (some (w.now + 86400 * 1000))))
    let w2 := w1.put (onlineKey s.userId)
      (some (Entry.mk (RVal.str (toString w.now)) (some (w.now + 30 * 1000))))
    let w3 : World := { w2 with conns :=
      (w.conns.map (fun c => if c.id = s.id then { c with rooms := c.rooms ++ [s.userId] } else c)) }
    let w4 : World := { w3 with out :=
      (w.out ++ [Emission.mk (Target.others s.id) (Event.user_online s.userId)]) }
    let w5 : World := { w4 with out :=
      (w4.out ++ [Emission.mk (Target.socket s.id) (Event.connected s.userId)]) }
    let w6 : World := { w5 with timers := (w.timers ++ [Timer.mk s.id s.userId 10000]) }
    let w7 : World := { w6 with conns :=
      (w3.conns.map (fun c => if c.id = s.id then { c with listening := true } else c)) }
    traceSteps (connectionSteps s) w = [w1, w2, w3, w4, w5, w6, w7] ∧
      (onConnection s).run w = (Except.ok (), w7) ∧
      (∀ v : World, v.down (Call.redis RedisCmd.setex) = false →
        (heartbeatCallback (Timer.mk s.id s.userId 10000)).run v
          = (Except.ok (), v.put (onlineKey s.userId)
              (some (Entry.mk (RVal.str (toString v.now)) (some (v.now + 30 * 1000)))))) := by
  intro w1 w2 w3 w4 w5 w6 w7
  have h1 : (mapSocket s.userId s.id).run w = (Except.ok (), w1) :=
    mapSocket_run w s.userId s.id (hup _) (hup _)
  have h2 : (setUserOnline s.userId).run w1 = (Except.ok (), w2) :=
    setUserOnline_run w1 s.userId (hup _)
  have h3 : (modifyConn s.id (fun c => { c with rooms := c.rooms ++ [s.userId] })).run w2
      = (Except.ok (), w3) := rfl
  have h4 : (emit (Target.others s.id) (Event.user_online s.userId)).run w3
      = (Except.ok (), w4) := rfl
  have h5 : (emit (Target.socket s.id) (Event.connected s.userId)).run w4
      = (Except.ok (), w5) := rfl
  have h6 : (setInterval s 10000).run w5 = (Except.ok (), w6) := rfl
  have h7 : (modifyConn s.id (fun c => { c with listening := true })).run w6
      = (Except.ok (), w7) := rfl
  refine ⟨?_, ?_, ?_⟩
  · unfold connectionSteps
    rw [traceSteps_cons_ok _ _ _ _ h1, traceSteps_cons_ok _ _ _ _ h2,
      traceSteps_cons_ok _ _ _ _ h3, traceSteps_cons_ok _ _ _ _ h4,
      traceSteps_cons_ok _ _ _ _ h5, traceSteps_cons_ok _ _ _ _ h6,
      traceSteps_cons_ok _ _ _ _ h7]
    rfl
  · rw [onConnection_eq_steps]
    apply Eff.run_tryCatch_ok
    unfold connectionSteps
    rw [runSteps_cons_ok _ _ _ _ h1, runSteps_cons_ok _ _ _ _ h2,
      runSteps_cons_ok _ _ _ _ h3, runSteps_cons_ok _ _ _ _ h4,
      runSteps_cons_ok _ _ _ _ h5, runSteps_cons_ok _ _ _ _ h6,
      runSteps_cons_ok _ _ _ _ h7]
    rfl
  · intro v hv
    exact setUserOnline_run v s.userId hv

/-- Witness for C11: Carol's connection `sockC` on the sample server; directory
entry, marker, rooms, emissions and timers after each of the seven statements. -/
theorem connection_handler_order_witness :
    (traceSteps (connectionSteps sockC) (exec (addConn sockC) demoWorld)).map
        (fun v => ((lookup v (socketKey carol)).isSome, (lookup v (onlineKey carol)).isSome,
          v.conns.map (fun c => c.rooms), v.out, v.timers))
      = [(true, false, [["sockC"]], [], []),
         (true, true, [["sockC"]], [], []),
         (true, true, [["sockC", carol]], [], []),
         (true, true, [["sockC", carol]],
           [Emission.mk (Target.others "sockC") (Event.user_online carol)], []),
         (true, true, [["sockC", carol]],
           [Emission.mk (Target.others "sockC") (Event.user_online carol),
            Emission.mk (Target.socket "sockC") (Event.connected carol)], []),
         (true, true, [["sockC", carol]],
           [Emission.mk (Target.others "sockC") (Event.user_online carol),
            Emission.mk (Target.socket "sockC") (Event.connected carol)],
           [Timer.mk "sockC" carol 10000]),
         (true, true, [["sockC", carol]],
           [Emission.mk (Target.others "sockC") (Event.user_online carol),
            Emission.mk (Target.socket "sockC") (Event.connected carol)],
           [Timer.mk "sockC" carol 10000])] := by
  rw [(connection_handler_order (exec (addConn sockC) demoWorld) sockC (fun _ => rfl)).1]
  rfl

/-- C12. The `disconnect` listener of a connection cancels the heartbeat, then
removes the user's directory entry, then sends `user_offline` to the other
connections: when `DEL` goes through these are its three steps and it returns
normally. In every world the listener passes through in which something has been
emitted (in particular when `user_offline` is emitted) the directory has no entry
for the user and no heartbeat of the connection is left, whether or not the store
is up. A close of an established connection runs this listener once the
connection is gone from the server. -/
theorem disconnect_order (w : World) (s : Socket) :
    (w.down (Call.redis RedisCmd.del) = false →
      let v1 : World :=
        { w with timers := (w.timers.filter (fun t => decide (t.socketId ≠ s.id))) }
      let v2 := v1.put (socketKey s.userId) none
      let v3 : World := { v2 with out :=
        (w.out ++ [Emission.mk (Target.others s.id) (Event.user_offline s.userId)]) }
      traceSteps (disconnectSteps s) w = [v1, v2, v3] ∧
        (onDisconnect s).run w = (Except.ok (), v3)) ∧
      (∀ v ∈ traceSteps (disconnectSteps s) w, v.out ≠ w.out →
        lookup v (socketKey s.userId) = none ∧
        (∀ t ∈ v.timers, t.socketId ≠ s.id)) ∧
      (∀ c : Conn, w.conns.find? (fun x => decide (x.id = s.id)) = some c → c.listening = true →
        (handleDisconnect s.id).run w
          = (onDisconnect (Socket.mk c.id c.userId)).run
              { w with conns := (w.conns.filter (fun x => decide (x.id ≠ s.id))) }) := by
  have hfilter : ∀ t ∈ w.timers.filter (fun t => decide (t.socketId ≠ s.id)),
      t.socketId ≠ s.id := by
    intro t ht
    simpa using (List.mem_filter.mp ht).2
  refine ⟨?_, ?_, ?_⟩
  · intro hdel v1 v2 v3
    have h1 : (clearInterval s.id).run w = (Except.ok (), v1) := rfl
    have h2 : (removeSocket s.userId).run v1 = (Except.ok (), v2) :=
      removeSocket_run v1 s.userId hdel
    have h3 : (emit (Target.others s.id) (Event.user_offline s.userId)).run v2
        = (Except.ok (), v3) := rfl
    refine ⟨?_, ?_⟩
    · unfold disconnectSteps
      rw [traceSteps_cons_ok _ _ _ _ h1, traceSteps_cons_ok _ _ _ _ h2,
        traceSteps_cons_ok _ _ _ _ h3]
      rfl
    · unfold onDisconnect disconnectSteps
      rw [runSteps_cons_ok _ _ _ _ h1, runSteps_cons_ok _ _ _ _ h2,
        runSteps_cons_ok _ _ _ _ h3]
      rfl
  · intro v hv hout
    obtain ⟨v1, hv1⟩ : ∃ v1 : World, v1 = { w with timers :=
        (w.timers.filter (fun t => decide (t.socketId ≠ s.id))) } := ⟨_, rfl⟩
    have h1 : (clearInterval s.id).run w = (Except.ok (), v1) := by rw [hv1]; rfl
    have hout1 : v1.out = w.out := by rw [hv1]
    have htim1 : ∀ t ∈ v1.timers, t.socketId ≠ s.id := by rw [hv1]; exact hfilter
    unfold disconnectSteps at hv
    rw [traceSteps_cons_ok _ _ _ _ h1] at hv
    by_cases hdel : v1.down (Call.redis RedisCmd.del) = true
    · rw [traceSteps_cons_error _ _ v1 _ _ (removeSocket_run_down v1 s.userId hdel)] at hv
      simp only [List.mem_cons, List.mem_singleton, List.not_mem_nil, or_false, or_self] at hv
      subst hv
      exact absurd hout1 hout
    · have hdel2 : v1.down (Call.redis RedisCmd.del) = false := by simpa using hdel
      rw [traceSteps_cons_ok _ _ v1 _ (removeSocket_run v1 s.userId hdel2)] at hv
      have h3 : ∀ x : World, (emit (Target.others s.id) (Event.user_offline s.userId)).run x
          = (Except.ok (), { x with out :=
              (x.out ++ [Emission.mk (Target.others s.id) (Event.user_offline s.userId)]) }) :=
        fun _ => rfl
      rw [traceSteps_cons_ok _ _ _ _ (h3 _)] at hv
      simp only [traceSteps, List.mem_cons, List.mem_singleton, List.not_mem_nil, or_false] at hv
      rcases hv with hv | hv | hv
      · subst hv
        exact absurd hout1 hout
      · subst hv
        exact absurd hout1 hout
      · subst hv
        refine ⟨?_, htim1⟩
        simp [lookup]
  · intro c hc hl
    have hid : c.id = s.id := by
      have := List.find?_some hc
      simpa using this
    unfold handleDisconnect
    show (match w.conns.find? (fun x => decide (x.id = s.id)) with
      | none => (Except.ok (), w)
      | some c => _) = _
    rw [hc]
    simp only [hl, if_true]
    rfl

/-- Witness for C12: Carol's connection closes after she connected to the sample
server. -/
theorem disconnect_order_witness :
    (traceSteps (disconnectSteps sockC) carolOnline).map
        (fun v => ((lookup v (socketKey carol)).isSome, v.timers, v.out.length))
      = [(true, [], 2), (false, [], 2), (false, [], 3)] ∧
      lookup (exec (onDisconnect sockC) carolOnline) (socketKey carol) = none ∧
      (handleDisconnect "sockC").run carolOnline
        = (onDisconnect sockC).run { carolOnline with conns := [] } := by
  have h := (disconnect_order carolOnline sockC).1 rfl
  refine ⟨?_, ?_, ?_⟩
  · rw [h.1]
    rfl
  · refine ((disconnect_order carolOnline sockC).2.1 (exec (onDisconnect sockC) carolOnline)
      ?_ (by decide)).1
    rw [h.1]
    unfold exec
    rw [h.2]
    simp
  · exact (disconnect_order carolOnline sockC).2.2
      (Conn.mk "sockC" carol ["sockC", carol] true) rfl rfl

/-- C13. Directory laws, with the store up and read within the 24 h safety expiry:
`getSocket u` after `mapSocket u c1` returns `c1`; after `mapSocket u c1` then
`mapSocket u c2` it returns `c2`; after `removeSocket u` it returns absent; and
`mapSocket u`, `removeSocket u` and `getSocket u` leave the entry of every other
user as it was. -/
theorem directory_laws (w : World) (u c1 c2 : String) (t : Time)
    (hup : AllUp w) (ht2 : t ≤ w.now + 86400000) :
    ((getSocket u).run ((exec (mapSocket u c1) w).atTime t)).1 = Except.ok (some c1) ∧
      ((getSocket u).run
        ((exec (mapSocket u c2) (exec (mapSocket u c1) w)).atTime t)).1 = Except.ok (some c2) ∧
      ((getSocket u).run ((exec (removeSocket u) w).atTime t)).1 = Except.ok none ∧
      (∀ v : String, v ≠ u →
        (exec (mapSocket u c1) w).redis (socketKey v) = w.redis (socketKey v) ∧
        (exec (removeSocket u) w).redis (socketKey v) = w.redis (socketKey v) ∧
        (exec (getSocket u) w).redis (socketKey v) = w.redis (socketKey v)) := by
  have hm : ∀ (x : World) (c : String), AllUp x →
      exec (mapSocket u c) x
        = x.put (socketKey u) (some (Entry.mk (RVal.str c) (some (x.now + 86400 * 1000)))) := by
    intro x c hx
    simp only [exec, mapSocket_run x u c (hx _) (hx _)]
  have hr : exec (removeSocket u) w = w.put (socketKey u) none := by
    simp only [exec, removeSocket_run w u (hup _)]
  have hget : ∀ (x : World) (c : String), x.down = w.down → x.now = w.now →
      ((getSocket u).run ((x.put (socketKey u)
        (some (Entry.mk (RVal.str c) (some (x.now + 86400 * 1000))))).atTime t)).1
        = Except.ok (some c) := by
    intro x c hd hn
    rw [getSocket_result]
    have h1 : x.down (Call.redis RedisCmd.get) = false := by
      rw [hd]; exact hup _
    have h2 : t ≤ x.now + 86400000 := by rw [hn]; exact ht2
    simp [h1, lookup, World.atTime, Entry.live, h2]
  refine ⟨?_, ?_, ?_, ?_⟩
  · rw [hm w c1 hup]
    exact hget w c1 rfl rfl
  · rw [hm w c1 hup, hm _ c2 (by intro c; exact hup c), put_put]
    exact hget _ c2 rfl rfl
  · rw [hr, getSocket_result]
    have h1 : w.down (Call.redis RedisCmd.get) = false := hup _
    simp [h1, lookup, World.atTime]
  · intro v hv
    have hk : socketKey v ≠ socketKey u := fun h => hv (socketKey_inj _ _ h)
    refine ⟨?_, ?_, ?_⟩
    · rw [hm w c1 hup]; exact put_redis_other _ _ _ _ hk
    · rw [hr]; exact put_redis_other _ _ _ _ hk
    · rw [getSocket_exec]

/-- Witness for C13: Carol is mapped twice and Alice is removed on the sample
server, read one second later; Bob's entry is untouched. -/
theorem directory_laws_witness :
    ((getSocket carol).run ((exec (mapSocket carol "s1") demoWorld).atTime 2000)).1
        = Except.ok (some "s1") ∧
      ((getSocket carol).run
        ((exec (mapSocket carol "s2") (exec (mapSocket carol "s1") demoWorld)).atTime 2000)).1
        = Except.ok (some "s2") ∧
      ((getSocket alice).run ((exec (removeSocket alice) demoWorld).atTime 2000)).1
        = Except.ok none ∧
      (exec (removeSocket alice) demoWorld).redis (socketKey bob)
        = demoWorld.redis (socketKey bob) :=
  ⟨(directory_laws demoWorld carol "s1" "s2" 2000 demoWorld_allUp (by decide)).1,
    (directory_laws demoWorld carol "s1" "s2" 2000 demoWorld_allUp (by decide)).2.1,
    (directory_laws demoWorld alice "s1" "s2" 2000 demoWorld_allUp (by decide)).2.2.1,
    ((directory_laws demoWorld alice "s1" "s2" 2000 demoWorld_allUp (by decide)).2.2.2
      bob (by decide)).2.1⟩

/-- C14 (failing input). Carol connects while the store's `EXPIRE` fails: the
`SET` of `mapSocket` has already written `socket:<carol>`, the handler's `catch`
closes the connection, and the `disconnect` listener that would remove the entry
is not registered yet. Afterwards the server has no connection and no heartbeat,
nobody was told anything, and the directory names the closed connection `sock9`
with no expiry at all, at every later time. On the sample server with the store
up, connect followed by disconnect leaves no entry. -/
theorem stale_entry_after_failed_setup :
    flakyWorld.conns = [] ∧ lookup flakyWorld (socketKey carol) = none ∧
      (exec (handleConnection "sock9" (some "token-carol")) flakyWorld).conns = [] ∧
      (exec (handleConnection "sock9" (some "token-carol")) flakyWorld).timers = [] ∧
      (exec (handleConnection "sock9" (some "token-carol")) flakyWorld).out = [] ∧
      lookup (exec (handleConnection "sock9" (some "token-carol")) flakyWorld) (socketKey carol)
        = some (Entry.mk (RVal.str "sock9") none) ∧
      (∀ t : Time,
        ((getSocket carol).run
          ((exec (handleConnection "sock9" (some "token-carol")) flakyWorld).atTime t)).1
          = Except.ok (some "sock9")) ∧
      lookup (exec (handleDisconnect "sock9")
          (exec (handleConnection "sock9" (some "token-carol")) demoWorld)) (socketKey carol)
        = none := by
  refine ⟨rfl, rfl, rfl, rfl, rfl, rfl, fun _ => rfl, rfl⟩

/-- C15 (amended). The online marker is set at connect and at each heartbeat, for
30 s each time. If consecutive settings are at most 20 s apart (heartbeats every
10 s, one of them possibly missed), `isUserOnline` returns `true` at every instant
from connect to the last heartbeat; it returns `true` at every instant less than
30 s after a setting, and `false` at every instant more than 30 s after the last
setting. -/
theorem online_while_heartbeats (w : World) (u : String)
    (hsetex : w.down (Call.redis RedisCmd.setex) = false)
    (hex : w.down (Call.redis RedisCmd.exists) = false) :
    (∀ (t0 : Time) (rest : List Time) (t : Time),
        List.Chain (fun a b => a < b ∧ b ≤ a + 20000) t0 rest →
        t0 ≤ t → (∃ tn ∈ t0 :: rest, t ≤ tn) →
        ((isUserOnline u).run
          ((onlineRun u w ((t0 :: rest).filter (fun x => decide (x ≤ t)))).atTime t)).1
          = Except.ok true) ∧
      (∀ (pre : List Time) (tk t : Time), t < tk + 30000 →
        ((isUserOnline u).run ((onlineRun u w (pre ++ [tk])).atTime t)).1 = Except.ok true) ∧
      (∀ (pre : List Time) (tl t : Time), tl + 30000 < t →
        ((isUserOnline u).run ((onlineRun u w (pre ++ [tl])).atTime t)).1 = Except.ok false) := by
  refine ⟨?_, ?_, ?_⟩
  · intro t0 rest t hc h0 hn
    obtain ⟨pre, tk, hf, hk1, hk2⟩ := latest_heartbeat t rest t0 hc h0 hn
    rw [hf, online_at u w pre tk t hsetex hex]
    have : t ≤ tk + 30000 := by linarith
    simp [this]
  · intro pre tk t ht
    rw [online_at u w pre tk t hsetex hex]
    have : t ≤ tk + 30000 := le_of_lt ht
    simp [this]
  · intro pre tl t ht
    rw [online_at u w pre tl t hsetex hex]
    have : ¬ (t ≤ tl + 30000) := not_le.mpr ht
    simp [this]

/-- Witness for C15: heartbeats at 0 s, 10 s, 30 s and 40 s (the one at 20 s is
missed), asked at 29.999 s; and a last setting at 20 s, asked at 49.999 s and at
50.001 s. -/
theorem online_while_heartbeats_witness :
    ((isUserOnline "u1").run
        ((onlineRun "u1" emptyWorld
          (([0, 10000, 30000, 40000] : List Time).filter (fun x => decide (x ≤ 29999)))).atTime
            29999)).1 = Except.ok true ∧
      ((isUserOnline "u1").run ((onlineRun "u1" emptyWorld ([0, 10000] ++ [20000])).atTime
        49999)).1 = Except.ok true ∧
      ((isUserOnline "u1").run ((onlineRun "u1" emptyWorld ([0, 10000] ++ [20000])).atTime
        50001)).1 = Except.ok false :=
  ⟨(online_while_heartbeats emptyWorld "u1" rfl rfl).1 0 [10000, 30000, 40000] 29999
      (List.Chain.cons ⟨by decide, by decide⟩ (List.Chain.cons ⟨by decide, by decide⟩
        (List.Chain.cons ⟨by decide, by decide⟩ List.Chain.nil)))
      (by decide) ⟨30000, by decide, by decide⟩,
    (online_while_heartbeats emptyWorld "u1" rfl rfl).2.1 [0, 10000] 20000 49999 (by decide),
    (online_while_heartbeats emptyWorld "u1" rfl rfl).2.2 [0, 10000] 20000 50001 (by decide)⟩

/-- Counterexample to C15 as stated: exactly 30 s after the only `setUserOnline`
the marker still exists (the store expires a key once the clock is past its expiry
time) and `isUserOnline` returns `true`; one millisecond later it returns `false`. -/
theorem online_at_exactly_30_seconds :
    ((isUserOnline "u1").run ((onlineRun "u1" emptyWorld [0]).atTime 30000)).1
        = Except.ok true ∧
      ((isUserOnline "u1").run ((onlineRun "u1" emptyWorld [0]).atTime 30001)).1
        = Except.ok false := by
  refine ⟨rfl, rfl⟩

/-- C16. In every state of the store, `isUserOnline u` returns whether the marker
`user:online:<u>` exists (or fails when `EXISTS` does); `mapSocket` and
`removeSocket`, for `u` or any other user, leave its result unchanged, and
`setUserOnline` leaves the result of `getSocket u` unchanged. -/
theorem online_marker_independent (w : World) (u v c : String) :
    ((isUserOnline u).run w).1
        = (if w.down (Call.redis RedisCmd.exists) = true then
            Except.error "collaborator unavailable"
          else Except.ok (lookup w (onlineKey u)).isSome) ∧
      ((isUserOnline u).run (exec (mapSocket v c) w)).1 = ((isUserOnline u).run w).1 ∧
      ((isUserOnline u).run (exec (removeSocket v) w)).1 = ((isUserOnline u).run w).1 ∧
      ((getSocket u).run (exec (setUserOnline v) w)).1 = ((getSocket u).run w).1 := by
  refine ⟨isUserOnline_result w u, ?_, ?_, ?_⟩
  · obtain ⟨e, he⟩ := keeps_touch_mapSocket v c w
    rw [isUserOnline_result, isUserOnline_result]
    simp only [exec, he, put_down]
    rw [lookup_put_other _ _ _ _ (Ne.symm (socketKey_ne_onlineKey v u))]
  · obtain ⟨e, he⟩ := keeps_touch_removeSocket v w
    rw [isUserOnline_result, isUserOnline_result]
    simp only [exec, he, put_down]
    rw [lookup_put_other _ _ _ _ (Ne.symm (socketKey_ne_onlineKey v u))]
  · obtain ⟨e, he⟩ := keeps_touch_setUserOnline v w
    rw [getSocket_result, getSocket_result]
    simp only [exec, he, put_down]
    rw [lookup_put_other _ _ _ _ (socketKey_ne_onlineKey u v)]

/-- C17. For a `typing` event `{to, isTyping}` from the connection `s`: when the
directory resolves a connection for `to`, the handler emits exactly one
`typing_status {userId: s.userId, isTyping}`, to that connection, and changes
nothing else; when it resolves none, the world is left exactly as it was (no
event, no error, no record, no store entry). -/
theorem typing_relay (w : World) (s : Socket) (to_ : String) (isTyping : Bool) :
    (∀ (sid : String) (ex : Option Time),
        w.down (Call.redis RedisCmd.get) = false →
        lookup w (socketKey to_) = some (Entry.mk (RVal.str sid) ex) → sid ≠ "" →
        (onTyping s to_ isTyping).run w
          = (Except.ok (), { w with out := (w.out ++
              [Emission.mk (Target.room sid) (Event.typing_status s.userId isTyping)]) })) ∧
      ((lookup w (socketKey to_) = none ∨
          ∃ ex, lookup w (socketKey to_) = some (Entry.mk (RVal.str "") ex)) →
        (onTyping s to_ isTyping).run w = (Except.ok (), w)) := by
  refine ⟨?_, ?_⟩
  · intro sid ex hget hl hsid
    simp [onTyping, Eff.run_tryCatch, Eff.run_bind, getSocket, Redis.get, call, hget, hl,
      truthy, hsid, emit]
  · intro h
    by_cases hd : w.down (Call.redis RedisCmd.get) = true
    · simp [onTyping, Eff.run_tryCatch, Eff.run_bind, getSocket, Redis.get, call, hd]
    · have hd2 : w.down (Call.redis RedisCmd.get) = false := by simpa using hd
      rcases h with h | ⟨ex, h⟩ <;>
        simp [onTyping, Eff.run_tryCatch, Eff.run_bind, getSocket, Redis.get, call, hd2, h,
          truthy]

/-- Witness for C17: Alice types to Bob, who is connected, and to Carol, who is
not. -/
theorem typing_relay_witness :
    (onTyping sockA bob true).run demoWorld
        = (Except.ok (), { demoWorld with out := (demoWorld.out ++
            [Emission.mk (Target.room "sockB") (Event.typing_status alice true)]) }) ∧
      (onTyping sockA carol true).run demoWorld = (Except.ok (), demoWorld) :=
  ⟨(typing_relay demoWorld sockA bob true).1 "sockB" none rfl rfl (by decide),
    (typing_relay demoWorld sockA carol true).2 (Or.inl rfl)⟩

/-- C18 (amended). For a `join_group` whose `groupId` casts to an identifier, with
the document store up: when no such group exists or the user is not in its member
list, the connection is sent `error` with `Not a member of this group` and nothing
else changes (it joins no room, no set is written); when the user is a member (and
`SADD` goes through on a key that holds a set or is absent), the connection is
joined to the room `group:<groupId>`, the user is in the set
`group:members:<groupId>`, and nothing is emitted. -/
theorem join_group_membership (w : World) (s : Socket) (groupId oid : String)
    (hdb : w.down (Call.db DbOp.groupFindById) = false)
    (hc : castObjectId groupId = some oid) :
    ((∀ g, w.groups.find? (fun x => decide (x._id = oid)) = some g → s.userId ∉ g.members) →
        (onJoinGroup s groupId).run w
          = (Except.ok (), { w with out := (w.out ++
              [Emission.mk (Target.socket s.id) (Event.error "Not a member of this group")]) })) ∧
      (∀ g, w.groups.find? (fun x => decide (x._id = oid)) = some g → s.userId ∈ g.members →
        w.down (Call.redis RedisCmd.sadd) = false → setOrAbsent w (groupMembersKey groupId) →
        (exec (onJoinGroup s groupId) w).conns
            = w.conns.map (fun c => if c.id = s.id then
                (if groupRoom groupId ∈ c.rooms then c
                 else { c with rooms := c.rooms ++ [groupRoom groupId] }) else c) ∧
          s.userId ∈ setMembers (exec (onJoinGroup s groupId) w) (groupMembersKey groupId) ∧
          (exec (onJoinGroup s groupId) w).out = w.out) := by
  refine ⟨?_, ?_⟩
  · intro h
    exact joinGroup_notMember w s groupId oid hdb hc (notMember_of_absent _ _ h)
  · intro g hg hm hsadd hk
    have hn : notMember (w.groups.find? (fun x => decide (x._id = oid))) s.userId = false := by
      rw [hg]; exact notMember_of_member g _ hm
    exact (joinGroup_member w s groupId oid hdb hsadd hc hn hk).2

/-- Witness for C18: Dave, who is not a member of the team, and Alice, who is,
both ask to join it. -/
theorem join_group_membership_witness :
    (onJoinGroup sockD team).run processOne
        = (Except.ok (), { processOne with out := (processOne.out ++
            [Emission.mk (Target.socket "sockD") (Event.error "Not a member of this group")]) }) ∧
      (exec (onJoinGroup sockA team) processOne).conns
        = [Conn.mk "sockA" alice ["sockA", alice, groupRoom team] true,
           Conn.mk "sockD" dave ["sockD", dave] true] ∧
      alice ∈ setMembers (exec (onJoinGroup sockA team) processOne) (groupMembersKey team) :=
  ⟨(join_group_membership processOne sockD team team rfl (by decide)).1
      (by intro g hg; cases hg; decide),
    ((join_group_membership processOne sockA team team rfl (by decide)).2 teamGroup rfl
      (by decide) rfl (by intro e he; cases he)).1.trans rfl,
    ((join_group_membership processOne sockA team team rfl (by decide)).2 teamGroup rfl
      (by decide) rfl (by intro e he; cases he)).2.1⟩

/-- Counterexample to C18 as stated: there is no group `general` and every
collaborator is up, yet `join_group {groupId: "general"}` sends the connection
nothing: the lookup throws a cast error, which the handler's `catch` only logs. -/
theorem join_unknown_group_silent :
    castObjectId "general" = none ∧
      (∀ g ∈ processOne.groups, g._id ≠ "general") ∧
      AllUp processOne ∧
      (onJoinGroup sockD "general").run processOne = (Except.ok (), processOne) ∧
      (exec (onJoinGroup sockD "general") processOne).out = [] := by
  refine ⟨by decide, by decide, fun _ => rfl, ?_, ?_⟩
  · exact joinGroup_uncastable processOne sockD "general" (by decide)
  · rw [exec, joinGroup_uncastable processOne sockD "general" (by decide)]
    rfl

/-- C19 (amended). A `group_message` from a member of the group, with a `text`
that is not blank after trimming, allowed by the limiter (30 per 60 s) and with
every collaborator up, creates exactly one `GroupMessage` record (trimmed text,
`readBy` holding exactly the sender) and publishes exactly one payload
`{id, groupId, from, text, timestamp}` on the channel `group:<groupId>`, and emits
nothing itself. From a sender who is not a member, or for a group that does not
exist, it creates no record, publishes nothing and sends the sender exactly one
`error` event, whatever the state of the collaborators. -/
theorem group_message_persist_publish (w : World) (s : Socket) (groupId text : String) :
    (∀ (f g : String) (grp : GroupDoc),
        AllUp w → castObjectId s.userId = some f → castObjectId groupId = some g →
        jsTrim text ≠ "" →
        counterOrAbsent w (rateKey s.userId "group_message") →
        counterOf w (rateKey s.userId "group_message") + 1 ≤ 30 →
        w.groups.find? (fun x => decide (x._id = g)) = some grp → s.userId ∈ grp.members →
        (exec (onGroupMessage s groupId text) w).groupMessages
            = w.groupMessages ++
              [GroupMessageDoc.mk (freshGroupMessageId w.groupMessages) g f (jsTrim text)
                w.now [f]] ∧
          (exec (onGroupMessage s groupId text) w).published
            = w.published ++
              [(groupRoom groupId, BusMessage.json
                (GroupMessageData.mk (freshGroupMessageId w.groupMessages) groupId
                  ((w.users.find? (fun u => decide (u._id = f))).map
                    (fun u => UserInfo.mk u._id u.name u.avatar))
                  (jsTrim text) w.now))] ∧
          (exec (onGroupMessage s groupId text) w).out = w.out) ∧
      ((∀ (oid : String) (grp : GroupDoc), castObjectId groupId = some oid →
          w.groups.find? (fun x => decide (x._id = oid)) = some grp → s.userId ∉ grp.members) →
        ∃ msg, (exec (onGroupMessage s groupId text) w).out
            = w.out ++ [Emission.mk (Target.socket s.id) (Event.error msg)] ∧
          (exec (onGroupMessage s groupId text) w).groupMessages = w.groupMessages ∧
          (exec (onGroupMessage s groupId text) w).published = w.published) := by
  refine ⟨?_, ?_⟩
  · intro f g grp hup hf hg htrim hkey hrate hfind hmem
    obtain ⟨h1, h2, h3, _⟩ := gm_valid w s groupId text f g grp hup hf hg htrim hkey hrate hfind
      (notMember_of_member grp _ hmem)
    exact ⟨h1, h2, h3⟩
  · intro h
    exact gm_rejects w s groupId text
      (fun oid hc => notMember_of_absent _ _ (fun grp hgrp => h oid grp hc hgrp))

/-- Witness for C19: Alice, a member, sends ` hello ` to the team; Dave, who is
not a member, sends `hello`. -/
theorem group_message_persist_publish_witness :
    (exec (onGroupMessage sockA team " hello ") processOne).groupMessages
        = [GroupMessageDoc.mk 1 team alice "hello" 1000 [alice]] ∧
      (exec (onGroupMessage sockA team " hello ") processOne).published
        = [(groupRoom team, BusMessage.json
            (GroupMessageData.mk 1 team (some (UserInfo.mk alice "Alice" "a.png")) "hello" 1000))] ∧
      (∃ msg, (exec (onGroupMessage sockD team "hello") processOne).out
          = processOne.out ++ [Emission.mk (Target.socket "sockD") (Event.error msg)] ∧
        (exec (onGroupMessage sockD team "hello") processOne).groupMessages = [] ∧
        (exec (onGroupMessage sockD team "hello") processOne).published = []) :=
  ⟨((group_message_persist_publish processOne sockA team " hello ").1 alice team teamGroup
      (fun _ => rfl) (by decide) (by decide) (by decide) (by intro e he; cases he) (by decide)
      rfl (by decide)).1.trans rfl,
    ((group_message_persist_publish processOne sockA team " hello ").1 alice team teamGroup
      (fun _ => rfl) (by decide) (by decide) (by decide) (by intro e he; cases he) (by decide)
      rfl (by decide)).2.1.trans rfl,
    (group_message_persist_publish processOne sockD team "hello").2
      (by
        intro oid grp hc hg
        have ho : oid = team := by
          have : castObjectId team = some team := by decide
          rw [this] at hc
          exact (Option.some.inj hc).symm
        subst ho
        cases hg
        decide)⟩

/-- Counterexample to C19 as stated: Alice is a member of the team, the limiter
allows her message and its `text` of one space is not empty; the `GroupMessage`
schema rejects the blank text, so no record is created, nothing is published and
Alice gets `Failed to send group message`. -/
theorem member_blank_group_message :
    alice ∈ teamGroup.members ∧
      (Group.findById team).run processOne = (Except.ok (some teamGroup), processOne) ∧
      " " ≠ "" ∧ team ≠ "" ∧
      ((checkRateLimit alice "group_message" 30 60).run processOne).1 = Except.ok true ∧
      (exec (onGroupMessage sockA team " ") processOne).groupMessages = [] ∧
      (exec (onGroupMessage sockA team " ") processOne).published = [] ∧
      (exec (onGroupMessage sockA team " ") processOne).out
        = [Emission.mk (Target.socket "sockA") (Event.error "Failed to send group message")] := by
  refine ⟨by decide, rfl, by decide, by decide, rfl, rfl, rfl, rfl⟩

/-- C20. For every decoded payload received on a channel, the subscriber emits
`group_message_received` with that payload exactly once, to the room named by the
channel; such an emission reaches a connection exactly when the connection is in
that room. `join_group` puts a member's connection in the room `group:<groupId>`
and `join_my_groups` in the room `group:<id>` of every group the user is a member
of, the name of the channel `group_message` publishes on. Hence, with the sender's
connection in the room on one process and two connections in the room on another
process, one valid group message is published once, and each process, on receiving
it, delivers `group_message_received` exactly once to each of the three
connections and nothing to a connection outside the room. -/
theorem group_fanout :
    (∀ (w : World) (channel : String) (data : GroupMessageData),
        (onPMessage channel (BusMessage.json data)).run w
          = (Except.ok (), { w with out := (w.out ++
              [Emission.mk (Target.room channel) (Event.group_message_received data)]) })) ∧
      (∀ (conns : List Conn) (channel sid : String) (data : GroupMessageData),
        deliveredTo conns
            [Emission.mk (Target.room channel) (Event.group_message_received data)] sid
          = if (∃ c ∈ conns, c.id = sid ∧ channel ∈ c.rooms) then
              [Event.group_message_received data]
            else []) ∧
      (∀ (w : World) (s : Socket) (groupId oid : String) (g : GroupDoc),
        w.down (Call.db DbOp.groupFindById) = false →
        w.down (Call.redis RedisCmd.sadd) = false →
        castObjectId groupId = some oid →
        w.groups.find? (fun x => decide (x._id = oid)) = some g → s.userId ∈ g.members →
        setOrAbsent w (groupMembersKey groupId) →
        ∀ c ∈ (exec (onJoinGroup s groupId) w).conns, c.id = s.id →
          groupRoom groupId ∈ c.rooms) ∧
      (∀ (w : World) (s : Socket) (f : String) (g : GroupDoc),
        w.down (Call.db DbOp.groupFind) = false →
        castObjectId s.userId = some f → g ∈ w.groups → f ∈ g.members →
        ∀ c ∈ (exec (onJoinMyGroups s) w).conns, c.id = s.id → groupRoom g._id ∈ c.rooms) ∧
      (∀ (p1 p2 : World) (s : Socket) (b c gid text f g : String) (grp : GroupDoc),
        AllUp p1 → castObjectId s.userId = some f → castObjectId gid = some g →
        jsTrim text ≠ "" →
        counterOrAbsent p1 (rateKey s.userId "group_message") →
        counterOf p1 (rateKey s.userId "group_message") + 1 ≤ 30 →
        p1.groups.find? (fun x => decide (x._id = g)) = some grp → s.userId ∈ grp.members →
        (∃ x ∈ p1.conns, x.id = s.id ∧ groupRoom gid ∈ x.rooms) →
        (∃ x ∈ p2.conns, x.id = b ∧ groupRoom gid ∈ x.rooms) →
        (∃ x ∈ p2.conns, x.id = c ∧ groupRoom gid ∈ x.rooms) →
        ∃ data : GroupMessageData,
          (exec (onGroupMessage s gid text) p1).published
              = p1.published ++ [(groupRoom gid, BusMessage.json data)] ∧
            deliveredTo (exec (onGroupMessage s gid text) p1).conns
                (newEmissions p1 (receivePublished (exec (onGroupMessage s gid text) p1)
                  (groupRoom gid, BusMessage.json data))) s.id
              = [Event.group_message_received data] ∧
            deliveredTo p2.conns
                (newEmissions p2 (receivePublished p2 (groupRoom gid, BusMessage.json data))) b
              = [Event.group_message_received data] ∧
            deliveredTo p2.conns
                (newEmissions p2 (receivePublished p2 (groupRoom gid, BusMessage.json data))) c
              = [Event.group_message_received data] ∧
            (∀ sid : String, (¬ ∃ x ∈ p2.conns, x.id = sid ∧ groupRoom gid ∈ x.rooms) →
              deliveredTo p2.conns
                (newEmissions p2 (receivePublished p2 (groupRoom gid, BusMessage.json data))) sid
                = [])) := by
  refine ⟨onPMessage_json, ?_, ?_, ?_, ?_⟩
  · intro conns channel sid data
    exact deliveredTo_single_room conns channel sid _
  · intro w s groupId oid g hdb hsadd hc hg hm hk c hmem hid
    have hn : notMember (w.groups.find? (fun x => decide (x._id = oid))) s.userId = false := by
      rw [hg]; exact notMember_of_member g _ hm
    exact joinGroup_room w s groupId oid hdb hsadd hc hn hk c hmem hid
  · intro w s f g hdb hf hg hm c hmem hid
    exact joinMyGroups_room w s f g hdb hf hg hm c hmem hid
  · intro p1 p2 s b c gid text f g grp hup hf hg htrim hkey hrate hfind hmem ha hb hc
    obtain ⟨_, hpub, hout, hconns⟩ := gm_valid p1 s gid text f g grp hup hf hg htrim hkey hrate
      hfind (notMember_of_member grp _ hmem)
    refine ⟨_, hpub, ?_, ?_, ?_, ?_⟩
    · rw [hconns, newEmissions_append p1 _ [_] (by rw [receivePublished_json, ← hout]),
        deliveredTo_single_room, if_pos ha]
    · rw [newEmissions_append p2 _ [_] (by rw [receivePublished_json]),
        deliveredTo_single_room, if_pos hb]
    · rw [newEmissions_append p2 _ [_] (by rw [receivePublished_json]),
        deliveredTo_single_room, if_pos hc]
    · intro sid hs
      rw [newEmissions_append p2 _ [_] (by rw [receivePublished_json]),
        deliveredTo_single_room, if_neg hs]

/-- Witness for C20: Alice joined the team's room on the first process, Bob
(`join_group`) and Carol (`join_my_groups`) on the second; Alice sends `hello`. -/
theorem group_fanout_witness :
    ∃ data : GroupMessageData,
      (exec (onGroupMessage sockA team "hello") joinedOne).published
          = joinedOne.published ++ [(groupRoom team, BusMessage.json data)] ∧
        deliveredTo (exec (onGroupMessage sockA team "hello") joinedOne).conns
            (newEmissions joinedOne (receivePublished (exec (onGroupMessage sockA team "hello")
              joinedOne) (groupRoom team, BusMessage.json data))) sockA.id
          = [Event.group_message_received data] ∧
        deliveredTo joinedTwo.conns
            (newEmissions joinedTwo
              (receivePublished joinedTwo (groupRoom team, BusMessage.json data))) "sockB"
          = [Event.group_message_received data] ∧
        deliveredTo joinedTwo.conns
            (newEmissions joinedTwo
              (receivePublished joinedTwo (groupRoom team, BusMessage.json data))) "sockC"
          = [Event.group_message_received data] ∧
        (∀ sid : String, (¬ ∃ x ∈ joinedTwo.conns, x.id = sid ∧ groupRoom team ∈ x.rooms) →
          deliveredTo joinedTwo.conns
            (newEmissions joinedTwo
              (receivePublished joinedTwo (groupRoom team, BusMessage.json data))) sid
            = []) :=
  group_fanout.2.2.2.2 joinedOne joinedTwo sockA "sockB" "sockC" team "hello" alice team teamGroup
    (fun _ => rfl) (by decide) (by decide) (by decide) (by intro e he; cases he) (by decide)
    rfl (by decide)
    ⟨Conn.mk "sockA" alice ["sockA", alice, groupRoom team] true, by decide, rfl, by decide⟩
    ⟨Conn.mk "sockB" bob ["sockB", bob, groupRoom team] true, by decide, rfl, by decide⟩
    ⟨Conn.mk "sockC" carol ["sockC", carol, groupRoom team] true, by decide, rfl, by decide⟩

/-! ## Claims on failures, one-time codes, routes and groups, witnesses and counterexamples -/

/-- C21. For every stored group message, with the document store up,
`group_message_read` from a connection leaves the message with the reader's
identity in `readBy` (appended when it was not there) and every earlier reader
still in it, changes no other group message, and handling the same event a second
time leaves the whole world, `readBy` included, unchanged. -/
theorem group_read_union (w : World) (s : Socket) (id : Nat) (m : GroupMessageDoc) (f : String)
    (hdb : w.down (Call.db DbOp.groupMessageUpdateOne) = false)
    (hf : castObjectId s.userId = some f)
    (hm : findGroupMessage w id = some m) :
    findGroupMessage (exec (onGroupMessageRead s (RawId.castable id)) w) id
        = some { m with readBy := if f ∈ m.readBy then m.readBy else m.readBy ++ [f] } ∧
      f ∈ (if f ∈ m.readBy then m.readBy else m.readBy ++ [f]) ∧
      (∀ x ∈ m.readBy, x ∈ (if f ∈ m.readBy then m.readBy else m.readBy ++ [f])) ∧
      (∀ id2 : Nat, id2 ≠ id →
        findGroupMessage (exec (onGroupMessageRead s (RawId.castable id)) w) id2
          = findGroupMessage w id2) ∧
      exec (onGroupMessageRead s (RawId.castable id))
          (exec (onGroupMessageRead s (RawId.castable id)) w)
        = exec (onGroupMessageRead s (RawId.castable id)) w := by
  have hfind : findGroupMessage (exec (onGroupMessageRead s (RawId.castable id)) w) id
      = some { m with readBy := if f ∈ m.readBy then m.readBy else m.readBy ++ [f] } := by
    rw [exec, groupRead_run w s id f hdb hf]
    show List.find? _ (updateFirstOf _ _ w.groupMessages) = _
    rw [find_updateFirstOf]
    · have hm2 : w.groupMessages.find? (fun d => decide (d._id = id)) = some m := hm
      rw [hm2]
      by_cases hin : f ∈ m.readBy
      · simp [hin]
      · simp [hin]
    · intro d hd
      by_cases hin : f ∈ d.readBy
      · simpa [hin] using hd
      · simpa [hin] using hd
  refine ⟨hfind, ?_, ?_, ?_, ?_⟩
  · by_cases hin : f ∈ m.readBy
    · simp [hin]
    · simp [hin]
  · intro x hx
    by_cases hin : f ∈ m.readBy
    · simpa [hin] using hx
    · simp [hin, hx]
  · intro id2 hne
    rw [exec, groupRead_run w s id f hdb hf]
    show List.find? _ (updateFirstOf _ _ w.groupMessages) = List.find? _ w.groupMessages
    apply find_updateFirstOf_other
    · intro d
      by_cases hin : f ∈ d.readBy
      · simp [hin]
      · simp [hin]
    · intro d hd
      have : d._id = id := by simpa using hd
      simp [this, Ne.symm hne]
  · obtain ⟨w1, hw1⟩ : ∃ w1 : World, w1 = exec (onGroupMessageRead s (RawId.castable id)) w :=
      ⟨_, rfl⟩
    rw [← hw1] at hfind ⊢
    have hdb1 : w1.down (Call.db DbOp.groupMessageUpdateOne) = false := by
      rw [hw1, exec, groupRead_run w s id f hdb hf]; exact hdb
    rw [exec, groupRead_run w1 s id f hdb1 hf]
    have hid : updateFirstOf (fun d => decide (d._id = id))
        (fun d => if f ∈ d.readBy then d else { d with readBy := d.readBy ++ [f] })
        w1.groupMessages = w1.groupMessages := by
      apply updateFirstOf_id
      intro d hd
      have hd2 : findGroupMessage w1 id = some d := hd
      rw [hfind] at hd2
      have hd3 := (Option.some.inj hd2).symm
      subst hd3
      by_cases hin : f ∈ m.readBy
      · simp [hin]
      · simp [hin]
    simp only [hid]

/-- Witness for C21: Bob reads, twice, the message Alice sent to the team. -/
theorem group_read_union_witness :
    findGroupMessage (exec (onGroupMessageRead sockB (RawId.castable 1)) groupChatWorld) 1
        = some (GroupMessageDoc.mk 1 team alice "hello" 1000 [alice, bob]) ∧
      exec (onGroupMessageRead sockB (RawId.castable 1))
          (exec (onGroupMessageRead sockB (RawId.castable 1)) groupChatWorld)
        = exec (onGroupMessageRead sockB (RawId.castable 1)) groupChatWorld :=
  ⟨(group_read_union groupChatWorld sockB 1 (GroupMessageDoc.mk 1 team alice "hello" 1000 [alice])
      bob rfl (by decide) rfl).1.trans rfl,
    (group_read_union groupChatWorld sockB 1 (GroupMessageDoc.mk 1 team alice "hello" 1000 [alice])
      bob rfl (by decide) rfl).2.2.2.2⟩

/-- C22 (amended). When the call of the rate limiter throws (as it does whenever
`INCR` fails), every caller fails closed. The `private_message` and
`group_message` handlers persist, publish and deliver nothing and send the sender
`Failed to send message`, respectively `Failed to send group message`; `sendOTP`
(outside development mode) passes the error on, stores no OTP and sends no SMS. -/
theorem limiter_failure_fails_closed (w w1 : World) (e : String) :
    (∀ (s : Socket) (to_ text : String), text ≠ "" → to_ ≠ "" →
        (checkRateLimit s.userId "send_message" 20 60).run w = (Except.error e, w1) →
        (onPrivateMessage s to_ text).run w
            = (Except.ok (), { w1 with out := (w1.out ++
                [Emission.mk (Target.socket s.id) (Event.error "Failed to send message")]) }) ∧
          w1.messages = w.messages ∧ w1.out = w.out) ∧
      (∀ (s : Socket) (groupId text : String), text ≠ "" → groupId ≠ "" →
        (checkRateLimit s.userId "group_message" 30 60).run w = (Except.error e, w1) →
        (onGroupMessage s groupId text).run w
            = (Except.ok (), { w1 with out := (w1.out ++
                [Emission.mk (Target.socket s.id)
                  (Event.error "Failed to send group message")]) }) ∧
          w1.groupMessages = w.groupMessages ∧ w1.published = w.published ∧ w1.out = w.out) ∧
      (∀ (otp m : String) (mobile : Option String), truthy mobile = some m → isE164 m = true →
        (checkRateLimit m "send_otp" 3 3600).run w = (Except.error e, w1) →
        (AuthController.sendOTP false otp mobile).run w = (Except.error e, w1) ∧
          w1.sms = w.sms ∧ w1.redis (otpKey m) = w.redis (otpKey m)) ∧
      (∀ (u a : String) (l n : Int), w.down (Call.redis RedisCmd.incr) = true →
        (checkRateLimit u a l n).run w = (Except.error "collaborator unavailable", w)) := by
  refine ⟨?_, ?_, ?_, ?_⟩
  · intro s to_ text ht hto h
    obtain ⟨x, hx⟩ := keeps_touch_checkRateLimit s.userId "send_message" 20 60 w
    rw [h] at hx
    simp only at hx
    refine ⟨pm_rate_throws w w1 s to_ text e ht hto h, ?_, ?_⟩ <;> rw [hx] <;> rfl
  · intro s groupId text ht hg h
    obtain ⟨x, hx⟩ := keeps_touch_checkRateLimit s.userId "group_message" 30 60 w
    rw [h] at hx
    simp only at hx
    refine ⟨gm_rate_throws w w1 s groupId text e ht hg h, ?_, ?_, ?_⟩ <;> rw [hx] <;> rfl
  · intro otp m mobile hm hv h
    obtain ⟨x, hx⟩ := keeps_touch_checkRateLimit m "send_otp" 3 3600 w
    rw [h] at hx
    simp only at hx
    refine ⟨sendOTP_rate_throws w w1 otp m e mobile hm hv h, ?_, ?_⟩
    · rw [hx]; rfl
    · rw [hx]; exact put_redis_other w _ _ _ (rateKey_ne_otpKey _ _ _)
  · intro u a l n h
    exact checkRateLimit_incr_down w u a l n h

/-- Witness for C22: the three callers on the sample server while `INCR` fails. -/
theorem limiter_failure_fails_closed_witness :
    (onPrivateMessage sockA bob "hi").run limiterDown
        = (Except.ok (), { limiterDown with out := (limiterDown.out ++
            [Emission.mk (Target.socket "sockA") (Event.error "Failed to send message")]) }) ∧
      (onGroupMessage sockA team "hi").run limiterDown
        = (Except.ok (), { limiterDown with out := (limiterDown.out ++
            [Emission.mk (Target.socket "sockA")
              (Event.error "Failed to send group message")]) }) ∧
      (AuthController.sendOTP false "123456" (some "+15550001")).run limiterDown
        = (Except.error "collaborator unavailable", limiterDown) :=
  ⟨((limiter_failure_fails_closed limiterDown limiterDown "collaborator unavailable").1
      sockA bob "hi" (by decide) (by decide)
      ((limiter_failure_fails_closed limiterDown limiterDown "collaborator unavailable").2.2.2
        _ _ _ _ rfl)).1,
    ((limiter_failure_fails_closed limiterDown limiterDown "collaborator unavailable").2.1
      sockA team "hi" (by decide) (by decide)
      ((limiter_failure_fails_closed limiterDown limiterDown "collaborator unavailable").2.2.2
        _ _ _ _ rfl)).1,
    ((limiter_failure_fails_closed limiterDown limiterDown "collaborator unavailable").2.2.1
      "123456" "+15550001" (some "+15550001") rfl (by decide)
      ((limiter_failure_fails_closed limiterDown limiterDown "collaborator unavailable").2.2.2
        _ _ _ _ rfl)).1⟩

/-- Counterexample to C22 as stated: `INCR` fails and every other collaborator is
up; Alice's message to Bob, who is connected, is not persisted and not delivered,
and Alice gets `Failed to send message`. With the store up the same message is
persisted and delivered. -/
theorem limiter_down_message_not_persisted :
    limiterDown.down (Call.redis RedisCmd.incr) = true ∧
      (∀ c, c ≠ Call.redis RedisCmd.incr → limiterDown.down c = false) ∧
      (exec (onPrivateMessage sockA bob "hi") limiterDown).messages = [] ∧
      (exec (onPrivateMessage sockA bob "hi") limiterDown).out
        = [Emission.mk (Target.socket "sockA") (Event.error "Failed to send message")] ∧
      (exec (onPrivateMessage sockA bob "hi") demoWorld).messages
        = [MessageDoc.mk 1 alice bob "hi" 1000 true false none] := by
  refine ⟨rfl, ?_, rfl, rfl, rfl⟩
  intro c hc
  simp [limiterDown, hc]

/-- C23 (amended). No handler of an inbound event ever throws, whatever the state
of the collaborators. When the `try` block of `private_message` or `group_message`
throws, the handler emits after the failure exactly one event, `error` to the
originating connection, and no `error` event was emitted before the failure. When
the `try` block of `message_read`, `typing`, `join_my_groups`, `join_group`,
`leave_group` or `group_message_read` throws, the handler returns in the world of
the failure, in which nothing has been emitted: no connection receives any event. -/
theorem handler_failures_caught (w w1 : World) (e : String) (s : Socket) :
    ((∀ to_ text, ((onPrivateMessage s to_ text).run w).1 = Except.ok ()) ∧
      (∀ raw, ((onMessageRead s raw).run w).1 = Except.ok ()) ∧
      (∀ to_ b, ((onTyping s to_ b).run w).1 = Except.ok ()) ∧
      ((onJoinMyGroups s).run w).1 = Except.ok () ∧
      (∀ g, ((onJoinGroup s g).run w).1 = Except.ok ()) ∧
      (∀ g text, ((onGroupMessage s g text).run w).1 = Except.ok ()) ∧
      (∀ g, ((onLeaveGroup s g).run w).1 = Except.ok ()) ∧
      (∀ raw, ((onGroupMessageRead s raw).run w).1 = Except.ok ())) ∧
    (∀ to_ text, (privateMessageTry s to_ text).run w = (Except.error e, w1) →
      (onPrivateMessage s to_ text).run w
          = (Except.ok (), { w1 with out := (w1.out ++
              [Emission.mk (Target.socket s.id) (Event.error "Failed to send message")]) }) ∧
        NoErrOut w w1) ∧
    (∀ g text, (groupMessageTry s g text).run w = (Except.error e, w1) →
      (onGroupMessage s g text).run w
          = (Except.ok (), { w1 with out := (w1.out ++
              [Emission.mk (Target.socket s.id)
                (Event.error "Failed to send group message")]) }) ∧
        NoErrOut w w1) ∧
    (∀ raw, (messageReadTry s raw).run w = (Except.error e, w1) →
      (onMessageRead s raw).run w = (Except.ok (), w1) ∧ w1.out = w.out) ∧
    (∀ to_ b, (typingTry s to_ b).run w = (Except.error e, w1) →
      (onTyping s to_ b).run w = (Except.ok (), w1) ∧ w1.out = w.out) ∧
    ((joinMyGroupsTry s).run w = (Except.error e, w1) →
      (onJoinMyGroups s).run w = (Except.ok (), w1) ∧ w1.out = w.out) ∧
    (∀ g, (joinGroupTry s g).run w = (Except.error e, w1) →
      (onJoinGroup s g).run w = (Except.ok (), w1) ∧ w1.out = w.out) ∧
    (∀ g, (leaveGroupTry s g).run w = (Except.error e, w1) →
      (onLeaveGroup s g).run w = (Except.ok (), w1) ∧ w1.out = w.out) ∧
    (∀ raw, (groupMessageReadTry s raw).run w = (Except.error e, w1) →
      (onGroupMessageRead s raw).run w = (Except.ok (), w1) ∧ w1.out = w.out) := by
  refine ⟨⟨?_, ?_, ?_, ?_, ?_, ?_, ?_, ?_⟩, ?_, ?_, ?_, ?_, ?_, ?_, ?_, ?_⟩
  · intro to_ text
    rw [onPrivateMessage_eq]
    exact notifying_returns _ _ _ w
  · intro raw
    rw [onMessageRead_eq]
    exact silent_returns _ w
  · intro to_ b
    rw [onTyping_eq]
    exact silent_returns _ w
  · rw [onJoinMyGroups_eq]
    exact silent_returns _ w
  · intro g
    rw [onJoinGroup_eq]
    exact silent_returns _ w
  · intro g text
    rw [onGroupMessage_eq]
    exact notifying_returns _ _ _ w
  · intro g
    exact silent_returns _ w
  · intro raw
    exact silent_returns _ w
  · intro to_ text h
    rw [onPrivateMessage_eq]
    exact notifying_catch _ _ _ w w1 e (privateMessageTry_throws s to_ text) h
  · intro g text h
    rw [onGroupMessage_eq]
    exact notifying_catch _ _ _ w w1 e (groupMessageTry_throws s g text) h
  · intro raw h
    rw [onMessageRead_eq]
    exact silent_catch _ w w1 e (messageReadTry_throws s raw) h
  · intro to_ b h
    rw [onTyping_eq]
    exact silent_catch _ w w1 e (typingTry_throws s to_ b) h
  · intro h
    rw [onJoinMyGroups_eq]
    exact silent_catch _ w w1 e (joinMyGroupsTry_throws s) h
  · intro g h
    rw [onJoinGroup_eq]
    exact silent_catch _ w w1 e (joinGroupTry_throws s g) h
  · intro g h
    exact silent_catch _ w w1 e (leaveGroupTry_throws s g) h
  · intro raw h
    exact silent_catch _ w w1 e (groupMessageReadTry_throws s raw) h

/-- Witness for C23: the eight handlers on the sample server with every
collaborator down. -/
theorem handler_failures_caught_witness :
    (onPrivateMessage sockA bob "hi").run allDown
        = (Except.ok (), { allDown with out := (allDown.out ++
            [Emission.mk (Target.socket "sockA") (Event.error "Failed to send message")]) }) ∧
      (onGroupMessage sockA team "hi").run allDown
        = (Except.ok (), { allDown with out := (allDown.out ++
            [Emission.mk (Target.socket "sockA")
              (Event.error "Failed to send group message")]) }) ∧
      (onMessageRead sockA (RawId.castable 1)).run allDown = (Except.ok (), allDown) ∧
      (onTyping sockA bob true).run allDown = (Except.ok (), allDown) ∧
      (onJoinMyGroups sockA).run allDown = (Except.ok (), allDown) ∧
      (onJoinGroup sockA team).run allDown = (Except.ok (), allDown) ∧
      (onLeaveGroup sockA team).run allDown = (Except.ok (), allDown) ∧
      (onGroupMessageRead sockA (RawId.castable 1)).run allDown = (Except.ok (), allDown) :=
  ⟨((handler_failures_caught allDown allDown "collaborator unavailable" sockA).2.1
      bob "hi" rfl).1,
    ((handler_failures_caught allDown allDown "collaborator unavailable" sockA).2.2.1
      team "hi" rfl).1,
    ((handler_failures_caught allDown allDown "collaborator unavailable" sockA).2.2.2.1
      (RawId.castable 1) rfl).1,
    ((handler_failures_caught allDown allDown "collaborator unavailable" sockA).2.2.2.2.1
      bob true rfl).1,
    ((handler_failures_caught allDown allDown "collaborator unavailable" sockA).2.2.2.2.2.1
      rfl).1,
    ((handler_failures_caught allDown allDown "collaborator unavailable" sockA).2.2.2.2.2.2.1
      team rfl).1,
    ((handler_failures_caught allDown allDown "collaborator unavailable" sockA).2.2.2.2.2.2.2.1
      team rfl).1,
    ((handler_failures_caught allDown allDown "collaborator unavailable" sockA).2.2.2.2.2.2.2.2
      (RawId.castable 1) rfl).1⟩

/-- Counterexample to C23 as stated: the directory lookup of `typing` fails and
the originating connection receives no `error` event, nor does it when
`message_read`, `join_group`, `leave_group` or `group_message_read` fail. -/
theorem typing_failure_silent :
    ((getSocket bob).run allDown).1 = Except.error "collaborator unavailable" ∧
      (typingTry sockA bob true).run allDown
        = (Except.error "collaborator unavailable", allDown) ∧
      (exec (onTyping sockA bob true) allDown).out = [] ∧
      (exec (onMessageRead sockA (RawId.castable 1)) allDown).out = [] ∧
      (exec (onJoinGroup sockA team) allDown).out = [] ∧
      (exec (onLeaveGroup sockA team) allDown).out = [] ∧
      (exec (onGroupMessageRead sockA (RawId.castable 1)) allDown).out = [] := by
  refine ⟨rfl, rfl, rfl, rfl, rfl, rfl, rfl⟩

/-- C24. For every `private_message`, in every state of the collaborators: each
`message_delivered` the handler emits names a message whose persisted record has
`delivered = true` when the handler returns. When the write of the delivered
transition (`message.save()`) fails, everything before it went through and the
recipient is connected, the persisted record stays with `delivered = false` and no
`message_delivered` is emitted. -/
theorem no_phantom_delivered (w : World) (s : Socket) (to_ text : String) :
    (∀ em ∈ newEmissions w (exec (onPrivateMessage s to_ text) w), ∀ id,
        em.event = Event.message_delivered id →
        ∃ m, findMessage (exec (onPrivateMessage s to_ text) w) id = some m ∧
          m.delivered = true) ∧
      (∀ (f t sid : String) (ex : Option Time),
        w.down (Call.db DbOp.messageSave) = true →
        (∀ c, c ≠ Call.db DbOp.messageSave → w.down c = false) →
        castObjectId s.userId = some f → castObjectId to_ = some t → jsTrim text ≠ "" →
        counterOrAbsent w (rateKey s.userId "send_message") →
        counterOf w (rateKey s.userId "send_message") + 1 ≤ 20 →
        lookup w (socketKey to_) = some (Entry.mk (RVal.str sid) ex) → sid ≠ "" →
        findMessage (exec (onPrivateMessage s to_ text) w) (freshId w.messages)
            = some (MessageDoc.mk (freshId w.messages) f t (jsTrim text) w.now false false none) ∧
          (∀ em ∈ newEmissions w (exec (onPrivateMessage s to_ text) w), ∀ id,
            em.event ≠ Event.message_delivered id)) := by
  refine ⟨?_, ?_⟩
  · obtain ⟨l, hl, hd⟩ := onPrivateMessage_sound w s to_ text
    rw [newEmissions_append w _ l hl]
    exact hd
  · intro f t sid ex hsave hup hf ht htrim hkey hrate hsock hsid
    obtain ⟨w1, hrl, _, _, _, hfr, hnow, hmsg, husers, _, hout, hdown, _⟩ :=
      checkRateLimit_effect w s.userId "send_message" 20 60
        (hup _ (by decide)) (hup _ (by decide)) hkey
    rw [decide_eq_true hrate] at hrl
    have hs1 : lookup w1 (socketKey to_) = some (Entry.mk (RVal.str sid) ex) := by
      rw [lookup_frame w w1 _ (hfr _ (rateKey_ne_socketKey _ _ _)) hnow]
      exact hsock
    have hrun := pm_save_fails_after_rate w w1 s to_ text f t sid ex hrl
      (by rw [hdown]; exact hup _ (by decide)) (by rw [hdown]; exact hup _ (by decide))
      (by rw [hdown]; exact hup _ (by decide)) (by rw [hdown]; exact hsave)
      hf ht htrim hs1 hsid
    have hfresh : ∀ x ∈ w.messages, x._id ≠ freshId w.messages :=
      fun x hx => Nat.ne_of_lt (freshId_gt _ x hx)
    simp only [exec, hrun, hmsg, hout, husers, hnow]
    refine ⟨?_, ?_⟩
    · exact findMessage_append_fresh _ w.messages
        (MessageDoc.mk (freshId w.messages) f t (jsTrim text) w.now false false none) rfl hfresh
    · rw [newEmissions_append w _ _ rfl]
      intro em hem id h
      rcases List.mem_cons.mp hem with h1 | h1
      · rw [h1] at h; cases h
      · rw [List.mem_singleton.mp h1] at h; cases h

/-- Witness for C24: Alice's message to Bob on the sample server, with the
document store up and with `save` failing. -/
theorem no_phantom_delivered_witness :
    (∃ m, findMessage (exec (onPrivateMessage sockA bob "hi") demoWorld) 1 = some m ∧
        m.delivered = true) ∧
      findMessage (exec (onPrivateMessage sockA bob "hi") saveDown) (freshId saveDown.messages)
        = some (MessageDoc.mk (freshId saveDown.messages) alice bob (jsTrim "hi") saveDown.now
            false false none) :=
  ⟨(no_phantom_delivered demoWorld sockA bob "hi").1
      (Emission.mk (Target.socket "sockA") (Event.message_delivered 1)) (by decide) 1 rfl,
    ((no_phantom_delivered saveDown sockA bob "hi").2 alice bob "sockB" none rfl
      (by intro c hc; simp [saveDown, hc]) (by decide) (by decide) (by decide)
      (by intro e he; cases he) (by decide) rfl (by decide)).1⟩

/-- C25 (failing input). An OTP stored at time 0, a wrong code tried at 200 s, the
correct code presented at 400 s: `verifyOTP` returns `valid: true`, because the
wrong attempt rewrote the record with a fresh expiry of 300 s. Without the wrong
attempt the same call returns `expired`. -/
theorem otp_valid_after_wrong_attempt :
    ((verifyOTP "+15550001" "000000").run
        ((exec (storeOTP "+15550001" "123456") emptyWorld).atTime 200000)).1
      = Except.ok (OtpResult.mk false (some "invalid") "Invalid OTP. 2 attempts remaining.") ∧
    ((verifyOTP "+15550001" "123456").run
        ((exec (verifyOTP "+15550001" "000000")
          ((exec (storeOTP "+15550001" "123456") emptyWorld).atTime 200000)).atTime 400000)).1
      = Except.ok (OtpResult.mk true none "OTP verified successfully") ∧
    ((verifyOTP "+15550001" "123456").run
        ((exec (storeOTP "+15550001" "123456") emptyWorld).atTime 400000)).1
      = Except.ok (OtpResult.mk false (some "expired")
          "OTP has expired. Please request a new one.") := by
  refine ⟨rfl, rfl, rfl⟩

/-- C26. With the store up, `storeOTP` followed at most 300 s later by `verifyOTP`
with the same code returns `valid: true` and removes the stored OTP; a `verifyOTP`
with the same code after that, at any time, returns `valid: false` with reason
`expired`. -/
theorem otp_single_use (w : World) (m otp : String) (t t2 : Time)
    (hsetex : w.down (Call.redis RedisCmd.setex) = false)
    (hget : w.down (Call.redis RedisCmd.get) = false)
    (hdel : w.down (Call.redis RedisCmd.del) = false)
    (ht : t ≤ w.now + 300000) :
    ((verifyOTP m otp).run ((exec (storeOTP m otp) w).atTime t)).1
        = Except.ok (OtpResult.mk true none "OTP verified successfully") ∧
      lookup (exec (verifyOTP m otp) ((exec (storeOTP m otp) w).atTime t)) (otpKey m) = none ∧
      ((verifyOTP m otp).run
          ((exec (verifyOTP m otp) ((exec (storeOTP m otp) w).atTime t)).atTime t2)).1
        = Except.ok (OtpResult.mk false (some "expired")
            "OTP has expired. Please request a new one.") := by
  have hs : exec (storeOTP m otp) w
      = w.put (otpKey m) (otpEntry (OtpData.mk otp 0 (some w.now)) w.now) := by
    rw [exec, storeOTP_run w m otp hsetex]
  obtain ⟨v, hv⟩ : ∃ v : World, v = (exec (storeOTP m otp) w).atTime t := ⟨_, rfl⟩
  have hl : lookup v (otpKey m)
      = some (Entry.mk (RVal.json (OtpData.mk otp 0 (some w.now))) (some (w.now + 300 * 1000))) := by
    rw [hv, hs]; exact lookup_otp_live w _ _ _ t ht
  have hgv : v.down (Call.redis RedisCmd.get) = false := by rw [hv, hs]; exact hget
  have hdv : v.down (Call.redis RedisCmd.del) = false := by rw [hv, hs]; exact hdel
  have hrun := verifyOTP_right v m (OtpData.mk otp 0 (some w.now)) _ hgv hdv hl (by norm_num)
  simp only at hrun
  rw [← hv]
  refine ⟨by rw [hrun], ?_, ?_⟩
  · rw [exec, hrun]
    exact lookup_put_none v _
  · rw [exec, hrun]
    rw [verifyOTP_absent ((v.put (otpKey m) none).atTime t2) m otp hgv
      (by simp [lookup, World.atTime, World.put])]

/-- Witness for C26: the code is verified 300 s after it was stored, then again. -/
theorem otp_single_use_witness :
    ((verifyOTP "+15550001" "123456").run
        ((exec (storeOTP "+15550001" "123456") emptyWorld).atTime 300000)).1
        = Except.ok (OtpResult.mk true none "OTP verified successfully") ∧
      ((verifyOTP "+15550001" "123456").run
          ((exec (verifyOTP "+15550001" "123456")
            ((exec (storeOTP "+15550001" "123456") emptyWorld).atTime 300000)).atTime 300000)).1
        = Except.ok (OtpResult.mk false (some "expired")
            "OTP has expired. Please request a new one.") :=
  ⟨(otp_single_use emptyWorld "+15550001" "123456" 300000 300000 rfl rfl rfl (by decide)).1,
    (otp_single_use emptyWorld "+15550001" "123456" 300000 300000 rfl rfl rfl (by decide)).2.2⟩

/-- C27. With the store up, after `storeOTP` three `verifyOTP` calls with wrong
codes, each made while the record is stored (at most 300 s after the previous
write), return reason `invalid` with 2, 1 and 0 attempts remaining; the next call,
whatever code it carries, returns `valid: false` with reason `max_attempts`, and
the stored OTP is gone afterwards. -/
theorem otp_attempts_bounded (w : World) (m otp c1 c2 c3 c4 : String) (t1 t2 t3 t4 : Time)
    (hsetex : w.down (Call.redis RedisCmd.setex) = false)
    (hget : w.down (Call.redis RedisCmd.get) = false)
    (hdel : w.down (Call.redis RedisCmd.del) = false)
    (h1 : c1 ≠ otp) (h2 : c2 ≠ otp) (h3 : c3 ≠ otp)
    (ht1 : t1 ≤ w.now + 300000) (ht2 : t2 ≤ t1 + 300000) (ht3 : t3 ≤ t2 + 300000)
    (ht4 : t4 ≤ t3 + 300000) :
    (verifyRun m (exec (storeOTP m otp) w) [(t1, c1), (t2, c2), (t3, c3), (t4, c4)]).1
        = [Except.ok (OtpResult.mk false (some "invalid") "Invalid OTP. 2 attempts remaining."),
           Except.ok (OtpResult.mk false (some "invalid") "Invalid OTP. 1 attempts remaining."),
           Except.ok (OtpResult.mk false (some "invalid") "Invalid OTP. 0 attempts remaining."),
           Except.ok (OtpResult.mk false (some "max_attempts")
             "Maximum attempts exceeded. Please request a new OTP.")] ∧
      lookup (verifyRun m (exec (storeOTP m otp) w)
        [(t1, c1), (t2, c2), (t3, c3), (t4, c4)]).2 (otpKey m) = none := by
  have hs : exec (storeOTP m otp) w
      = w.put (otpKey m) (otpEntry (OtpData.mk otp 0 (some w.now)) w.now) := by
    rw [exec, storeOTP_run w m otp hsetex]
  -- first wrong attempt
  obtain ⟨v1, hv1⟩ : ∃ v : World, v = (exec (storeOTP m otp) w).atTime t1 := ⟨_, rfl⟩
  have hl1 : lookup v1 (otpKey m)
      = some (Entry.mk (RVal.json (OtpData.mk otp 0 (some w.now))) (some (w.now + 300 * 1000))) := by
    rw [hv1, hs]; exact lookup_otp_live w _ _ _ t1 ht1
  have hr1 := verifyOTP_wrong v1 m c1 (OtpData.mk otp 0 (some w.now)) _
    (by rw [hv1, hs]; exact hget) (by rw [hv1, hs]; exact hsetex) hl1 (by norm_num) (Ne.symm h1)
  simp only at hr1
  have hn1 : v1.now = t1 := by rw [hv1]; rfl
  rw [hn1] at hr1
  -- second
  obtain ⟨v2, hv2⟩ : ∃ v : World,
      v = (v1.put (otpKey m) (otpEntry (OtpData.mk otp (0 + 1) none) t1)).atTime t2 := ⟨_, rfl⟩
  have hl2 : lookup v2 (otpKey m)
      = some (Entry.mk (RVal.json (OtpData.mk otp (0 + 1) none)) (some (t1 + 300 * 1000))) := by
    rw [hv2]; exact lookup_otp_live v1 _ _ _ t2 ht2
  have hr2 := verifyOTP_wrong v2 m c2 (OtpData.mk otp (0 + 1) none) _
    (by rw [hv2, hv1, hs]; exact hget) (by rw [hv2, hv1, hs]; exact hsetex) hl2 (by norm_num)
    (Ne.symm h2)
  simp only at hr2
  have hn2 : v2.now = t2 := by rw [hv2]; rfl
  rw [hn2] at hr2
  -- third
  obtain ⟨v3, hv3⟩ : ∃ v : World,
      v = (v2.put (otpKey m) (otpEntry (OtpData.mk otp (0 + 1 + 1) none) t2)).atTime t3 :=
    ⟨_, rfl⟩
  have hl3 : lookup v3 (otpKey m)
      = some (Entry.mk (RVal.json (OtpData.mk otp (0 + 1 + 1) none))
          (some (t2 + 300 * 1000))) := by
    rw [hv3]; exact lookup_otp_live v2 _ _ _ t3 ht3
  have hr3 := verifyOTP_wrong v3 m c3 (OtpData.mk otp (0 + 1 + 1) none) _
    (by rw [hv3, hv2, hv1, hs]; exact hget) (by rw [hv3, hv2, hv1, hs]; exact hsetex) hl3
    (by norm_num) (Ne.symm h3)
  simp only at hr3
  have hn3 : v3.now = t3 := by rw [hv3]; rfl
  rw [hn3] at hr3
  -- fourth
  obtain ⟨v4, hv4⟩ : ∃ v : World,
      v = (v3.put (otpKey m) (otpEntry (OtpData.mk otp (0 + 1 + 1 + 1) none) t3)).atTime t4 :=
    ⟨_, rfl⟩
  have hl4 : lookup v4 (otpKey m)
      = some (Entry.mk (RVal.json (OtpData.mk otp (0 + 1 + 1 + 1) none))
          (some (t3 + 300 * 1000))) := by
    rw [hv4]; exact lookup_otp_live v3 _ _ _ t4 ht4
  have hr4 := verifyOTP_max v4 m c4 (OtpData.mk otp (0 + 1 + 1 + 1) none) _
    (by rw [hv4, hv3, hv2, hv1, hs]; exact hget) (by rw [hv4, hv3, hv2, hv1, hs]; exact hdel) hl4
    (by norm_num)
  have hrun : verifyRun m (exec (storeOTP m otp) w) [(t1, c1), (t2, c2), (t3, c3), (t4, c4)]
      = ([Except.ok (OtpResult.mk false (some "invalid")
              ("Invalid OTP. " ++ toString ((2 : Int) - 0) ++ " attempts remaining.")),
           Except.ok (OtpResult.mk false (some "invalid")
              ("Invalid OTP. " ++ toString ((2 : Int) - (0 + 1)) ++ " attempts remaining.")),
           Except.ok (OtpResult.mk false (some "invalid")
              ("Invalid OTP. " ++ toString ((2 : Int) - (0 + 1 + 1)) ++ " attempts remaining.")),
           Except.ok (OtpResult.mk false (some "max_attempts")
             "Maximum attempts exceeded. Please request a new OTP.")],
          v4.put (otpKey m) none) := by
    simp only [verifyRun]
    rw [← hv1, hr1]
    simp only
    rw [← hv2, hr2]
    simp only
    rw [← hv3, hr3]
    simp only
    rw [← hv4, hr4]
  rw [hrun]
  refine ⟨?_, lookup_put_none v4 _⟩
  rfl

/-- Witness for C27: three wrong codes, then the correct one, ten seconds apart. -/
theorem otp_attempts_bounded_witness :
    (verifyRun "+15550001" (exec (storeOTP "+15550001" "123456") emptyWorld)
        [(10000, "111111"), (20000, "222222"), (30000, "333333"), (40000, "123456")]).1
      = [Except.ok (OtpResult.mk false (some "invalid") "Invalid OTP. 2 attempts remaining."),
         Except.ok (OtpResult.mk false (some "invalid") "Invalid OTP. 1 attempts remaining."),
         Except.ok (OtpResult.mk false (some "invalid") "Invalid OTP. 0 attempts remaining."),
         Except.ok (OtpResult.mk false (some "max_attempts")
           "Maximum attempts exceeded. Please request a new OTP.")] :=
  (otp_attempts_bounded emptyWorld "+15550001" "123456" "111111" "222222" "333333" "123456"
    10000 20000 30000 40000 rfl rfl rfl (by decide) (by decide) (by decide)
    (by decide) (by decide) (by decide) (by decide)).1

/-- C28 (failing input). First-match dispatch of `GET /api/chats/unread` over the
route table in declaration order selects `getChatHistory` with `userId = "unread"`:
the route `/:userId` is declared before `/unread`. Carol has one unread message
from Bob, which `getUnreadCounts` would return; her request instead runs
`getChatHistory`, whose query fails to cast `unread` to an identifier, so the reply
is an error and never the unread counts. -/
theorem unread_route_shadowed :
    dispatch chatRoutes Method.get ["unread"]
        = some (ChatHandler.getChatHistory, [("userId", "unread")]) ∧
      castObjectId "unread" = none ∧
      unreadCount unreadWorld carol bob = 1 ∧
      ((Chat.getUnreadCounts carol).run unreadWorld).1.map (fun h => h bob)
        = Except.ok (some 1) ∧
      ((chatRequest carolDoc Method.get ["unread"]).run unreadWorld).1.toOption.isNone = true ∧
      ((chatRequest carolDoc Method.get ["unread"]).run unreadWorld).2.out = unreadWorld.out ∧
      (∀ user w, (chatRequest user Method.get ["unread"]).run w
        = ((ChatController.getChatHistory user "unread" 1 50) >>= fun r => pure (some r)).run w) ∧
      (∀ user w, w.down (Call.db DbOp.messageFind) = false →
        ((chatRequest user Method.get ["unread"]).run w).1
          = Except.error "CastError: Cast to ObjectId failed") := by
  refine ⟨rfl, by decide, rfl, rfl, rfl, rfl, fun _ _ => rfl, ?_⟩
  intro user w hdb
  have h : dispatch chatRoutes Method.get ["unread"]
      = some (ChatHandler.getChatHistory, [("userId", "unread")]) := rfl
  have hc : castObjectId "unread" = none := by decide
  simp [chatRequest, h, paramOf, ChatController.getChatHistory, Message.findConversation,
    Eff.run_bind, call, hdb, hc]

/-- C29 (failing input). Alice created the team; her socket event `leave_group`
takes her out of both `members` and `admins` while the group stays in existence.
The HTTP `leaveGroup` and `removeMember` refuse the same change for the creator
(the group is unchanged), and `leaveGroup` lets another member leave. -/
theorem creator_leaves_by_socket :
    teamGroup.createdBy = alice ∧ processOne.groups = [teamGroup] ∧
      (exec (onLeaveGroup sockA team) processOne).groups
        = [{ teamGroup with members := [bob, carol], admins := [] }] ∧
      (exec (onLeaveGroup sockA team) processOne).out
        = [Emission.mk (Target.room (groupRoom team)) (Event.member_left team alice)] ∧
      ((GroupController.leaveGroup aliceDoc team).run processOne).2.groups = [teamGroup] ∧
      ((GroupController.removeMember aliceDoc team alice).run processOne).2.groups
        = [teamGroup] ∧
      ((GroupController.leaveGroup (UserDoc.mk bob "+15550002" "Bob" "b.png") team).run
          processOne).2.groups
        = [{ teamGroup with members := [alice, carol], admins := [alice] }] := by
  refine ⟨rfl, rfl, rfl, rfl, rfl, rfl, rfl⟩

/-- C30. With every collaborator up, the close of an established connection `c1`
of user `u` leaves `getSocket(u)` absent whatever the directory held for `u`, and
every other connection stays on the server. A valid, non-rate-limited
`private_message` to `u` afterwards takes the undelivered path: it is persisted
with `delivered = false`, the sender gets `message_sent` with `delivered: false`,
and the unread count of `u` for the sender grows by one. -/
theorem disconnect_removes_any_entry (w : World) (c1 : Conn)
    (hup : AllUp w)
    (hfind : w.conns.find? (fun c => decide (c.id = c1.id)) = some c1)
    (hl : c1.listening = true) :
    ((getSocket c1.userId).run (exec (handleDisconnect c1.id) w)).1 = Except.ok none ∧
      (∀ c ∈ w.conns, c.id ≠ c1.id → c ∈ (exec (handleDisconnect c1.id) w).conns) ∧
      (∀ (s : Socket) (text f t : String),
        castObjectId s.userId = some f → castObjectId c1.userId = some t → jsTrim text ≠ "" →
        counterOrAbsent w (rateKey s.userId "send_message") →
        counterOf w (rateKey s.userId "send_message") + 1 ≤ 20 →
        hashOrAbsent w (unreadKey c1.userId) →
        (exec (onPrivateMessage s c1.userId text) (exec (handleDisconnect c1.id) w)).messages
            = w.messages ++
              [MessageDoc.mk (freshId w.messages) f t (jsTrim text) w.now false false none] ∧
          (exec (onPrivateMessage s c1.userId text) (exec (handleDisconnect c1.id) w)).out
            = (exec (handleDisconnect c1.id) w).out ++
              [Emission.mk (Target.socket s.id)
                (Event.message_sent (freshId w.messages) false)] ∧
          unreadCount (exec (onPrivateMessage s c1.userId text)
              (exec (handleDisconnect c1.id) w)) c1.userId s.userId
            = unreadCount w c1.userId s.userId + 1) := by
  obtain ⟨v, hv⟩ : ∃ v : World, v = exec (handleDisconnect c1.id) w := ⟨_, rfl⟩
  have hrun := handleDisconnect_run w c1 (hup _) hfind hl
  have hv2 := hv
  rw [exec, hrun] at hv2
  simp only at hv2
  rw [← hv]
  have hnow : v.now = w.now := by rw [hv2]; rfl
  have hdown : v.down = w.down := by rw [hv2]; rfl
  have hmsgs : v.messages = w.messages := by rw [hv2]; rfl
  have hupv : AllUp v := fun c => by rw [hdown]; exact hup c
  have hother : ∀ k, k ≠ socketKey c1.userId → v.redis k = w.redis k := by
    intro k hk
    rw [hv2]
    show (World.put _ _ _).redis k = _
    rw [put_redis_other _ _ _ _ hk]
  have hsock : lookup v (socketKey c1.userId) = none := by
    rw [hv2]
    simp [lookup, World.put]
  refine ⟨?_, ?_, ?_⟩
  · exact congrArg Prod.fst (getSocket_run_absent v c1.userId (hupv _) hsock)
  · intro c hc hne
    rw [hv2]
    show c ∈ w.conns.filter (fun x => decide (x.id ≠ c1.id))
    exact List.mem_filter.mpr ⟨hc, by simpa using hne⟩
  · intro s text f t hf ht htrim hkey hrate hun
    have hlr : lookup v (rateKey s.userId "send_message")
        = lookup w (rateKey s.userId "send_message") :=
      lookup_frame w v _ (hother _ (Ne.symm (rateKey_ne_socketKey _ _ _))) hnow
    have hlu : lookup v (unreadKey c1.userId) = lookup w (unreadKey c1.userId) :=
      lookup_frame w v _ (hother _ (Ne.symm (socketKey_ne_unreadKey _ _))) hnow
    have hkeyv : counterOrAbsent v (rateKey s.userId "send_message") := by
      intro e he; rw [hlr] at he; exact hkey e he
    have hratev : counterOf v (rateKey s.userId "send_message") + 1 ≤ 20 := by
      unfold counterOf at hrate ⊢
      rw [hlr]; exact hrate
    have hunv : hashOrAbsent v (unreadKey c1.userId) := by
      intro e he; rw [hlu] at he; exact hun e he
    obtain ⟨h1, h2, _, h4, _⟩ :=
      pm_offline_effect v s c1.userId text f t hupv hf ht htrim hkeyv hratev hsock hunv
    rw [hmsgs, hnow] at h2
    rw [hmsgs] at h1
    refine ⟨h2, h1, ?_⟩
    rw [h4]
    rw [unreadCount_frame w v _ _ (hother _ (Ne.symm (socketKey_ne_unreadKey _ _))) hnow]

/-- Witness for C30: Carol connects with `c1`, then with `c2` (the directory names
`c2`); `c1` closes, and Alice sends `hi` to Carol while `c2` is still connected. -/
theorem disconnect_removes_any_entry_witness :
    lookup twoTabs (socketKey carol)
        = some (Entry.mk (RVal.str "c2") (some (1000 + 86400 * 1000))) ∧
      ((getSocket carol).run (exec (handleDisconnect "c1") twoTabs)).1 = Except.ok none ∧
      Conn.mk "c2" carol ["c2", carol] true ∈ (exec (handleDisconnect "c1") twoTabs).conns ∧
      (exec (onPrivateMessage sockA carol "hi") (exec (handleDisconnect "c1") twoTabs)).messages
        = twoTabs.messages ++
          [MessageDoc.mk (freshId twoTabs.messages) alice carol (jsTrim "hi") twoTabs.now
            false false none] ∧
      unreadCount (exec (onPrivateMessage sockA carol "hi")
          (exec (handleDisconnect "c1") twoTabs)) carol alice
        = unreadCount twoTabs carol alice + 1 :=
  ⟨rfl,
    (disconnect_removes_any_entry twoTabs (Conn.mk "c1" carol ["c1", carol] true)
      (fun _ => rfl) rfl rfl).1,
    (disconnect_removes_any_entry twoTabs (Conn.mk "c1" carol ["c1", carol] true)
      (fun _ => rfl) rfl rfl).2.1 _ (by decide) (by decide),
    ((disconnect_removes_any_entry twoTabs (Conn.mk "c1" carol ["c1", carol] true)
      (fun _ => rfl) rfl rfl).2.2 sockA "hi" alice carol (by decide) (by decide) (by decide)
      (by intro e he; cases he) (by decide) (by intro e he; cases he)).1,
    ((disconnect_removes_any_entry twoTabs (Conn.mk "c1" carol ["c1", carol] true)
      (fun _ => rfl) rfl rfl).2.2 sockA "hi" alice carol (by decide) (by decide) (by decide)
      (by intro e he; cases he) (by decide) (by intro e he; cases he)).2.2⟩

end Chat
